import Mathlib

/-!
# Embree acceleration-structure core: two-level builder and tessellation cache

A shallow embedding of

* `src/kernels/bvh/bvh_builder_twolevel.cpp` (`BVHNBuilderTwoLevel::build`,
  `deleteGeometry`, `open_sequential`, the builder set-up helpers),
* `src/kernels/xeon/geometry/subdivpatch1cached_intersector1.cpp`
  (`getSubtreeRootNode`, `getSubtreeRootNodeFromCacheHierarchy`, `updateNodeRefs`,
  `buildSubdivPatchTree`, `createSubTree`),
* `src/common/math/interval.h` (`merge`, the operators `+`, `-` and `*`, `subset`), and
* `src/kernels/common/geometry.cpp` (the commit state, the accounting of filter
  functions, `interpolateN`),

followed by the properties proved about them.
-/

namespace Embree

/-! ## Bounds -/

/-- Modelled from the spec: the axis-aligned box `BBox<V>` of `bbox.h` (a header that is
not among the sources; `interval.h` line 36 shows its two members).  `V` is the corner
type (`Vec3fa` for `BBox3fa`); `⊓`/`⊔` are the component-wise `min`/`max`. -/
structure BBox (V : Type) where
  lower : V
  upper : V
deriving DecidableEq, Repr

namespace BBox

variable {V : Type} [Lattice V] [BoundedOrder V]

/-- The box built from `empty`: `lower = pos_inf`, `upper = neg_inf`. -/
def empty : BBox V := ⟨⊤, ⊥⟩

/-- Union of two boxes: `min` of the lower corners, `max` of the upper corners. -/
def merge (a b : BBox V) : BBox V := ⟨a.lower ⊓ b.lower, a.upper ⊔ b.upper⟩

/-- Union of a sequence of boxes, starting from the empty box (the reduction
`PrimInfo(empty)` followed by one `extend` per element). -/
def mergeAll (l : List (BBox V)) : BBox V := l.foldl merge empty

end BBox

/-! ## Node references and build references -/

/-- Modelled from the spec: the `NodeRef` of `bvh.h` (not among the sources), as far as
the two-level builder looks at it: an empty slot, a leaf (pointer and primitive count),
or an `AABBNode` with `N` child slots, each holding the child's bounds and reference.
The sub-BVHs hanging off the references form a finite forest. -/
inductive NodeRef (N : Nat) (V : Type) where
  | emptyNode : NodeRef N V
  | leaf (ptr : Nat) (num : Nat) : NodeRef N V
  | aabb (bounds : Fin N → BBox V) (child : Fin N → NodeRef N V) : NodeRef N V

namespace NodeRef

variable {N : Nat} {V : Type}

/-- The test `ref == BVH::emptyNode`. -/
def isEmpty : NodeRef N V → Bool
  | emptyNode => true
  | _ => false

/-- The test `ref.isAABBNode()`. -/
def isAABBNode : NodeRef N V → Bool
  | aabb _ _ => true
  | _ => false

/-- The test `ref.isLeaf()`: every reference that does not address an inner node carries
the leaf tag (the empty slot is the leaf tag without a pointer). -/
def isLeaf : NodeRef N V → Bool
  | aabb _ _ => false
  | _ => true

/-- Leaf references reachable from a reference, descending through AABB nodes and
skipping empty child slots, listed in slot order (with multiplicity). -/
def leafRefs : NodeRef N V → List (NodeRef N V)
  | emptyNode => []
  | leaf p n => [leaf p n]
  | aabb _ child => ((List.finRange N).map fun i => leafRefs (child i)).flatten

/-- Number of AABB nodes reachable from a reference. -/
def aabbNodes : NodeRef N V → Nat
  | emptyNode => 0
  | leaf _ _ => 0
  | aabb _ child => 1 + ((List.finRange N).map fun i => aabbNodes (child i)).sum

/-- Every AABB node reachable from the reference has at least one non-empty child. -/
def populated : NodeRef N V → Prop
  | aabb _ child => (∃ i, (child i).isEmpty = false) ∧ ∀ i, populated (child i)
  | _ => True

end NodeRef

/-- Modelled from the spec: `BuildRef` of `bvh_builder_twolevel.h` (not among the
sources): a bounding box paired with the `NodeRef` of a sub-BVH root. -/
structure BuildRef (N : Nat) (V : Type) where
  bounds : BBox V
  node : NodeRef N V

namespace BuildRef

variable {N : Nat} {V : Type}

/-- Leaf references reachable from the entries of a `BuildRef` array. -/
def leafRefs (refs : List (BuildRef N V)) : List (NodeRef N V) :=
  (refs.map fun r => r.node.leafRefs).flatten

/-- Number of AABB nodes reachable from the entries of a `BuildRef` array. -/
def aabbNodes (refs : List (BuildRef N V)) : Nat :=
  (refs.map fun r => r.node.aabbNodes).sum

/-- Union of the bounds of the entries of a `BuildRef` array. -/
def geomBounds [Lattice V] [BoundedOrder V] (refs : List (BuildRef N V)) : BBox V :=
  BBox.mergeAll (refs.map fun r => r.bounds)

end BuildRef

/-! ## The standard heap algorithms -/

/-- The predicate `std::is_heap` for the ordering `a < b :⇔ key a < key b`: no element
is larger than its parent, the parent of position `i > 0` being position `(i-1)/2`. -/
def is_heap {E K : Type} [LinearOrder K] (key : E → K) (l : List E) : Prop :=
  ∀ i a b, 0 < i → l[i]? = some a → l[(i - 1) / 2]? = some b → key a ≤ key b

/-- Modelled from the spec: the "standard heap operations" `std::make_heap`,
`std::pop_heap` and `std::push_heap` that keep the `BuildRef` array a max-heap ordered by
surface area.  They are library code; the C++ standard fixes their contract and leaves the
arrangement of the array open, so they are taken with exactly that contract.  `key` is
the quantity `BuildRef::operator<` compares. -/
structure HeapAlgorithms (E K : Type) [LinearOrder K] (key : E → K) where
  make_heap : List E → List E
  pop_heap : List E → List E
  push_heap : List E → List E
  make_heap_perm : ∀ l, (make_heap l).Perm l
  make_heap_heap : ∀ l, is_heap key (make_heap l)
  pop_heap_perm : ∀ l, is_heap key l → (pop_heap l).Perm l
  pop_heap_last : ∀ l, is_heap key l → (pop_heap l).getLast? = l.head?
  pop_heap_heap : ∀ l, is_heap key l → is_heap key (pop_heap l).dropLast
  push_heap_perm : ∀ l, is_heap key l.dropLast → (push_heap l).Perm l
  push_heap_heap : ∀ l, is_heap key l.dropLast → is_heap key (push_heap l)

/-! ## Opening (`open_sequential`) -/

/-- How a run of the opening loop ends. -/
inductive Outcome where
  /-- The loop was left through its condition or through `break`. -/
  | finished
  /-- Undefined behaviour: `pop_heap` and `refs_.back()` on an empty array. -/
  | undefinedBehaviour
  /-- The iteration budget of the model ran out. -/
  | outOfFuel
deriving DecidableEq, Repr

/-- The value of `size_t` arithmetic: modulo `2^64`. -/
def sizeT : Nat := 2 ^ 64

/-- The loop condition `refs_.size()+N-1 <= extSize`, evaluated in `size_t`: the sum is
taken modulo `2^64`, and subtracting one from zero wraps around to `2^64-1`. -/
def openCond (N extSize size : Nat) : Bool :=
  decide ((if size + N = 0 then sizeT - 1 else (size + N - 1) % sizeT) ≤ extSize)

/-- The last value an array takes along a trace, `init` if the trace is empty. -/
def finalState {X : Type} (init : X) (trace : List X) : X :=
  trace.getLast?.getD init

section Opening

variable {N : Nat} {V K : Type} [LinearOrder K] {key : BuildRef N V → K}

/-- The inner loop `for (size_t i=0; i<N; i++)` of `open_sequential` over the child slots
`slots`: an empty child is skipped, any other child is appended with its bounds
(`push_back`) and sifted up (`push_heap`).  The result lists every value `refs_` takes. -/
def pushChildren (H : HeapAlgorithms (BuildRef N V) K key)
    (bounds : Fin N → BBox V) (child : Fin N → NodeRef N V) :
    List (Fin N) → List (BuildRef N V) → List (List (BuildRef N V))
  | [], _ => []
  | i :: slots, refs =>
    if (child i).isEmpty then pushChildren H bounds child slots refs
    else
      let pushed := refs ++ [BuildRef.mk (bounds i) (child i)]
      let sifted := H.push_heap pushed
      pushed :: sifted :: pushChildren H bounds child slots sifted

/-- The entries the inner loop of `open_sequential` appends for the child slots `slots`
of a node: one `BuildRef(node->bounds(i), node->child(i))` per non-empty child. -/
def openedChildren (bounds : Fin N → BBox V) (child : Fin N → NodeRef N V)
    (slots : List (Fin N)) : List (BuildRef N V) :=
  (slots.filter fun i => !(child i).isEmpty).map fun i => BuildRef.mk (bounds i) (child i)

/-- The loop `while (refs_.size()+N-1 <= extSize)` of `open_sequential`, at most `fuel`
iterations of it.  The first component lists every value `refs_` takes, in order. -/
def openLoop (H : HeapAlgorithms (BuildRef N V) K key) (extSize : Nat) :
    Nat → List (BuildRef N V) → List (List (BuildRef N V)) × Outcome
  | 0, refs => if openCond N extSize refs.length then ([], Outcome.outOfFuel)
               else ([], Outcome.finished)
  | fuel + 1, refs =>
    if openCond N extSize refs.length then
      let popped := H.pop_heap refs
      match popped.getLast? with
      | none => ([popped], Outcome.undefinedBehaviour)
      | some back =>
        if back.node.isLeaf then ([popped], Outcome.finished)
        else
          match back.node with
          | NodeRef.aabb bounds child =>
            let shrunk := popped.dropLast
            let trace := pushChildren H bounds child (List.finRange N) shrunk
            let rest := openLoop H extSize fuel (finalState shrunk trace)
            (popped :: shrunk :: trace ++ rest.1, rest.2)
          | _ => ([popped], Outcome.undefinedBehaviour)
    else ([], Outcome.finished)

/-- A run of `open_sequential`: every value `refs_` takes after the initial one, and how
the run ends. -/
structure OpenRun (N : Nat) (V : Type) where
  init : List (BuildRef N V)
  states : List (List (BuildRef N V))
  outcome : Outcome

/-- The array `refs_` when the run is over. -/
def OpenRun.final (r : OpenRun N V) : List (BuildRef N V) := finalState r.init r.states

/-- The method `open_sequential(extSize)` run on the array `refs`: nothing happens on an
empty array; otherwise `make_heap`, then the opening loop.  The prefetch loop has no effect
on `refs_`.  The loop gets one iteration more than there are AABB nodes below `refs`. -/
def open_sequential (H : HeapAlgorithms (BuildRef N V) K key) (extSize : Nat)
    (refs : List (BuildRef N V)) : OpenRun N V :=
  if refs.length = 0 then ⟨refs, [], Outcome.finished⟩
  else
    ⟨refs,
     H.make_heap refs ::
       (openLoop H extSize (BuildRef.aabbNodes refs + 1) (H.make_heap refs)).1,
     (openLoop H extSize (BuildRef.aabbNodes refs + 1) (H.make_heap refs)).2⟩

end Opening

/-- A sequence sorted in descending key order is a max-heap. -/
theorem is_heap_of_sorted {E K : Type} [LinearOrder K] (key : E → K) (l : List E)
    (h : l.Sorted fun a b => key b ≤ key a) : is_heap key l := by
  intro i a b hi ha hb
  obtain ⟨h1, rfl⟩ := List.getElem?_eq_some.mp ha
  obtain ⟨h2, rfl⟩ := List.getElem?_eq_some.mp hb
  have hlt : (i - 1) / 2 < i := by omega
  exact (List.pairwise_iff_getElem.mp h) ((i - 1) / 2) i h2 h1 hlt

/-- Insertion sort by descending key yields a sorted sequence. -/
theorem sorted_insertionSort_desc {E K : Type} [LinearOrder K] (key : E → K) (l : List E) :
    (l.insertionSort fun a b => key b ≤ key a).Sorted fun a b => key b ≤ key a := by
  haveI : IsTotal E (fun a b => key b ≤ key a) := ⟨fun a b => le_total (key b) (key a)⟩
  haveI : IsTrans E (fun a b => key b ≤ key a) := ⟨fun a b c hab hbc => le_trans hbc hab⟩
  exact List.sorted_insertionSort _ l

/-- A conforming implementation of the heap algorithms: a sequence sorted in descending
order is a max-heap, so every operation may re-sort the part it has to leave as a heap. -/
def sortedHeap {E K : Type} [LinearOrder K] (key : E → K) : HeapAlgorithms E K key where
  make_heap l := l.insertionSort fun a b => key b ≤ key a
  pop_heap l :=
    match l with
    | [] => []
    | a :: t => (t.insertionSort fun a b => key b ≤ key a) ++ [a]
  push_heap l := l.insertionSort fun a b => key b ≤ key a
  make_heap_perm l := List.perm_insertionSort _ l
  make_heap_heap l := is_heap_of_sorted key _ (sorted_insertionSort_desc key l)
  pop_heap_perm l _ := by
    cases l with
    | nil => exact List.Perm.refl _
    | cons a t =>
      exact (List.perm_append_comm.trans
        (List.Perm.cons a (List.perm_insertionSort _ t)))
  pop_heap_last l _ := by
    cases l with
    | nil => rfl
    | cons a t => simp
  pop_heap_heap l _ := by
    cases l with
    | nil => intro i a b _ ha; simp at ha
    | cons a t =>
      simp only [List.dropLast_concat]
      exact is_heap_of_sorted key _ (sorted_insertionSort_desc key t)
  push_heap_perm l _ := List.perm_insertionSort _ l
  push_heap_heap l _ := is_heap_of_sorted key _ (sorted_insertionSort_desc key l)

/-! ## The two-level builder (`BVHNBuilderTwoLevel::build`) -/

/-- Modelled from the spec: what `build()` reads of a scene geometry (`Mesh` is a template
parameter whose classes are not among the sources): its primitive count `size()`, its
number of time steps, whether it is enabled, and its build quality. -/
structure Mesh where
  size : Nat
  numTimeSteps : Nat
  isEnabled : Bool
  quality : Nat
deriving DecidableEq, Repr

/-- Modelled from the spec: the scene as `build()` sees it.  `meshes[i]` is
`scene_->getSafe<Mesh>(i)` (`none` for a null pointer), its length is `scene_->size()`, and
`numPrimitives` is `scene_->getNumPrimitives(Mesh::geom_type,false)`. -/
structure Scene where
  meshes : List (Option Mesh)
  numPrimitives : Nat
deriving DecidableEq, Repr

/-- Modelled from the spec: the per-object builders of `bvh_builder_twolevel.h` (not among
the sources): the "small" builder creates references at once, the "large" one owns a
sub-BVH builder and remembers the quality it was created for. -/
inductive RefBuilder where
  | small (objectID : Nat)
  | large (objectID : Nat) (quality : Nat)
deriving DecidableEq, Repr

/-- The query `meshQualityChanged(quality)`: a large builder was created for a different
quality; a small builder has no quality. -/
def RefBuilder.meshQualityChanged : RefBuilder → Nat → Bool
  | RefBuilder.small _, _ => false
  | RefBuilder.large _ q, quality => q != quality

/-- Calls that `build()` and `deleteGeometry()` make on their collaborators, in order. -/
inductive Event where
  /-- The call `builders_[i]->clear()`. -/
  | clearBuilder (i : Nat)
  /-- The statement `delete bvh_->objects[i]`. -/
  | deleteObject (i : Nat)
  /-- The call `createMeshAccel(objectID, builder)`. -/
  | createMeshAccel (objectID : Nat)
  /-- A new `RefBuilderSmall(objectID)`. -/
  | newSmallBuilder (objectID : Nat)
  /-- A new `RefBuilderLarge(objectID, builder, quality)`. -/
  | newLargeBuilder (objectID : Nat) (quality : Nat)
  /-- The call `builders_[objectID]->attachBuildRefs(this)`. -/
  | attachBuildRefs (objectID : Nat)
  /-- The call `open_sequential(extSize)`. -/
  | open_sequential (extSize : Nat)
  /-- The call `BVHBuilderBinnedSAH::build` on `numPrims` primitive references. -/
  | buildBinnedSAH (numPrims : Nat)
  /-- The call `BVHBuilderBinnedOpenMergeSAH::build` with room for `extSize` references. -/
  | buildBinnedOpenMergeSAH (extSize : Nat)
deriving DecidableEq, Repr

/-- The event is a call of the opening step or of a top-level SAH builder. -/
def Event.isTopLevel : Event → Bool
  | Event.open_sequential _ => true
  | Event.buildBinnedSAH _ => true
  | Event.buildBinnedOpenMergeSAH _ => true
  | _ => false

/-- The event belongs to the deletion of removed objects. -/
def Event.isDeletion : Event → Bool
  | Event.clearBuilder _ => true
  | Event.deleteObject _ => true
  | _ => false

/-- Undefined behaviour `build()` can run into. -/
inductive Fault where
  /-- An access to `builders_[i]` where that entry does not exist, or a member call through
  it where it is null. -/
  | nullBuilder (i : Nat)
  /-- The array `refs_` ran empty inside `open_sequential`. -/
  | emptyHeap
  /-- An element access `refs_[i]` behind the end of the array. -/
  | outOfRange (i : Nat)
deriving DecidableEq, Repr

/-- The primitive reference `PrimRef(bounds, ID)` the top-level builder works on; the
identifier holds the bits of the `NodeRef`. -/
structure PrimRef (N : Nat) (V : Type) where
  bounds : BBox V
  ID : NodeRef N V

/-- Modelled from the spec: the aggregate `PrimInfo` of `priminfo.h` (not among the
sources) as far as `build()` reads it: the number of references added and the union of
their bounds.  The centroid bounds, which only steer the SAH builder, are left out. -/
structure PrimInfo (V : Type) where
  size : Nat
  geomBounds : BBox V

/-- The settings handed to the SAH builder. -/
structure Settings where
  branchingFactor : Nat
  maxDepth : Nat
  logBlockSize : Nat
  minLeafSize : Nat
  maxLeafSize : Nat
  travCost : Nat
  intCost : Nat
  singleThreadThreshold : Nat
deriving DecidableEq, Repr

/-- Compile-time switches and constants of the builder whose definitions are in headers
that are not among the sources, and the constructor argument `singleThreadThreshold`.
`primReserve n` stands for `size_t((float)n / SPLIT_MEMORY_RESERVE_FACTOR)`. -/
structure Config where
  ENABLE_DIRECT_SAH_MERGE_BUILDER : Bool
  ENABLE_OPEN_SEQUENTIAL : Bool
  SPLIT_MIN_EXT_SPACE : Nat
  SPLIT_MEMORY_RESERVE_SCALE : Nat
  primReserve : Nat → Nat
  maxBuildDepthLeaf : Nat
  singleThreadThreshold_ : Nat

/-- The state of a `BVHNBuilderTwoLevel` together with the scene BVH `bvh_` it fills:
`objects` is `bvh_->objects` (`none` for a null pointer), `root`, `bounds` and
`numPrimitives` are what `bvh_->set` stored last, `log` records the collaborator calls.
Of `refs_` only the entries in front of the cursor `nextRef_` are kept: `build()` never
reads the others. -/
structure TwoLevel (N : Nat) (V : Type) where
  objects : List (Option Nat)
  builders_ : List (Option RefBuilder)
  refs_ : List (BuildRef N V)
  prims_ : List (PrimRef N V)
  nextRef_ : Nat
  root : NodeRef N V
  bounds : BBox V
  numPrimitives : Nat
  log : List Event

section Builder

variable {N : Nat} {V K : Type} [LinearOrder K] {key : BuildRef N V → K}

/-- The collaborators of `build()` whose code is not among the sources: what a per-object
builder stores at the cursor in `attachBuildRefs`, the two top-level SAH builders (each
returns the root it built), and the heap algorithms. -/
structure Collaborators (N : Nat) (V K : Type) [LinearOrder K] (key : BuildRef N V → K) where
  attachBuildRefs : Nat → RefBuilder → List (BuildRef N V)
  buildBinnedSAH : (Nat → Option (NodeRef N V)) → List (PrimRef N V) → PrimInfo V →
    Settings → NodeRef N V
  buildBinnedOpenMergeSAH : List (BuildRef N V) → Nat → PrimInfo V → Settings → NodeRef N V
  heap : HeapAlgorithms (BuildRef N V) K key

/-- The call `bvh_->set(root, bounds, numPrimitives)`. -/
def TwoLevel.set (s : TwoLevel N V) (root : NodeRef N V) (bounds : BBox V)
    (numPrimitives : Nat) : TwoLevel N V :=
  { s with root := root, bounds := bounds, numPrimitives := numPrimitives }

/-- Appends collaborator calls to the log. -/
def TwoLevel.record (s : TwoLevel N V) (events : List Event) : TwoLevel N V :=
  { s with log := s.log ++ events }

/-- The deletion loop of `build()` over the indices `is`:
`builders_[i]->clear(); delete bvh_->objects[i]; bvh_->objects[i] = nullptr;`. -/
def deleteObjects : List Nat → TwoLevel N V → Except Fault (TwoLevel N V)
  | [], s => Except.ok s
  | i :: is, s =>
    match s.builders_.getD i none with
    | none => Except.error (Fault.nullBuilder i)
    | some _ =>
      deleteObjects is
        ({ s with objects := s.objects.set i none }.record
          [Event.clearBuilder i, Event.deleteObject i])

/-- The first step of `build()`: `if (num < bvh_->objects.size())` delete the objects
`num ≤ i < bvh_->objects.size()`. -/
def deletePhase (scene : Scene) (s : TwoLevel N V) : Except Fault (TwoLevel N V) :=
  if scene.meshes.length < s.objects.length then
    deleteObjects (List.range' scene.meshes.length (s.objects.length - scene.meshes.length)) s
  else Except.ok s

/-- The early return of `build()` for a scene without primitives:
`prims_.resize(0); bvh_->set(BVH::emptyNode,empty,0); return;`. -/
def skipEmptyScene [Lattice V] [BoundedOrder V] (s : TwoLevel N V) : TwoLevel N V :=
  { s with prims_ := [] }.set NodeRef.emptyNode BBox.empty 0

/-- The call `v.resize(num)` guarded by `if (v.size() < num)`: null entries are appended. -/
def growTo {X : Type} (num : Nat) (v : List (Option X)) : List (Option X) :=
  if v.length < num then v ++ List.replicate (num - v.length) none else v

/-- The statements between the early return and the set-up loop: both object arrays are
grown to the scene size and the cursor is reset (`nextRef_.store(0)`). -/
def prepare (scene : Scene) (s : TwoLevel N V) : TwoLevel N V :=
  { s with
    objects := growTo scene.meshes.length s.objects
    builders_ := growTo scene.meshes.length s.builders_
    refs_ := []
    nextRef_ := 0 }

/-- The method `setupSmallBuildRefBuilder(objectID, mesh)`. -/
def setupSmallBuildRefBuilder (objectID : Nat) (s : TwoLevel N V) : TwoLevel N V :=
  match s.builders_.getD objectID none with
  | none =>
    { s with builders_ := s.builders_.set objectID (some (RefBuilder.small objectID)) }.record
      [Event.newSmallBuilder objectID]
  | some _ => s

/-- The two statements `createMeshAccel(objectID, builder); builders_[objectID].reset(new
RefBuilderLarge(objectID, builder, mesh->quality));`. -/
def createLarge (objectID : Nat) (mesh : Mesh) (s : TwoLevel N V) : TwoLevel N V :=
  { s with
    objects := s.objects.set objectID (some objectID)
    builders_ := s.builders_.set objectID (some (RefBuilder.large objectID mesh.quality)) }.record
    [Event.createMeshAccel objectID, Event.newLargeBuilder objectID mesh.quality]

/-- The method `setupLargeBuildRefBuilder(objectID, mesh)`. -/
def setupLargeBuildRefBuilder (objectID : Nat) (mesh : Mesh) (s : TwoLevel N V) :
    Except Fault (TwoLevel N V) :=
  match s.objects.getD objectID none with
  | none => Except.ok (createLarge objectID mesh s)
  | some _ =>
    match s.builders_.getD objectID none with
    | none => Except.error (Fault.nullBuilder objectID)
    | some b =>
      if b.meshQualityChanged mesh.quality then
        Except.ok (createLarge objectID mesh (s.record [Event.deleteObject objectID]))
      else Except.ok s

/-- The body of the set-up loop for one `objectID`. -/
def setupObject (N : Nat) (scene : Scene) (objectID : Nat) (s : TwoLevel N V) :
    Except Fault (TwoLevel N V) :=
  match scene.meshes.getD objectID none with
  | none => Except.ok s
  | some mesh =>
    if mesh.numTimeSteps ≠ 1 then Except.ok s
    else if mesh.size > N then setupLargeBuildRefBuilder objectID mesh s
    else Except.ok (setupSmallBuildRefBuilder objectID s)

/-- The body of the attach loop for one `objectID`: the builder stores its references at
the cursor, which advances by their number. -/
def attachObject (env : Collaborators N V K key) (scene : Scene) (objectID : Nat)
    (s : TwoLevel N V) : Except Fault (TwoLevel N V) :=
  match scene.meshes.getD objectID none with
  | none => Except.ok s
  | some mesh =>
    if mesh.isEnabled = false ∨ mesh.numTimeSteps ≠ 1 then Except.ok s
    else
      match s.builders_.getD objectID none with
      | none => Except.error (Fault.nullBuilder objectID)
      | some b =>
        Except.ok
          ({ s with
             refs_ := s.refs_ ++ env.attachBuildRefs objectID b
             nextRef_ := s.nextRef_ + (env.attachBuildRefs objectID b).length }.record
            [Event.attachBuildRefs objectID])

/-- A loop `for (objectID = 0; objectID < num; objectID++)` with body `body`, run in index
order (the source runs it with `parallel_for`). -/
def forObjects (body : Nat → TwoLevel N V → Except Fault (TwoLevel N V)) :
    List Nat → TwoLevel N V → Except Fault (TwoLevel N V)
  | [], s => Except.ok s
  | i :: is, s =>
    match body i s with
    | Except.error f => Except.error f
    | Except.ok t => forObjects body is t

/-- The statements of `build()` from the size estimate to the end of the attach loop:
the arrays are grown, every supported object gets its builder, and every enabled object's
builder stores its references. -/
def collectRefs (env : Collaborators N V K key) (scene : Scene) (s : TwoLevel N V) :
    Except Fault (TwoLevel N V) :=
  match forObjects (setupObject N scene) (List.range scene.meshes.length) (prepare scene s) with
  | Except.error f => Except.error f
  | Except.ok t => forObjects (attachObject env scene) (List.range scene.meshes.length) t

/-- The reserved capacity `extSize` computed in the general path. -/
def extSize (cfg : Config) (numRefs numPrimitives : Nat) : Nat :=
  max (max cfg.SPLIT_MIN_EXT_SPACE (numRefs * cfg.SPLIT_MEMORY_RESERVE_SCALE))
    (cfg.primReserve numPrimitives)

/-- The reduction `parallel_reduce(0, refs_.size(), PrimInfo(empty), …)`: one
`add_center2` per reference, folded from the left (the source leaves the bracketing to
the scheduler). -/
def computePrimInfo [Lattice V] [BoundedOrder V] (refs : List (BuildRef N V)) : PrimInfo V :=
  ⟨refs.length, BuildRef.geomBounds refs⟩

/-- The array `prims_` after the reduction: `prims_[i] = PrimRef(refs_[i].bounds(),
(size_t)refs_[i].node)` for every `i < refs_.size()`, the size `prims_.resize` gave it. -/
def primRefs (refs : List (BuildRef N V)) : List (PrimRef N V) :=
  refs.map fun r => PrimRef.mk r.bounds r.node

/-- The leaf-creation callback handed to `BVHBuilderBinnedSAH::build`, applied to a range
beginning at `start`: `(NodeRef) prims[range.begin()].ID()`. -/
def createLeaf (prims : List (PrimRef N V)) (start : Nat) : Option (NodeRef N V) :=
  prims[start]?.map fun p => p.ID

/-- The settings of the top-level build. -/
def topLevelSettings (N : Nat) (cfg : Config) : Settings where
  branchingFactor := N
  maxDepth := cfg.maxBuildDepthLeaf
  logBlockSize := Nat.log2 N
  minLeafSize := 1
  maxLeafSize := 1
  travCost := 1
  intCost := 1
  singleThreadThreshold := cfg.singleThreadThreshold_

/-- The opening step of the general path.  With the direct merge builder nothing happens
here; otherwise `open_sequential(extSize)` runs if it is compiled in. -/
def openRefs (cfg : Config) (env : Collaborators N V K key) (ext : Nat) (s : TwoLevel N V) :
    Except Fault (TwoLevel N V) :=
  if cfg.ENABLE_DIRECT_SAH_MERGE_BUILDER then Except.ok s
  else if cfg.ENABLE_OPEN_SEQUENTIAL then
    if (open_sequential env.heap ext s.refs_).outcome = Outcome.finished then
      Except.ok ({ s with refs_ := (open_sequential env.heap ext s.refs_).final }.record
        [Event.open_sequential ext])
    else Except.error Fault.emptyHeap
  else Except.ok s

/-- The rest of the general path: the reduction, then either the empty root (no
reference at all) or the top-level SAH build, whose root is installed with the aggregate
bounds. -/
def installTopLevel [Lattice V] [BoundedOrder V] (cfg : Config)
    (env : Collaborators N V K key) (numPrimitives ext : Nat) (s : TwoLevel N V) :
    TwoLevel N V :=
  if (computePrimInfo s.refs_).size = 0 then
    (if cfg.ENABLE_DIRECT_SAH_MERGE_BUILDER then s else { s with prims_ := primRefs s.refs_ }).set
      NodeRef.emptyNode BBox.empty 0
  else if cfg.ENABLE_DIRECT_SAH_MERGE_BUILDER then
    (s.record [Event.buildBinnedOpenMergeSAH ext]).set
      (env.buildBinnedOpenMergeSAH s.refs_ ext (computePrimInfo s.refs_) (topLevelSettings N cfg))
      (computePrimInfo s.refs_).geomBounds numPrimitives
  else
    ({ s with prims_ := primRefs s.refs_ }.record [Event.buildBinnedSAH s.refs_.length]).set
      (env.buildBinnedSAH (createLeaf (primRefs s.refs_)) (primRefs s.refs_)
        (computePrimInfo s.refs_) (topLevelSettings N cfg))
      (computePrimInfo s.refs_).geomBounds numPrimitives

/-- The general path of `build()`: `refs_.resize(nextRef_)`, the capacity `extSize`, the
opening step, and the top-level build. -/
def generalPath [Lattice V] [BoundedOrder V] (cfg : Config) (env : Collaborators N V K key)
    (numPrimitives : Nat) (s : TwoLevel N V) : Except Fault (TwoLevel N V) :=
  match openRefs cfg env (extSize cfg (s.refs_.take s.nextRef_).length numPrimitives)
      { s with refs_ := s.refs_.take s.nextRef_ } with
  | Except.error f => Except.error f
  | Except.ok t =>
    Except.ok (installTopLevel cfg env numPrimitives
      (extSize cfg (s.refs_.take s.nextRef_).length numPrimitives) t)

/-- The end of `build()`: the fast path `if (nextRef_ == 1)` installs `refs_[0]`, any
other number of references takes the general path. -/
def topLevel [Lattice V] [BoundedOrder V] (cfg : Config) (env : Collaborators N V K key)
    (numPrimitives : Nat) (s : TwoLevel N V) : Except Fault (TwoLevel N V) :=
  if s.nextRef_ = 1 then
    match s.refs_[0]? with
    | some r => Except.ok (s.set r.node r.bounds numPrimitives)
    | none => Except.error (Fault.outOfRange 0)
  else generalPath cfg env numPrimitives s

/-- The method `BVHNBuilderTwoLevel::build()`. -/
def build [Lattice V] [BoundedOrder V] (cfg : Config) (env : Collaborators N V K key)
    (scene : Scene) (s : TwoLevel N V) : Except Fault (TwoLevel N V) :=
  match deletePhase scene s with
  | Except.error f => Except.error f
  | Except.ok s1 =>
    if scene.numPrimitives = 0 then Except.ok (skipEmptyScene s1)
    else
      match collectRefs env scene s1 with
      | Except.error f => Except.error f
      | Except.ok s3 => topLevel cfg env scene.numPrimitives s3

/-- The log of `t` is the log of `s` followed by events that all satisfy `P`. -/
def Extends (P : Event → Prop) (s t : TwoLevel N V) : Prop :=
  ∃ evs, t.log = s.log ++ evs ∧ ∀ e ∈ evs, P e

/-- The references in front of the cursor when the attach loop of `build()` is over
(none if the call does not get that far). -/
def emittedRefs (env : Collaborators N V K key) (scene : Scene) (s : TwoLevel N V) :
    List (BuildRef N V) :=
  match deletePhase scene s with
  | Except.error _ => []
  | Except.ok s1 =>
    match collectRefs env scene s1 with
    | Except.error _ => []
    | Except.ok s3 => s3.refs_

/-- The state a call of `build()` ends in (the initial state if it does not end). -/
def built [Lattice V] [BoundedOrder V] (cfg : Config) (env : Collaborators N V K key)
    (scene : Scene) (s : TwoLevel N V) : TwoLevel N V :=
  match build cfg env scene s with
  | Except.error _ => s
  | Except.ok t => t

/-- The relation every step before the top-level part keeps: the cursor stays at the end
of `refs_`, and no opening or top-level build is logged. -/
def Collecting (s t : TwoLevel N V) : Prop :=
  (s.nextRef_ = s.refs_.length → t.nextRef_ = t.refs_.length) ∧
  Extends (fun e => e.isTopLevel = false) s t

end Builder

/-- Modelled from the spec: the `CacheTag` of the shared tessellation cache (its header is
not among the sources): patch identity, scene version, data pointer (`0` is `NULL`), block
count, the root reference that `updateRootRef` stores and `getRef` returns, and the state
of its reader/writer lock (read locks held, write lock held). -/
structure CacheTag where
  prim_tag : Nat
  commit_tag : Nat
  ptr : Nat
  usedBlocks : Nat
  subtree_root : Nat
  readers : Int
  writer : Bool
deriving DecidableEq, Repr

namespace CacheTag

/-- The test `t->match(tag, commitCounter)`: a hit requires both to match. -/
def match_ (t : CacheTag) (tag commitCounter : Nat) : Bool :=
  t.prim_tag == tag && t.commit_tag == commitCounter

/-- The call `t->set(tag, commitCounter, root, blocks)`. -/
def set (t : CacheTag) (tag commitCounter root blocks : Nat) : CacheTag :=
  { t with prim_tag := tag, commit_tag := commitCounter, subtree_root := root,
           usedBlocks := blocks }

/-- The call `t->update(tag, commitCounter)`: identity and version only. -/
def update (t : CacheTag) (tag commitCounter : Nat) : CacheTag :=
  { t with prim_tag := tag, commit_tag := commitCounter }

/-- The call `t->setPtr(node)`. -/
def setPtr (t : CacheTag) (node : Nat) : CacheTag := { t with ptr := node }

/-- The call `t->getPtr()`. -/
def getPtr (t : CacheTag) : Nat := t.ptr

/-- The call `t->blocks()`. -/
def blocks (t : CacheTag) : Nat := t.usedBlocks

/-- The call `t->getRef()`. -/
def getRef (t : CacheTag) : Nat := t.subtree_root

/-- The call `SharedTessellationCache::updateRootRef(*t, new_root)`. -/
def updateRootRef (t : CacheTag) (new_root : Nat) : CacheTag :=
  { t with subtree_root := new_root }

/-- The call `t->read_lock()`. -/
def read_lock (t : CacheTag) : CacheTag := { t with readers := t.readers + 1 }

/-- The call `t->read_unlock()`. -/
def read_unlock (t : CacheTag) : CacheTag := { t with readers := t.readers - 1 }

/-- The call `t->write_lock()`. -/
def write_lock (t : CacheTag) : CacheTag := { t with writer := true }

/-- The call `t->write_unlock()`. -/
def write_unlock (t : CacheTag) : CacheTag := { t with writer := false }

/-- The call `t->write_unlock_set_read_lock()`. -/
def write_unlock_set_read_lock (t : CacheTag) : CacheTag :=
  { t with writer := false, readers := t.readers + 1 }

end CacheTag

/-- What the cache functions read of a `SubdivPatch1Cached`: its address, which is the
tag, and the size of its grid subtree in 64-byte blocks. -/
structure SubdivPatch where
  tag : Nat
  grid_subtree_size_64b_blocks : Nat
deriving DecidableEq, Repr

/-- Calls the cache functions make, in order; `slot` names the shared tag acted on. -/
inductive CacheEvent where
  | read_lock (slot : Nat)
  | read_unlock (slot : Nat)
  | write_lock (slot : Nat)
  | write_unlock (slot : Nat)
  | write_unlock_set_read_lock (slot : Nat)
  | prefetchData (tag : Nat)
  | free_tessellation_cache_mem (ptr : Nat)
  | alloc_tessellation_cache_mem (blocks : Nat)
  | set (slot : Nat)
  | setPtr (slot : Nat)
  | update (slot : Nat)
  | buildSubdivPatchTree (tag : Nat) (lazymem : Nat)
  | updateRootRef (slot : Nat)
deriving DecidableEq, Repr

/-- The event is an invocation of `buildSubdivPatchTree`. -/
def CacheEvent.isBuild : CacheEvent → Bool
  | CacheEvent.buildSubdivPatchTree _ _ => true
  | _ => false

/-- The event frees or allocates a cache buffer. -/
def CacheEvent.isMemory : CacheEvent → Bool
  | CacheEvent.free_tessellation_cache_mem _ => true
  | CacheEvent.alloc_tessellation_cache_mem _ => true
  | _ => false

/-- The event takes or releases a lock of a shared tag. -/
def CacheEvent.isLock : CacheEvent → Bool
  | CacheEvent.read_lock _ => true
  | CacheEvent.read_unlock _ => true
  | CacheEvent.write_lock _ => true
  | CacheEvent.write_unlock _ => true
  | CacheEvent.write_unlock_set_read_lock _ => true
  | _ => false

/-- The shared cache and the part of `Precalculations` that refers to it: the tag of
every slot, the remembered mutex `pre.rw_mtx` (the slot it belongs to, `none` for `NULL`),
and the log of the calls made. -/
structure CacheWorld where
  tags : Nat → CacheTag
  rw_mtx : Option Nat
  log : List CacheEvent

/-- What the cache functions use and the sources do not define: whether
`SHARED_TESSELLATION_CACHE` is defined, the slot `shared_cache.getTag(tag)` of a patch,
the pointer `alloc_tessellation_cache_mem(blocks)` returns, and the root reference
`buildSubdivPatchTree(patch, lazymem, mesh)` returns for a buffer (the tree it writes
into the buffer is not part of this state). -/
structure CacheEnv where
  SHARED_TESSELLATION_CACHE : Bool
  getTag : Nat → Nat
  alloc_tessellation_cache_mem : Nat → Nat
  buildSubdivPatchTree : SubdivPatch → Nat → Nat

namespace CacheWorld

/-- Applies an operation to the tag in slot `i`. -/
def modify (w : CacheWorld) (i : Nat) (f : CacheTag → CacheTag) : CacheWorld :=
  { w with tags := Function.update w.tags i (f (w.tags i)) }

/-- Appends calls to the log. -/
def record (w : CacheWorld) (events : List CacheEvent) : CacheWorld :=
  { w with log := w.log ++ events }

end CacheWorld

/-- The entry of `getSubtreeRootNode`: with the shared cache compiled in, the read lock
remembered in `pre.rw_mtx` is released. -/
def releaseRemembered (env : CacheEnv) (w : CacheWorld) : CacheWorld :=
  if env.SHARED_TESSELLATION_CACHE then
    match w.rw_mtx with
    | some m => (w.modify m CacheTag.read_unlock).record [CacheEvent.read_unlock m]
    | none => w
  else w

/-- The statements `t->read_lock(); pre.rw_mtx = &t->mtx;` on slot `i`. -/
def lockAndRemember (env : CacheEnv) (i : Nat) (w : CacheWorld) : CacheWorld :=
  if env.SHARED_TESSELLATION_CACHE then
    { (w.modify i CacheTag.read_lock).record [CacheEvent.read_lock i] with rw_mtx := some i }
  else (w.modify i CacheTag.read_lock).record [CacheEvent.read_lock i]

/-- The start of the miss path: `t->read_unlock(); subdiv_patch->prefetchData();
t->write_lock();`. -/
def upgradeToWrite (patch : SubdivPatch) (i : Nat) (w : CacheWorld) : CacheWorld :=
  ((w.modify i CacheTag.read_unlock).modify i CacheTag.write_lock).record
    [CacheEvent.read_unlock i, CacheEvent.prefetchData patch.tag, CacheEvent.write_lock i]

/-- The statements that free the old buffer, if there is one, and allocate a new one of
`needed_blocks` blocks, then `t->set(tag,commitCounter,0,needed_blocks); t->setPtr(node);`. -/
def expandSlot (env : CacheEnv) (patch : SubdivPatch) (commitCounter i : Nat)
    (w : CacheWorld) : CacheWorld :=
  ((w.modify i fun t =>
      (t.set patch.tag commitCounter 0 patch.grid_subtree_size_64b_blocks).setPtr
        (env.alloc_tessellation_cache_mem patch.grid_subtree_size_64b_blocks)).record
    ((if (w.tags i).getPtr ≠ 0
        then [CacheEvent.free_tessellation_cache_mem (w.tags i).getPtr] else []) ++
     [CacheEvent.alloc_tessellation_cache_mem patch.grid_subtree_size_64b_blocks,
      CacheEvent.set i, CacheEvent.setPtr i]))

/-- The branch `if (t->blocks() < needed_blocks) … else t->update(tag,commitCounter);` of
`getSubtreeRootNode`. -/
def fitSlot (env : CacheEnv) (patch : SubdivPatch) (commitCounter i : Nat)
    (w : CacheWorld) : CacheWorld :=
  if (w.tags i).blocks < patch.grid_subtree_size_64b_blocks then
    expandSlot env patch commitCounter i w
  else
    (w.modify i fun t => t.update patch.tag commitCounter).record [CacheEvent.update i]

/-- The statements `new_root = buildSubdivPatchTree(*subdiv_patch, node, …);
updateRootRef(*t, new_root);`, where `node` is the buffer of slot `i`. -/
def storeRoot (env : CacheEnv) (patch : SubdivPatch) (i : Nat) (w : CacheWorld) : CacheWorld :=
  (w.modify i fun t =>
      t.updateRootRef (env.buildSubdivPatchTree patch (w.tags i).getPtr)).record
    [CacheEvent.buildSubdivPatchTree patch.tag (w.tags i).getPtr, CacheEvent.updateRootRef i]

/-- The end of the miss path of `getSubtreeRootNode`: the subtree is built into the
buffer of the slot, its root is stored in the tag, and the write lock is turned into a
read lock; the new root is returned. -/
def buildIntoSlot (env : CacheEnv) (patch : SubdivPatch) (i : Nat) (w : CacheWorld) :
    Nat × CacheWorld :=
  (env.buildSubdivPatchTree patch (w.tags i).getPtr,
   ((storeRoot env patch i w).modify i CacheTag.write_unlock_set_read_lock).record
     [CacheEvent.write_unlock_set_read_lock i])

/-- The miss path of `getSubtreeRootNode` on slot `i`: the read lock is given up for the
write lock, the buffer is fitted to the patch, and the subtree is rebuilt. -/
def missPath (env : CacheEnv) (patch : SubdivPatch) (commitCounter i : Nat)
    (w : CacheWorld) : Nat × CacheWorld :=
  buildIntoSlot env patch i (fitSlot env patch commitCounter i (upgradeToWrite patch i w))

/-- The calls of the branch `if (t->blocks() < needed_blocks) … else …` of
`getSubtreeRootNode` on the tag `t`, in order. -/
def fitEvents (patch : SubdivPatch) (i : Nat) (t : CacheTag) : List CacheEvent :=
  if t.blocks < patch.grid_subtree_size_64b_blocks then
    (if t.getPtr ≠ 0 then [CacheEvent.free_tessellation_cache_mem t.getPtr] else []) ++
     [CacheEvent.alloc_tessellation_cache_mem patch.grid_subtree_size_64b_blocks,
      CacheEvent.set i, CacheEvent.setPtr i]
  else [CacheEvent.update i]

/-- The function `SubdivPatch1CachedIntersector1::getSubtreeRootNode` after the lock on
slot `i` has been taken: a miss rebuilds, a hit returns `t->getRef()`. -/
def lookupOrRebuild (env : CacheEnv) (patch : SubdivPatch) (commitCounter i : Nat)
    (w : CacheWorld) : Nat × CacheWorld :=
  if (w.tags i).match_ patch.tag commitCounter = false then
    missPath env patch commitCounter i w
  else ((w.tags i).getRef, w)

/-- The function `SubdivPatch1CachedIntersector1::getSubtreeRootNode(pre, shared_cache,
subdiv_patch, geom)`, where `commitCounter` is `((Scene*)geom)->commitCounter`. -/
def getSubtreeRootNode (env : CacheEnv) (patch : SubdivPatch) (commitCounter : Nat)
    (w : CacheWorld) : Nat × CacheWorld :=
  lookupOrRebuild env patch commitCounter (env.getTag patch.tag)
    (lockAndRemember env (env.getTag patch.tag) (releaseRemembered env w))

/-- A sequence of `getSubtreeRootNode` calls, each for a patch and a commit counter. -/
def getSubtreeRootNodes (env : CacheEnv) : List (SubdivPatch × Nat) → CacheWorld → CacheWorld
  | [], w => w
  | c :: cs, w => getSubtreeRootNodes env cs (getSubtreeRootNode env c.1 c.2 w).2

/-- Modelled from the spec: the thread-local cache (L1) of `tessellation_cache.h` (not
among the sources), by its operations on a cache state `L`: `lookup` returns a root or
`(size_t)-1` for a miss, `request_LRU` picks the entry to evict for a patch and version,
`copyFromSharedCacheTag` fills that entry from a shared tag, and `getRootRef` reads the
root of an entry. -/
structure LocalCache (L : Type) where
  lookup : L → Nat → Nat → Nat × L
  request_LRU : L → Nat → Nat → Nat × L
  copyFromSharedCacheTag : L → Nat → CacheTag → L
  getRootRef : L → Nat → Nat

/-- Fatal errors of the cache functions. -/
inductive CacheFault where
  /-- The statement `FATAL("HERE2")` at the head of the L2-hit branch. -/
  | fatalHere2
deriving DecidableEq, Repr

/-- The branch `if (1 || t_l2->blocks() < needed_blocks) … else t_l2->update(…)` of
`getSubtreeRootNodeFromCacheHierarchy`. -/
def fitSlotL2 (env : CacheEnv) (patch : SubdivPatch) (commitCounter i : Nat)
    (w : CacheWorld) : CacheWorld :=
  if (true || decide ((w.tags i).blocks < patch.grid_subtree_size_64b_blocks)) = true then
    expandSlot env patch commitCounter i w
  else
    (w.modify i fun t => t.update patch.tag commitCounter).record [CacheEvent.update i]

/-- The start of the L2-miss branch: `subdiv_patch->prefetchData(); t_l2->read_unlock();
t_l2->write_lock();`. -/
def upgradeToWriteL2 (patch : SubdivPatch) (i : Nat) (w : CacheWorld) : CacheWorld :=
  ((w.modify i CacheTag.read_unlock).modify i CacheTag.write_lock).record
    [CacheEvent.prefetchData patch.tag, CacheEvent.read_unlock i, CacheEvent.write_lock i]

/-- The L2-miss branch of `getSubtreeRootNodeFromCacheHierarchy` up to the update of the
root reference: the read lock is given up for the write lock, the buffer is fitted, the
subtree is built and its root stored in the tag. -/
def rebuildL2 (env : CacheEnv) (patch : SubdivPatch) (commitCounter i : Nat)
    (w : CacheWorld) : CacheWorld :=
  storeRoot env patch i (fitSlotL2 env patch commitCounter i (upgradeToWriteL2 patch i w))

/-- The L1 cache after `request_LRU(tag,commitCounter)` and `copyFromSharedCacheTag` from
the shared tag `t`. -/
def evictAndCopy {L : Type} (ops : LocalCache L) (patch : SubdivPatch) (commitCounter : Nat)
    (l1 : L) (t : CacheTag) : L :=
  ops.copyFromSharedCacheTag (ops.request_LRU l1 patch.tag commitCounter).2
    (ops.request_LRU l1 patch.tag commitCounter).1 t

/-- The end of the L2-miss branch: the L1 entry to evict is requested and filled from the
shared tag, the write lock is released, and the root of the L1 entry is returned. -/
def fillL1 {L : Type} (ops : LocalCache L) (patch : SubdivPatch) (commitCounter i : Nat)
    (l1 : L) (w : CacheWorld) : Nat × L × CacheWorld :=
  (ops.getRootRef (evictAndCopy ops patch commitCounter l1 (w.tags i))
     (ops.request_LRU l1 patch.tag commitCounter).1,
   evictAndCopy ops patch commitCounter l1 (w.tags i),
   (w.modify i CacheTag.write_unlock).record [CacheEvent.write_unlock i])

/-- The L1-miss part of `getSubtreeRootNodeFromCacheHierarchy`, the read lock on slot `i`
taken: `if (1 || !t_l2->match(tag,commitCounter))` rebuilds, the other branch starts with
`FATAL("HERE2")`. -/
def missL1 {L : Type} (env : CacheEnv) (ops : LocalCache L) (patch : SubdivPatch)
    (commitCounter i : Nat) (l1 : L) (w : CacheWorld) :
    Except CacheFault (Nat × L × CacheWorld) :=
  if (true || !(w.tags i).match_ patch.tag commitCounter) = true then
    Except.ok (fillL1 ops patch commitCounter i l1 (rebuildL2 env patch commitCounter i w))
  else Except.error CacheFault.fatalHere2

/-- The function `SubdivPatch1CachedIntersector1::getSubtreeRootNodeFromCacheHierarchy`:
an L1 hit returns the root found, an L1 miss (`root == (size_t)-1`) goes to the shared
cache. -/
def getSubtreeRootNodeFromCacheHierarchy {L : Type} (env : CacheEnv) (ops : LocalCache L)
    (patch : SubdivPatch) (commitCounter : Nat) (l1 : L) (w : CacheWorld) :
    Except CacheFault (Nat × L × CacheWorld) :=
  if (ops.lookup l1 patch.tag commitCounter).1 = sizeT - 1 then
    missL1 env ops patch commitCounter (env.getTag patch.tag)
      (ops.lookup l1 patch.tag commitCounter).2
      ((w.modify (env.getTag patch.tag) CacheTag.read_lock).record
        [CacheEvent.read_lock (env.getTag patch.tag)])
  else
    Except.ok ((ops.lookup l1 patch.tag commitCounter).1,
      (ops.lookup l1 patch.tag commitCounter).2, w)

/-- The two tags hold the same data: identity, version, pointer, block count and root
(their locks may differ). -/
def CacheTag.sameData (a b : CacheTag) : Prop :=
  a.prim_tag = b.prim_tag ∧ a.commit_tag = b.commit_tag ∧ a.ptr = b.ptr ∧
  a.usedBlocks = b.usedBlocks ∧ a.subtree_root = b.subtree_root

/-- The world `u` differs from `w` by lock operations only: every tag holds the same
data, and the log has grown by lock events. -/
def LockStep (w u : CacheWorld) : Prop :=
  (∀ j, (u.tags j).sameData (w.tags j)) ∧
  ∃ evs, u.log = w.log ++ evs ∧ ∀ e ∈ evs, e.isLock = true

/-- The calls at the entry of `getSubtreeRootNode` on a world `w`, for the slot `i` of the
patch: the release of the remembered read lock (shared cache compiled in, `pre.rw_mtx`
not null) and the read lock on the slot. -/
def preludeEvents (env : CacheEnv) (i : Nat) (w : CacheWorld) : List CacheEvent :=
  (if env.SHARED_TESSELLATION_CACHE then
    match w.rw_mtx with
    | some m => [CacheEvent.read_unlock m]
    | none => []
   else []) ++ [CacheEvent.read_lock i]

/-- The write-lock bracket on a trace, for the shared tag in slot `i`; `held` says whether
the write lock of the tag is held when the trace starts.  Every mutation of a tag (`set`,
`update`, `setPtr`, `updateRootRef`) is one of tag `i` and happens while the lock is held,
and so does every free or allocation of a buffer and every `buildSubdivPatchTree`; the
lock is taken only when it is not held, released only when it is held, and not held when
the trace ends. -/
def writeBracketed (i : Nat) : Bool → List CacheEvent → Bool
  | held, [] => !held
  | held, CacheEvent.write_lock j :: es =>
    if j = i then !held && writeBracketed i true es else writeBracketed i held es
  | held, CacheEvent.write_unlock j :: es =>
    if j = i then held && writeBracketed i false es else writeBracketed i held es
  | held, CacheEvent.write_unlock_set_read_lock j :: es =>
    if j = i then held && writeBracketed i false es else writeBracketed i held es
  | held, CacheEvent.set j :: es => decide (j = i) && held && writeBracketed i held es
  | held, CacheEvent.setPtr j :: es => decide (j = i) && held && writeBracketed i held es
  | held, CacheEvent.update j :: es => decide (j = i) && held && writeBracketed i held es
  | held, CacheEvent.updateRootRef j :: es => decide (j = i) && held && writeBracketed i held es
  | held, CacheEvent.free_tessellation_cache_mem _ :: es => held && writeBracketed i held es
  | held, CacheEvent.alloc_tessellation_cache_mem _ :: es => held && writeBracketed i held es
  | held, CacheEvent.buildSubdivPatchTree _ _ :: es => held && writeBracketed i held es
  | held, CacheEvent.read_lock _ :: es => writeBracketed i held es
  | held, CacheEvent.read_unlock _ :: es => writeBracketed i held es
  | held, CacheEvent.prefetchData _ :: es => writeBracketed i held es

/-- A shared cache whose slot 0 holds a buffer of eight blocks built for another patch. -/
def exampleStaleWorld : CacheWorld where
  tags j := if j = 0 then ⟨640, 1, 8192, 8, 8192, 0, false⟩ else ⟨0, 0, 0, 0, 0, 0, false⟩
  rw_mtx := none
  log := []

/-! ## Rebasing node references (`updateNodeRefs`) -/

/-- Modelled from the spec: the encoding of `BVH4::NodeRef` and the layout of `BVH4::Node`
(`bvh4.h` is not among the sources).  The low bits of a reference, below `alignment`,
carry its tag; `leafTag` tells from them whether the reference is a leaf; `node` is
`ref.node()`, the address of the node of an internal reference, and `child n i` is the
address of the child slot `n->child(i)` of the node at address `n`. -/
structure Encoding where
  alignment : Nat
  emptyNode : Nat
  invalidNode : Nat
  leafTag : Nat → Bool
  node : Nat → Nat
  child : Nat → Fin 4 → Nat

/-- The test `ref.isLeaf()`, decided by the low bits of the reference. -/
def Encoding.isLeaf (enc : Encoding) (ref : Nat) : Bool := enc.leafTag (ref % enc.alignment)

/-- The part of a reference above its low bits. -/
def Encoding.address (enc : Encoding) (ref : Nat) : Nat := ref - ref % enc.alignment

/-- Memory as `updateNodeRefs` sees it: the `size_t` word at every address, the child
slots read by `node->child(i)`, and the addresses written, both in order. -/
structure Heap where
  word : Nat → Nat
  reads : List Nat
  writes : List Nat

/-- A read of the child slot at address `a`. -/
def Heap.read (h : Heap) (a : Nat) : Heap := ⟨h.word, h.reads ++ [a], h.writes⟩

/-- A write of `v` to the word at address `a`. -/
def Heap.write (h : Heap) (a v : Nat) : Heap :=
  ⟨Function.update h.word a v, h.reads, h.writes ++ [a]⟩

/-- The ways a call of `updateNodeRefs` fails to return. -/
inductive RefFault where
  /-- An `assert` does not hold (assertions compiled in). -/
  | assertion
  /-- The recursion is deeper than the fuel given to the model. -/
  | outOfFuel
deriving DecidableEq, Repr

/-- The expression `nr - old_ptr + new_ptr` on `size_t`. -/
def rebase (nr old_ptr new_ptr : Nat) : Nat :=
  (nr + (sizeT - old_ptr % sizeT) + new_ptr) % sizeT

/-- One step of the loop `for (i<4) if (node->child(i) != BVH4::emptyNode)
updateNodeRefs(*(size_t*)&node->child(i), old_ptr, new_ptr)`, the recursive call given as
`call`. -/
def updateChild (enc : Encoding) (call : Nat → Heap → Except RefFault Heap) (node : Nat)
    (i : Fin 4) (h : Heap) : Except RefFault Heap :=
  if h.word (enc.child node i) ≠ enc.emptyNode then
    call (enc.child node i) (h.read (enc.child node i))
  else Except.ok (h.read (enc.child node i))

/-- The function `updateNodeRefs(size_t &nr, old_ptr, new_ptr)`; `nr` is the address of
the referenced word, `asserts` says whether assertions are compiled in, and the first
argument bounds the depth of the recursion.  The node is decoded from the value of `nr`
on entry (`ref`); the last statement reads `nr` again. -/
def updateNodeRefs (enc : Encoding) (asserts : Bool) (old_ptr new_ptr : Nat) :
    Nat → Nat → Heap → Except RefFault Heap
  | 0, _, _ => Except.error RefFault.outOfFuel
  | fuel + 1, nr, h =>
    if h.word nr = enc.emptyNode then Except.ok h
    else if asserts = true ∧ h.word nr = enc.invalidNode then Except.error RefFault.assertion
    else if enc.isLeaf (h.word nr) = true then
      if asserts = true ∧ enc.isLeaf (rebase (h.word nr) old_ptr new_ptr) = false then
        Except.error RefFault.assertion
      else Except.ok (h.write nr (rebase (h.word nr) old_ptr new_ptr))
    else
      (updateChild enc (fun a g => updateNodeRefs enc asserts old_ptr new_ptr fuel a g)
        (enc.node (h.word nr)) 0 h).bind fun h0 =>
      (updateChild enc (fun a g => updateNodeRefs enc asserts old_ptr new_ptr fuel a g)
        (enc.node (h.word nr)) 1 h0).bind fun h1 =>
      (updateChild enc (fun a g => updateNodeRefs enc asserts old_ptr new_ptr fuel a g)
        (enc.node (h.word nr)) 2 h1).bind fun h2 =>
      (updateChild enc (fun a g => updateNodeRefs enc asserts old_ptr new_ptr fuel a g)
        (enc.node (h.word nr)) 3 h2).bind fun h3 =>
      Except.ok (h3.write nr (rebase (h3.word nr) old_ptr new_ptr))

/-- Modelled from the spec: an encoding with the shape the spec gives for
`BVH4::NodeRef` (`bvh4.h` is not among the sources): references are aligned to 16 bytes,
bit 3 of the low bits tags a leaf and the bits below it count its blocks, an internal
reference is the plain address of its node, both sentinels carry the leaf tag, and the
four child slots of a node follow its 96 bytes of bounds. -/
def bvh4Encoding : Encoding where
  alignment := 16
  emptyNode := 8
  invalidNode := sizeT - 8
  leafTag t := decide (8 ≤ t)
  node ref := ref
  child n i := n + 96 + 8 * i.val

/-- A word table as memory, nothing read or written yet. -/
def exampleHeap (words : List (Nat × Nat)) : Heap :=
  ⟨fun a => ((words.find? fun p => p.1 == a).map Prod.snd).getD 0, [], []⟩

/-- A node at `4096` with a leaf child of two blocks at `4224` and three empty slots, its
byte-for-byte copy at `8192`, and the root reference of the source in the word at `64`. -/
def exampleCopiedTree : Heap :=
  exampleHeap [(64, 4096), (4192, 4234), (4200, 8), (4208, 8), (4216, 8),
    (8288, 4234), (8296, 8), (8304, 8), (8312, 8)]

/-! ## The grid subtree builder (`createSubTree`) -/

/-- The number of values of `unsigned int`. -/
def uintT : Nat := 2 ^ 32

/-- Modelled from the spec: the fields of `GridRange` (its header is not among the
sources), a rectangle of samples of a patch grid; all four are `unsigned int`. -/
structure GridRange where
  u_start : Nat
  u_end : Nat
  v_start : Nat
  v_end : Nat
deriving DecidableEq, Repr

/-- The local `u_size = u_end-u_start+1` of `createSubTree`, on `unsigned int`. -/
def GridRange.u_size (r : GridRange) : Nat :=
  (r.u_end + (uintT - r.u_start % uintT) + 1) % uintT

/-- The local `v_size = v_end-v_start+1` of `createSubTree`, on `unsigned int`. -/
def GridRange.v_size (r : GridRange) : Nat :=
  (r.v_end + (uintT - r.v_start % uintT) + 1) % uintT

/-- The five arrays of a patch grid and of a leaf. -/
inductive Channel where
  | x
  | y
  | z
  | u
  | v
deriving DecidableEq, Repr

/-- The value `n - 1` on `unsigned int`, for `n` below `uintT`. -/
def predU (n : Nat) : Nat := if n = 0 then uintT - 1 else n - 1

section GridLeaf

variable {T : Type}

/-- The statement `leaf[y][x] = value` on an array `ssef leaf[3]` of one channel, given
as its value at row and lane. -/
def setLane (leaf : Nat → Nat → T) (y x : Nat) (value : T) : Nat → Nat → T :=
  Function.update leaf y (Function.update (leaf y) x value)

/-- The body of the loop over the rows of the range: with `offset = v * grid_u_res +
u_start`, computed on `unsigned int`, and `local_v = v - v_start` (the loop has
`v_start ≤ v`), the statement `leaf[local_v] = loadu4f(&grid[offset])` loads the four
values from `offset` on. -/
def loadRow (grid : Nat → T) (grid_u_res : Nat) (r : GridRange) (leaf : Nat → Nat → T)
    (v : Nat) : Nat → Nat → T :=
  Function.update leaf (v - r.v_start)
    (fun lane => grid ((v * grid_u_res + r.u_start) % uintT + lane))

/-- The loop `for (v=v_start; v<=v_end; v++)` over the rows of the range, where it comes
to an end, that is for `v_end` below the largest `unsigned int` (with `v_end = 2^32-1`
the test `v<=v_end` never fails and the loop does not end): the rows `v_start`, …,
`v_end`, none if `v_end < v_start`.  What is proved about the rows of a leaf carries
`v_end + 1 < 2^32` as a hypothesis. -/
def loadRows (grid : Nat → T) (grid_u_res : Nat) (r : GridRange) (leaf : Nat → Nat → T) :
    Nat → Nat → T :=
  (List.range' r.v_start (r.v_end + 1 - r.v_start)).foldl (loadRow grid grid_u_res r) leaf

/-- The loop `for (x=u_size-1; x<3; x++) for (y=0; y<3; y++) leaf[y][x] =
leaf[y][u_size-1]`. -/
def clampColumns (u_size : Nat) (leaf : Nat → Nat → T) : Nat → Nat → T :=
  (List.range' (predU u_size) (3 - predU u_size)).foldl
    (fun l x => (List.range 3).foldl (fun l' y => setLane l' y x (l' y (predU u_size))) l) leaf

/-- The loop `for (y=v_size-1; y<3; y++) for (x=0; x<3; x++) leaf[y][x] =
leaf[v_size-1][x]`. -/
def clampRows (v_size : Nat) (leaf : Nat → Nat → T) : Nat → Nat → T :=
  (List.range' (predU v_size) (3 - predU v_size)).foldl
    (fun l y => (List.range 3).foldl (fun l' x => setLane l' y x (l' (predU v_size) x)) l) leaf

/-- One channel of the sample block of a terminal range, as passed to `Quad2x2::init`:
the rows of the range are loaded into the uninitialised array `leaf`, then the columns
and the rows past the range are overwritten. -/
def leafChannel (grid : Nat → T) (grid_u_res : Nat) (r : GridRange) (leaf : Nat → Nat → T) :
    Nat → Nat → T :=
  clampRows r.v_size (clampColumns r.u_size (loadRows grid grid_u_res r leaf))

/-- The five arrays `leaf_x_array`, …, `leaf_v_array` of a terminal range, as passed to
`Quad2x2::init`; `leaf` holds the arrays before they are filled. -/
def leafArrays (grid : Channel → Nat → T) (grid_u_res : Nat) (r : GridRange)
    (leaf : Channel → Nat → Nat → T) : Channel → Nat → Nat → T :=
  fun c => leafChannel (grid c) grid_u_res r (leaf c)

end GridLeaf

/-- Modelled from the spec: the two methods of `GridRange` that `createSubTree` calls
(the header of `GridRange` is not among the sources): `hasLeafSize` tells whether the
range is terminal, `splitIntoSubRanges` gives the sub-ranges `r[0..children-1]` of a
range that is not. -/
structure GridSplit where
  hasLeafSize : GridRange → Bool
  splitIntoSubRanges : GridRange → List GridRange

/-- The tree `createSubTree` writes into `lazymem`, block indices included: an empty
child slot (as `node->clear()` leaves it), a leaf `encodeLeaf(qquad, num)` whose
`Quad2x2` sits at block `index` and was initialised from the sample block `quad`, or a
`BVH4::Node` at block `index` with the bounds and the reference of its four slots. -/
inductive GridNode (T : Type) where
  | emptyNode : GridNode T
  | leaf (index : Nat) (num : Nat) (quad : Channel → Nat → Nat → T) : GridNode T
  | node (index : Nat) (bounds : Fin 4 → BBox (T × T × T))
      (child : Fin 4 → GridNode T) : GridNode T

/-- What a call of `createSubTree` hands back: the returned bounds, the reference stored
in `curNode`, and the counter `localCounter` after the call. -/
structure SubTree (T : Type) where
  bounds : BBox (T × T × T)
  curNode : GridNode T
  localCounter : Nat

/-- The locals of the node branch of `createSubTree` during the loop over the sub-ranges:
the running union `bounds`, the bounds and the references of the slots of the node, and
the counter. -/
structure NodeState (T : Type) where
  bounds : BBox (T × T × T)
  slotBounds : Fin 4 → BBox (T × T × T)
  child : Fin 4 → GridNode T
  localCounter : Nat

section GridTree

variable {T : Type}

/-- The position of the sample in row `y`, column `x` of a sample block. -/
def position (leaf : Channel → Nat → Nat → T) (y x : Nat) : T × T × T :=
  (leaf Channel.x y x, leaf Channel.y y x, leaf Channel.z y x)

/-- Modelled from the spec: `Quad2x2::bounds()` after `Quad2x2::init` (the header of
`Quad2x2` is not among the sources): the union of the positions of the quad cluster, the
nine samples of the block. -/
def quadBounds [Lattice T] [BoundedOrder T] (leaf : Channel → Nat → Nat → T) :
    BBox (T × T × T) :=
  BBox.mergeAll ((List.range 3).flatMap fun y =>
    (List.range 3).map fun x => ⟨position leaf y x, position leaf y x⟩)

/-- The loop `for (i<children) { bounds_subtree = createSubTree(node->child(i), …, r[i],
localCounter, …); node->set(i, bounds_subtree); bounds.extend(bounds_subtree); }` from
slot `i` on, the recursive call given as `call`; the node has four slots. -/
def buildChildren (call : GridRange → Nat → Option (SubTree T)) [Lattice T] [BoundedOrder T] :
    List GridRange → Nat → NodeState T → Option (NodeState T)
  | [], _, s => some s
  | r :: rs, i, s =>
    if h : i < 4 then
      match call r s.localCounter with
      | none => none
      | some t =>
        buildChildren call rs (i + 1)
          ⟨s.bounds.merge t.bounds, Function.update s.slotBounds ⟨i, h⟩ t.bounds,
            Function.update s.child ⟨i, h⟩ t.curNode, t.localCounter⟩
    else none

/-- The function `SubdivPatch1CachedIntersector1::createSubTree` on a range and a value of
`localCounter`; the first argument bounds the depth of the recursion.  `quadBlocks` is
`(sizeof(Quad2x2)+63)/64`, `garbage` the content of the leaf arrays before they are
filled.  A terminal range fills the `Quad2x2` at `&lazymem[currentIndex*16]` and returns
its bounds; `currentIndex` is an `unsigned int` there, so the product wraps at `2^32` and
the leaf sits at block `(currentIndex*16 mod 2^32) / 16`.  Any other range takes two
blocks for a node at `&lazymem[currentIndex*16]`, with `currentIndex` a `size_t`, clears
it, and builds the sub-ranges into its slots.  The function is taken as compiled without
assertions (the `assert`s on `u_size` and `v_size` of the terminal branch are not part of
it), and the row loop of a terminal range as one that ends (see `loadRows`). -/
def createSubTree [Lattice T] [BoundedOrder T] (ops : GridSplit) (quadBlocks : Nat)
    (grid : Channel → Nat → T) (grid_u_res : Nat) (garbage : Channel → Nat → Nat → T) :
    Nat → GridRange → Nat → Option (SubTree T)
  | 0, _, _ => none
  | fuel + 1, range, localCounter =>
    if ops.hasLeafSize range = true then
      some ⟨quadBounds (leafArrays grid grid_u_res range garbage),
        GridNode.leaf (localCounter * 16 % uintT / 16) 2
          (leafArrays grid grid_u_res range garbage),
        (localCounter + quadBlocks) % uintT⟩
    else
      (buildChildren
          (fun r c => createSubTree ops quadBlocks grid grid_u_res garbage fuel r c)
          (ops.splitIntoSubRanges range) 0
          ⟨BBox.empty, fun _ => BBox.empty, fun _ => GridNode.emptyNode,
            (localCounter + 2) % uintT⟩).map
        fun s => ⟨s.bounds, GridNode.node localCounter s.slotBounds s.child, s.localCounter⟩

end GridTree

/-- A way of splitting ranges for the examples: a range of at most three samples in both
directions is terminal, any other range is cut in two at the centre of `u` (if it has
more than three columns) or of `v`, the halves sharing the centre sample. -/
def exampleSplit : GridSplit where
  hasLeafSize r := decide (r.u_end ≤ r.u_start + 2 ∧ r.v_end ≤ r.v_start + 2)
  splitIntoSubRanges r :=
    if r.u_start + 2 < r.u_end then
      [⟨r.u_start, (r.u_start + r.u_end) / 2, r.v_start, r.v_end⟩,
       ⟨(r.u_start + r.u_end) / 2, r.u_end, r.v_start, r.v_end⟩]
    else
      [⟨r.u_start, r.u_end, r.v_start, (r.v_start + r.v_end) / 2⟩,
       ⟨r.u_start, r.u_end, (r.v_start + r.v_end) / 2, r.v_end⟩]

/-- A grid of five columns and three rows over `Fin 8`, the same samples in every
channel. -/
def exampleGrid : Channel → Nat → Fin 8 := fun _ n => Fin.ofNat n

/-- The class `Interval<V>` of `interval.h`: a lower and an upper bound. -/
structure Interval (V : Type) where
  lower : V
  upper : V
deriving DecidableEq, Repr

namespace Interval

variable {V : Type} [LinearOrder V]

/-- The function `merge(a, b)`: `Interval(min(a.lower,b.lower), max(a.upper,b.upper))`. -/
def merge (a b : Interval V) : Interval V := ⟨min a.lower b.lower, max a.upper b.upper⟩

/-- The overload `merge(a, b, c)`: `merge(merge(a,b),c)`. -/
def merge3 (a b c : Interval V) : Interval V := merge (merge a b) c

/-- The overload `merge(a, b, c, d)`: `merge(merge(a,b),merge(c,d))`. -/
def merge4 (a b c d : Interval V) : Interval V := merge (merge a b) (merge c d)

end Interval

/-- A way of merging intervals with the two-argument `merge`: the arguments in some order,
bracketed in some way. -/
inductive MergeExpr (V : Type) where
  | arg (a : Interval V) : MergeExpr V
  | merge (l r : MergeExpr V) : MergeExpr V

/-- The arguments of a bracketing, from left to right. -/
def MergeExpr.args {V : Type} : MergeExpr V → List (Interval V)
  | MergeExpr.arg a => [a]
  | MergeExpr.merge l r => l.args ++ r.args

/-- The interval a bracketing evaluates to. -/
def MergeExpr.eval {V : Type} [LinearOrder V] : MergeExpr V → Interval V
  | MergeExpr.arg a => a
  | MergeExpr.merge l r => Interval.merge l.eval r.eval

section OpeningSteps

variable {N : Nat} {V K : Type} [LinearOrder K] {key : BuildRef N V → K}

/-- The iterations of the loop of `open_sequential` that examine an entry, at most `fuel`
of them, started on the array `refs`: for each iteration the value of `refs_` at its start
and at its end.  An iteration that finds a leaf ends with the array as `pop_heap` left
it; an iteration on an empty array has no entry to examine and is not listed. -/
def openSteps (H : HeapAlgorithms (BuildRef N V) K key) (extSize : Nat) :
    Nat → List (BuildRef N V) → List (List (BuildRef N V) × List (BuildRef N V))
  | 0, _ => []
  | fuel + 1, refs =>
    if openCond N extSize refs.length then
      match (H.pop_heap refs).getLast? with
      | none => []
      | some back =>
        if back.node.isLeaf then [(refs, H.pop_heap refs)]
        else
          match back.node with
          | NodeRef.aabb bounds child =>
            (refs, finalState (H.pop_heap refs).dropLast
                (pushChildren H bounds child (List.finRange N) (H.pop_heap refs).dropLast)) ::
              openSteps H extSize fuel
                (finalState (H.pop_heap refs).dropLast
                  (pushChildren H bounds child (List.finRange N) (H.pop_heap refs).dropLast))
          | _ => []
    else []

end OpeningSteps

/-- The event is a call of a top-level SAH builder. -/
def Event.isSAHBuild : Event → Bool
  | Event.buildBinnedSAH _ => true
  | Event.buildBinnedOpenMergeSAH _ => true
  | _ => false

/-- A scene whose only mesh is disabled. -/
def exampleIdleScene : Scene := ⟨[some ⟨5, 1, false, 0⟩], 5⟩

/-- The object a collaborator call is made for, if it is made for one. -/
def Event.objectID : Event → Option Nat
  | Event.clearBuilder i => some i
  | Event.deleteObject i => some i
  | Event.createMeshAccel i => some i
  | Event.newSmallBuilder i => some i
  | Event.newLargeBuilder i _ => some i
  | Event.attachBuildRefs i => some i
  | _ => none

section BuilderObjects

variable {N : Nat} {V K : Type} [LinearOrder K] {key : BuildRef N V → K}

/-- The method `deleteGeometry(geomID)`: nothing happens for `geomID >=
bvh_->objects.size()`; otherwise the builder, if there is one, is cleared, and the object
is deleted and its entry set to null. -/
def deleteGeometry (geomID : Nat) (s : TwoLevel N V) : Except Fault (TwoLevel N V) :=
  if s.objects.length ≤ geomID then Except.ok s
  else
    match s.builders_[geomID]? with
    | none => Except.error (Fault.nullBuilder geomID)
    | some none =>
      Except.ok ({ s with objects := s.objects.set geomID none }.record
        [Event.deleteObject geomID])
    | some (some _) =>
      Except.ok ({ s with objects := s.objects.set geomID none }.record
        [Event.clearBuilder geomID, Event.deleteObject geomID])

/-- The references the attach loop of `build()` stores for `objectID`, the builders being
`builders`: none for a missing, disabled or multi-time-step mesh, otherwise what the
builder of the object attaches. -/
def contribution (env : Collaborators N V K key) (scene : Scene)
    (builders : List (Option RefBuilder)) (objectID : Nat) : List (BuildRef N V) :=
  match scene.meshes.getD objectID none with
  | none => []
  | some mesh =>
    if mesh.isEnabled = false ∨ mesh.numTimeSteps ≠ 1 then []
    else
      match builders.getD objectID none with
      | none => []
      | some b => env.attachBuildRefs objectID b

end BuilderObjects

/-- A scene whose first mesh, of five primitives, is disabled. -/
def exampleDisabledScene : Scene := ⟨[some ⟨5, 1, false, 0⟩, some ⟨1, 1, true, 0⟩], 1⟩

/-- The scene `exampleScene` after its first mesh has shrunk to one primitive. -/
def exampleShrunkScene : Scene := ⟨[some ⟨1, 1, true, 0⟩, some ⟨1, 1, true, 0⟩], 2⟩

/-- The calls between the states `s` and `t` leave object `j` alone: its sub-BVH and its
builder are the same (null and missing entries alike), and no logged call is made for
it. -/
def Untouched {N : Nat} {V : Type} (j : Nat) (s t : TwoLevel N V) : Prop :=
  t.objects.getD j none = s.objects.getD j none ∧
  t.builders_.getD j none = s.builders_.getD j none ∧
  Extends (fun e => e.objectID ≠ some j) s t

section GridLayout

variable {T : Type}

/-- The block index stored in a reference: where its `Quad2x2` or its node sits. -/
def GridNode.index : GridNode T → Option Nat
  | GridNode.emptyNode => none
  | GridNode.leaf index _ _ => some index
  | GridNode.node index _ _ => some index

/-- The 64-byte blocks of `lazymem` taken by the nodes and leaves below a reference, in
the order in which `createSubTree` visits them: a leaf takes `quadBlocks` blocks from its
index on, a node the two blocks from its index on, followed by the blocks of its
children in slot order. -/
def GridNode.blocks (quadBlocks : Nat) : GridNode T → List Nat
  | GridNode.emptyNode => []
  | GridNode.leaf index _ _ => List.range' index quadBlocks
  | GridNode.node index _ child =>
    List.range' index 2 ++ ((List.finRange 4).map fun i => (child i).blocks quadBlocks).flatten

/-- The part of `buildSubdivPatchTree` after `evalGrid` has filled the grid arrays:
`createSubTree` on the range `GridRange(0, grid_u_res-1, 0, grid_v_res-1)` from
`currentIndex = 0`. -/
def buildSubdivPatchTree [Lattice T] [BoundedOrder T] (ops : GridSplit) (quadBlocks : Nat)
    (grid : Channel → Nat → T) (grid_u_res grid_v_res : Nat)
    (garbage : Channel → Nat → Nat → T) (fuel : Nat) : Option (SubTree T) :=
  createSubTree ops quadBlocks grid grid_u_res garbage fuel
    ⟨0, predU grid_u_res, 0, predU grid_v_res⟩ 0

end GridLayout

/-- The scene `exampleScene` after its second mesh has grown to five primitives. -/
def exampleGrownScene : Scene := ⟨[some ⟨5, 1, true, 0⟩, some ⟨5, 1, true, 0⟩], 10⟩

/-! ## Interval arithmetic and `subset` (`interval.h`) -/

namespace Interval

section Arithmetic

variable {V : Type}

/-- The method `empty()`: `lower > upper`. -/
def empty [LinearOrder V] (a : Interval V) : Bool := decide (a.lower > a.upper)

/-- The operator `a + b`: `Interval(a.lower+b.lower, a.upper+b.upper)`. -/
def add [Add V] (a b : Interval V) : Interval V := ⟨a.lower + b.lower, a.upper + b.upper⟩

/-- The operator `a - b` on two intervals: `Interval(a.lower-b.upper, a.upper-b.lower)`. -/
def sub [Sub V] (a b : Interval V) : Interval V := ⟨a.lower - b.upper, a.upper - b.lower⟩

/-- Modelled from the spec: the four-argument `min` of the math headers (not among the
sources), the least of its arguments. -/
def min4 [LinearOrder V] (a b c d : V) : V := min (min a b) (min c d)

/-- Modelled from the spec: the four-argument `max` of the math headers (not among the
sources), the greatest of its arguments. -/
def max4 [LinearOrder V] (a b c d : V) : V := max (max a b) (max c d)

/-- The operator `a * b`: with `ll = a.lower*b.lower`, `lu = a.lower*b.upper`,
`ul = a.upper*b.lower` and `uu = a.upper*b.upper`,
`Interval(min(ll,lu,ul,uu), max(ll,lu,ul,uu))`. -/
def mul [LinearOrder V] [Mul V] (a b : Interval V) : Interval V :=
  ⟨min4 (a.lower * b.lower) (a.lower * b.upper) (a.upper * b.lower) (a.upper * b.upper),
    max4 (a.lower * b.lower) (a.lower * b.upper) (a.upper * b.lower) (a.upper * b.upper)⟩

/-- The function `subset(a, b)` ("subset relation"): `if (a.lower <= b.lower) return
false; if (a.upper >= b.upper) return false; return true;`. -/
def subset [LinearOrder V] (a b : Interval V) : Bool :=
  if a.lower ≤ b.lower then false
  else if a.upper ≥ b.upper then false
  else true

end Arithmetic

end Interval

/-- A node at `4096` whose first child is the node at `4224`, whose first child is a leaf
of two blocks at `4480`; all other slots are empty.  The buffer at `4096` is copied byte
for byte to `8192`, and the word at `64` holds the root reference of the source. -/
def exampleDeepTree : Heap :=
  exampleHeap [(64, 4096), (4192, 4224), (4200, 8), (4208, 8), (4216, 8),
    (4320, 4490), (4328, 8), (4336, 8), (4344, 8),
    (8288, 4224), (8296, 8), (8304, 8), (8312, 8),
    (8416, 4490), (8424, 8), (8432, 8), (8440, 8)]

/-- A scene of size two whose second slot holds no mesh. -/
def exampleGapScene : Scene := ⟨[some ⟨5, 1, true, 0⟩, none], 5⟩

/-! ## Geometries (`geometry.cpp`) -/

/-- Modelled from the spec: the enumeration `Geometry::State` (declared in `geometry.h`,
which is not among the sources), with the three values `geometry.cpp` assigns and
tests. -/
inductive Geometry.State where
  | MODIFIED
  | COMMITTED
  | BUILD
deriving DecidableEq, Repr

/-- Modelled from the spec: the enumeration `Geometry::Type` (declared in `geometry.h`,
which is not among the sources): the six values `geometry.cpp` names, and any other
value. -/
inductive Geometry.GType where
  | TRIANGLE_MESH
  | QUAD_MESH
  | LINE_SEGMENTS
  | BEZIER_CURVES
  | SUBDIV_MESH
  | USER_GEOMETRY
  | other (code : Nat)
deriving DecidableEq, Repr

/-- The error code `geometry.cpp` raises. -/
inductive RTCError where
  | RTC_ERROR_INVALID_OPERATION
deriving DecidableEq, Repr

/-- The ways a method of `Geometry` fails to return. -/
inductive GeometryFault where
  /-- The statement `throw_RTCError(code, message)`. -/
  | rtcError (code : RTCError) (message : String)
  /-- Undefined behaviour: a member access through the null `scene` pointer. -/
  | nullScene
  /-- Undefined behaviour: a store through a null output pointer. -/
  | nullOutput
deriving DecidableEq, Repr

/-- Modelled from the spec: the value of the constant `RTC_BUILD_QUALITY_MEDIUM` (its
header is not among the sources). -/
def RTC_BUILD_QUALITY_MEDIUM : Nat := 1

/-- The data members of `Geometry` that its constructor initialises, `device` apart
(the constructor and the destructor only count references on it).  `scene` is the
scene the geometry points to, `none` for `nullptr`; `geomID` and `mask` are
`unsigned int`; `fnumTimeSegments` is kept as the `unsigned int` that is converted to
`float`; the filter functions and `userPtr` are addresses, `none` for `nullptr`; the
type of `used` is declared in `geometry.h`, it is an integer here. -/
structure Geometry where
  scene : Option Nat
  geomID : Nat
  type : Geometry.GType
  numPrimitives : Nat
  numPrimitivesChanged : Bool
  numTimeSteps : Nat
  fnumTimeSegments : Nat
  quality : Nat
  enabled : Bool
  state : Geometry.State
  userPtr : Option Nat
  mask : Nat
  used : Int
  intersectionFilterN : Option Nat
  occlusionFilterN : Option Nat
deriving DecidableEq, Repr

/-- The members of a scene that `geometry.cpp` touches: the counter
`numIntersectionFiltersN` (a `size_t`), the flag raised by `setModified()`, and `world`,
the part the virtual methods `enabling()` and `disabling()` update. -/
structure SceneState (W : Type) where
  numIntersectionFiltersN : Nat
  modified : Bool
  world : W

/-- The virtual methods `enabling()` and `disabling()`, which the classes derived from
`Geometry` implement (none of them is among the sources): they are parameters, acting on
the part `world` of the scene of the geometry. -/
structure GeometryHooks (W : Type) where
  enabling : Geometry → W → W
  disabling : Geometry → W → W

section GeometryMethods

variable {W : Type}

/-- Modelled from the spec: the method `Scene::setModified()` (`scene.h` is not among
the sources), which raises the flag of the scene. -/
def SceneState.setModified (s : SceneState W) : SceneState W := { s with modified := true }

/-- The statement `c += n` on `size_t`. -/
def addSizeT (c n : Nat) : Nat := (n + c) % sizeT

/-- The statement `c -= n` on `size_t`, for `n` at most `2^64`. -/
def subSizeT (c n : Nat) : Nat := (sizeT - n + c) % sizeT

/-- The constructor `Geometry(device, type, numPrimitives, numTimeSteps)`. -/
def Geometry.new (type : Geometry.GType) (numPrimitives numTimeSteps : Nat) : Geometry where
  scene := none
  geomID := 0
  type := type
  numPrimitives := numPrimitives
  numPrimitivesChanged := false
  numTimeSteps := numTimeSteps
  fnumTimeSegments := predU numTimeSteps
  quality := RTC_BUILD_QUALITY_MEDIUM
  enabled := true
  state := Geometry.State.MODIFIED
  userPtr := none
  mask := uintT - 1
  used := 1
  intersectionFilterN := none
  occlusionFilterN := none

/-- Modelled from the spec: the inline method `isEnabled()` of `geometry.h` (not among
the sources), the value of `enabled`. -/
def Geometry.isEnabled (g : Geometry) : Bool := g.enabled

/-- Modelled from the spec: the inline method `isDisabled()` of `geometry.h` (not among
the sources), the negation of `isEnabled()`. -/
def Geometry.isDisabled (g : Geometry) : Bool := !g.isEnabled

/-- The statement `if (isEnabled() && scene) f();` for `f` one of `enabling()` and
`disabling()`. -/
def Geometry.hook (f : Geometry → W → W) (g : Geometry) (σ : Nat → SceneState W) :
    Nat → SceneState W :=
  match g.scene with
  | some s =>
    if g.isEnabled = true then Function.update σ s { σ s with world := f g (σ s).world }
    else σ
  | none => σ

/-- The statement `if (scene) scene->setModified();`. -/
def Geometry.setSceneModified (g : Geometry) (σ : Nat → SceneState W) : Nat → SceneState W :=
  match g.scene with
  | some s => Function.update σ s (σ s).setModified
  | none => σ

/-- The method `Geometry::update()`. -/
def Geometry.update (g : Geometry) (σ : Nat → SceneState W) : Geometry × (Nat → SceneState W) :=
  ({ g with state := Geometry.State.MODIFIED }, g.setSceneModified σ)

/-- The method `Geometry::setNumPrimitives(numPrimitives_in)`. -/
def Geometry.setNumPrimitives (hooks : GeometryHooks W) (numPrimitives_in : Nat) (g : Geometry)
    (σ : Nat → SceneState W) : Geometry × (Nat → SceneState W) :=
  if numPrimitives_in = g.numPrimitives then (g, σ)
  else
    Geometry.update { g with numPrimitives := numPrimitives_in, numPrimitivesChanged := true }
      (Geometry.hook hooks.enabling
        { g with numPrimitives := numPrimitives_in, numPrimitivesChanged := true }
        (Geometry.hook hooks.disabling g σ))

/-- The method `Geometry::setNumTimeSteps(numTimeSteps_in)`. -/
def Geometry.setNumTimeSteps (hooks : GeometryHooks W) (numTimeSteps_in : Nat) (g : Geometry)
    (σ : Nat → SceneState W) : Geometry × (Nat → SceneState W) :=
  if numTimeSteps_in = g.numTimeSteps then (g, σ)
  else
    Geometry.update
      { g with numTimeSteps := numTimeSteps_in, fnumTimeSegments := predU numTimeSteps_in }
      (Geometry.hook hooks.enabling
        { g with numTimeSteps := numTimeSteps_in, fnumTimeSegments := predU numTimeSteps_in }
        (Geometry.hook hooks.disabling g σ))

/-- The method `Geometry::commit()`. -/
def Geometry.commit (g : Geometry) (σ : Nat → SceneState W) : Geometry × (Nat → SceneState W) :=
  ({ g with state := Geometry.State.COMMITTED }, g.setSceneModified σ)

/-- The method `Geometry::preCommit()`: it assigns nothing, and either throws or
returns. -/
def Geometry.preCommit (g : Geometry) : Except GeometryFault Geometry :=
  if g.state = Geometry.State.MODIFIED then
    Except.error
      (GeometryFault.rtcError RTCError.RTC_ERROR_INVALID_OPERATION "geometry got not committed")
  else Except.ok g

/-- The method `Geometry::postCommit()`. -/
def Geometry.postCommit (g : Geometry) : Geometry :=
  if g.isEnabled = true then
    { g with numPrimitivesChanged := false, state := Geometry.State.BUILD }
  else { g with numPrimitivesChanged := false }

/-- The local `numN` of `updateIntersectionFilters`:
`(intersectionFilterN != nullptr) + (occlusionFilterN != nullptr)`. -/
def Geometry.numN (g : Geometry) : Nat :=
  g.intersectionFilterN.isSome.toNat + g.occlusionFilterN.isSome.toNat

/-- The method `Geometry::updateIntersectionFilters(enable)` on the scene it is called
for. -/
def Geometry.updateIntersectionFilters (g : Geometry) (enable : Bool) (s : SceneState W) :
    SceneState W :=
  if enable = true then
    { s with numIntersectionFiltersN := addSizeT s.numIntersectionFiltersN g.numN }
  else { s with numIntersectionFiltersN := subSizeT s.numIntersectionFiltersN g.numN }

/-- The method `Geometry::attach(scene, geomID)`; `scene` is not null (`assert(scene)`).
The members are assigned first, so the hook sees them. -/
def Geometry.attach (hooks : GeometryHooks W) (scene geomID : Nat) (g : Geometry)
    (σ : Nat → SceneState W) : Geometry × (Nat → SceneState W) :=
  if g.isEnabled = true then
    ({ g with scene := some scene, geomID := geomID },
      Function.update σ scene
        { g.updateIntersectionFilters true (σ scene).setModified with
          world := hooks.enabling { g with scene := some scene, geomID := geomID }
            (σ scene).world })
  else ({ g with scene := some scene, geomID := geomID }, σ)

/-- The method `Geometry::detach()`; the value `-1` of `geomID` is the largest
`unsigned int`.  An enabled geometry reaches `scene->setModified()`. -/
def Geometry.detach (hooks : GeometryHooks W) (g : Geometry) (σ : Nat → SceneState W) :
    Except GeometryFault (Geometry × (Nat → SceneState W)) :=
  if g.isEnabled = true then
    match g.scene with
    | none => Except.error GeometryFault.nullScene
    | some s =>
      Except.ok ({ g with scene := none, geomID := uintT - 1 },
        Function.update σ s
          { g.updateIntersectionFilters false (σ s).setModified with
            world := hooks.disabling g (σ s).world })
  else Except.ok ({ g with scene := none, geomID := uintT - 1 }, σ)

/-- The method `Geometry::enable()`. -/
def Geometry.enable (hooks : GeometryHooks W) (g : Geometry) (σ : Nat → SceneState W) :
    Geometry × (Nat → SceneState W) :=
  if g.isEnabled = true then (g, σ)
  else
    ({ g with used := g.used + 1, enabled := true },
      match g.scene with
      | some s =>
        Function.update σ s
          { (g.updateIntersectionFilters true (σ s)).setModified with
            world := hooks.enabling g (σ s).world }
      | none => σ)

/-- The method `Geometry::disable()`. -/
def Geometry.disable (hooks : GeometryHooks W) (g : Geometry) (σ : Nat → SceneState W) :
    Geometry × (Nat → SceneState W) :=
  if g.isDisabled = true then (g, σ)
  else
    ({ g with used := g.used - 1, enabled := false },
      match g.scene with
      | some s =>
        Function.update σ s
          { (g.updateIntersectionFilters false (σ s)).setModified with
            world := hooks.disabling g (σ s).world }
      | none => σ)

/-- The method `Geometry::setUserData(ptr)`. -/
def Geometry.setUserData (ptr : Option Nat) (g : Geometry) : Geometry := { g with userPtr := ptr }

/-- The test both set-filter methods start with: the type is none of the six that
support filter functions. -/
def Geometry.filtersUnsupported (g : Geometry) : Bool :=
  decide (g.type ≠ Geometry.GType.TRIANGLE_MESH ∧ g.type ≠ Geometry.GType.QUAD_MESH ∧
    g.type ≠ Geometry.GType.LINE_SEGMENTS ∧ g.type ≠ Geometry.GType.BEZIER_CURVES ∧
    g.type ≠ Geometry.GType.SUBDIV_MESH ∧ g.type ≠ Geometry.GType.USER_GEOMETRY)

/-- The statements `if (scene && isEnabled()) { scene->numIntersectionFiltersN -= old !=
nullptr; scene->numIntersectionFiltersN += filter != nullptr; }` of the set-filter
methods, `old` being the filter stored so far. -/
def Geometry.replaceFilter (g : Geometry) (old filter : Option Nat) (σ : Nat → SceneState W) :
    Nat → SceneState W :=
  match g.scene with
  | some s =>
    if g.isEnabled = true then
      Function.update σ s
        { σ s with
          numIntersectionFiltersN :=
            addSizeT (subSizeT (σ s).numIntersectionFiltersN old.isSome.toNat)
              filter.isSome.toNat }
    else σ
  | none => σ

/-- The method `Geometry::setIntersectionFilterFunctionN(filter)`. -/
def Geometry.setIntersectionFilterFunctionN (filter : Option Nat) (g : Geometry)
    (σ : Nat → SceneState W) : Except GeometryFault (Geometry × (Nat → SceneState W)) :=
  if g.filtersUnsupported = true then
    Except.error (GeometryFault.rtcError RTCError.RTC_ERROR_INVALID_OPERATION
      "filter functions not supported for this geometry")
  else
    Except.ok ({ g with intersectionFilterN := filter },
      g.replaceFilter g.intersectionFilterN filter σ)

/-- The method `Geometry::setOcclusionFilterFunctionN(filter)`. -/
def Geometry.setOcclusionFilterFunctionN (filter : Option Nat) (g : Geometry)
    (σ : Nat → SceneState W) : Except GeometryFault (Geometry × (Nat → SceneState W)) :=
  if g.filtersUnsupported = true then
    Except.error (GeometryFault.rtcError RTCError.RTC_ERROR_INVALID_OPERATION
      "filter functions not supported for this geometry")
  else
    Except.ok ({ g with occlusionFilterN := filter },
      g.replaceFilter g.occlusionFilterN filter σ)

end GeometryMethods

/-! ## Sequences of calls on the geometries of a program -/

/-- The geometries of a program, by index, and its scenes, by handle. -/
structure GeometryWorld (W : Type) where
  geometries : List Geometry
  scenes : Nat → SceneState W

/-- A call of one of the methods that take part in the accounting of filter functions, on
the geometry with index `g`. -/
inductive GeometryCall where
  | attach (g : Nat) (scene : Nat) (geomID : Nat)
  | detach (g : Nat)
  | enable (g : Nat)
  | disable (g : Nat)
  | setIntersectionFilterFunctionN (g : Nat) (filter : Option Nat)
  | setOcclusionFilterFunctionN (g : Nat) (filter : Option Nat)
deriving DecidableEq, Repr

/-- The index of the geometry a call is made on. -/
def GeometryCall.target : GeometryCall → Nat
  | GeometryCall.attach g _ _ => g
  | GeometryCall.detach g => g
  | GeometryCall.enable g => g
  | GeometryCall.disable g => g
  | GeometryCall.setIntersectionFilterFunctionN g _ => g
  | GeometryCall.setOcclusionFilterFunctionN g _ => g

section GeometryCalls

variable {W : Type}

/-- The method a call names, on the geometry and the scenes. -/
def GeometryCall.method (hooks : GeometryHooks W) :
    GeometryCall → Geometry → (Nat → SceneState W) →
      Except GeometryFault (Geometry × (Nat → SceneState W))
  | GeometryCall.attach _ scene geomID, g, σ => Except.ok (g.attach hooks scene geomID σ)
  | GeometryCall.detach _, g, σ => g.detach hooks σ
  | GeometryCall.enable _, g, σ => Except.ok (g.enable hooks σ)
  | GeometryCall.disable _, g, σ => Except.ok (g.disable hooks σ)
  | GeometryCall.setIntersectionFilterFunctionN _ filter, g, σ =>
    g.setIntersectionFilterFunctionN filter σ
  | GeometryCall.setOcclusionFilterFunctionN _ filter, g, σ =>
    g.setOcclusionFilterFunctionN filter σ

/-- A call on the world: the method runs on the geometry with the index of the call, and
what it returns replaces the geometry and the scenes.  There is nothing to call at an
index without a geometry. -/
def GeometryWorld.call (hooks : GeometryHooks W) (c : GeometryCall) (w : GeometryWorld W) :
    Except GeometryFault (GeometryWorld W) :=
  match w.geometries[c.target]? with
  | none => Except.ok w
  | some g =>
    match c.method hooks g w.scenes with
    | Except.error f => Except.error f
    | Except.ok r => Except.ok ⟨w.geometries.set c.target r.1, r.2⟩

/-- The world after a call, as its caller sees it: a call that throws an `RTCError` has
assigned nothing before, so the world is as it was; undefined behaviour has no world
after it. -/
def GeometryWorld.after (hooks : GeometryHooks W) (c : GeometryCall) (w : GeometryWorld W) :
    Except GeometryFault (GeometryWorld W) :=
  match w.call hooks c with
  | Except.ok w1 => Except.ok w1
  | Except.error (GeometryFault.rtcError _ _) => Except.ok w
  | Except.error f => Except.error f

/-- A sequence of calls, one after the other. -/
def GeometryWorld.run (hooks : GeometryHooks W) :
    List GeometryCall → GeometryWorld W → Except GeometryFault (GeometryWorld W)
  | [], w => Except.ok w
  | c :: cs, w =>
    match w.after hooks c with
    | Except.ok w1 => GeometryWorld.run hooks cs w1
    | Except.error f => Except.error f

/-- The number of non-null filter functions a geometry counts for in the scene with
handle `scene`: both of its filters if it is attached to that scene and enabled, none
otherwise. -/
def Geometry.filtersIn (scene : Nat) (g : Geometry) : Nat :=
  if g.scene = some scene ∧ g.enabled = true then g.numN else 0

/-- The total number of non-null intersection and occlusion filter functions over the
geometries that are attached to the scene and enabled. -/
def attachedFilters (scene : Nat) (gs : List Geometry) : Nat :=
  (gs.map (Geometry.filtersIn scene)).sum

/-- The accounting of filter functions: the counter of every scene is the number of
filter functions of the enabled geometries attached to it. -/
def FilterAccounting (w : GeometryWorld W) : Prop :=
  ∀ scene, (w.scenes scene).numIntersectionFiltersN = attachedFilters scene w.geometries

/-- The order of calls a scene keeps to: `attach` is made on a geometry that is attached
to no scene, `detach` on a geometry that is attached to one. -/
def GeometryCall.admissible (c : GeometryCall) (w : GeometryWorld W) : Bool :=
  match c, w.geometries[c.target]? with
  | GeometryCall.attach _ _ _, some g => g.scene.isNone
  | GeometryCall.detach _, some g => g.scene.isSome
  | _, _ => true

/-- Every call of the sequence is admissible in the world it is made in. -/
def GeometryWorld.admits (hooks : GeometryHooks W) :
    List GeometryCall → GeometryWorld W → Bool
  | [], _ => true
  | c :: cs, w =>
    c.admissible w &&
      match w.after hooks c with
      | Except.ok w1 => GeometryWorld.admits hooks cs w1
      | Except.error _ => false

end GeometryCalls

/-! ## Interpolation of many points (`Geometry::interpolateN`) -/

/-- The six output arrays of an interpolation. -/
inductive Quantity where
  | P
  | dPdu
  | dPdv
  | ddPdudu
  | ddPdvdv
  | ddPdudv
deriving DecidableEq, Repr

/-- The memory behind an output pointer: the value at every index, and the indices
stored to, in order. -/
structure OutBuffer (F : Type) where
  data : Nat → F
  writes : List Nat

/-- Modelled from the spec: the fields of `RTCInterpolateArguments` that `interpolateN`
assigns (the header is not among the sources); `passed` tells for each of the six
pointers `P`, …, `ddPdudv` whether it is non-null. -/
structure RTCInterpolateArguments (F : Type) where
  primID : Nat
  u : F
  v : F
  bufferType : Nat
  bufferSlot : Nat
  passed : Quantity → Bool
  valueCount : Nat

/-- Modelled from the spec: the fields of `RTCInterpolateNArguments` that `interpolateN`
reads (the header is not among the sources); `valid` is `none` for a null pointer, and
`out` gives the memory behind each of the six output pointers, `none` for a null
pointer. -/
structure RTCInterpolateNArguments (F : Type) where
  valid : Option (Nat → Int)
  primIDs : Nat → Nat
  u : Nat → F
  v : Nat → F
  numUVs : Nat
  bufferType : Nat
  bufferSlot : Nat
  out : Quantity → Option (OutBuffer F)
  valueCount : Nat

section Interpolation

variable {F : Type}

/-- The statement `p[k] = x`. -/
def OutBuffer.store (b : OutBuffer F) (k : Nat) (x : F) : OutBuffer F :=
  ⟨Function.update b.data k x, b.writes ++ [k]⟩

/-- The pointers `Pt`, `dPdut`, …, `ddPdudvt`, as whether they are non-null: `Pt` follows
`P`, both first derivatives follow `dPdu`, the three second derivatives follow
`ddPdudu`. -/
def temporaries (args : RTCInterpolateNArguments F) : Quantity → Bool
  | Quantity.P => (args.out Quantity.P).isSome
  | Quantity.dPdu => (args.out Quantity.dPdu).isSome
  | Quantity.dPdv => (args.out Quantity.dPdu).isSome
  | Quantity.ddPdudu => (args.out Quantity.ddPdudu).isSome
  | Quantity.ddPdvdv => (args.out Quantity.ddPdudu).isSome
  | Quantity.ddPdudv => (args.out Quantity.ddPdudu).isSome

/-- The test `valid && !valid[i]` that skips an entry. -/
def skipped (args : RTCInterpolateNArguments F) (i : Nat) : Bool :=
  match args.valid with
  | none => false
  | some valid => decide (valid i = 0)

/-- The structure `iargs` of iteration `i`. -/
def iargs (args : RTCInterpolateNArguments F) (i : Nat) : RTCInterpolateArguments F :=
  ⟨args.primIDs i, args.u i, args.v i, args.bufferType, args.bufferSlot, temporaries args,
    args.valueCount⟩

/-- The call `interpolate(&iargs)` of the virtual method, a parameter (no class that
implements it is among the sources): of the six temporary arrays it can change those it
is passed a pointer to. -/
def callInterpolate
    (interpolate : RTCInterpolateArguments F → (Quantity → Nat → F) → Quantity → Nat → F)
    (a : RTCInterpolateArguments F) (tmp : Quantity → Nat → F) : Quantity → Nat → F :=
  fun q => if a.passed q = true then interpolate a tmp q else tmp q

/-- The loop `for (j<valueCount) p[j*numUVs+i] = src[j]` on one output pointer; the index
is an `unsigned int`. -/
def storeColumn (numUVs valueCount i : Nat) (src : Nat → F) (b : OutBuffer F) : OutBuffer F :=
  (List.range valueCount).foldl (fun b j => b.store ((j * numUVs + i) % uintT) (src j)) b

/-- The stores of one output pointer in such a loop: through a null pointer the first of
them is undefined behaviour. -/
def copyColumn (numUVs valueCount i : Nat) (src : Nat → F) :
    Option (OutBuffer F) → Except GeometryFault (Option (OutBuffer F))
  | some b => Except.ok (some (storeColumn numUVs valueCount i src b))
  | none => if valueCount = 0 then Except.ok none else Except.error GeometryFault.nullOutput

/-- One of the three blocks `if (leader) { for (j<valueCount) { … } }` that copy the
temporaries of a group of arrays to column `i` of the outputs. -/
def copyGroup (args : RTCInterpolateNArguments F) (i : Nat) (tmp : Quantity → Nat → F)
    (leader : Quantity) :
    List Quantity → (Quantity → Option (OutBuffer F)) →
      Except GeometryFault (Quantity → Option (OutBuffer F))
  | [], out => Except.ok out
  | q :: qs, out =>
    if (args.out leader).isSome = true then
      match copyColumn args.numUVs args.valueCount i (tmp q) (out q) with
      | Except.error f => Except.error f
      | Except.ok b => copyGroup args i tmp leader qs (Function.update out q b)
    else Except.ok out

/-- The state of the loop of `interpolateN`: the six temporary arrays and the memory
behind the output pointers. -/
structure InterpolateState (F : Type) where
  tmp : Quantity → Nat → F
  out : Quantity → Option (OutBuffer F)

/-- The body of the loop of `interpolateN` for the index `i`. -/
def interpolateNBody
    (interpolate : RTCInterpolateArguments F → (Quantity → Nat → F) → Quantity → Nat → F)
    (args : RTCInterpolateNArguments F) (i : Nat) (st : InterpolateState F) :
    Except GeometryFault (InterpolateState F) :=
  if skipped args i = true then Except.ok st
  else
    match copyGroup args i (callInterpolate interpolate (iargs args i) st.tmp) Quantity.P
        [Quantity.P] st.out with
    | Except.error f => Except.error f
    | Except.ok o1 =>
      match copyGroup args i (callInterpolate interpolate (iargs args i) st.tmp) Quantity.dPdu
          [Quantity.dPdu, Quantity.dPdv] o1 with
      | Except.error f => Except.error f
      | Except.ok o2 =>
        match copyGroup args i (callInterpolate interpolate (iargs args i) st.tmp)
            Quantity.ddPdudu [Quantity.ddPdudu, Quantity.ddPdvdv, Quantity.ddPdudv] o2 with
        | Except.error f => Except.error f
        | Except.ok o3 =>
          Except.ok ⟨callInterpolate interpolate (iargs args i) st.tmp, o3⟩

/-- The loop `for (i=0; i<numUVs; i++)` over the indices `is`. -/
def interpolateNLoop
    (interpolate : RTCInterpolateArguments F → (Quantity → Nat → F) → Quantity → Nat → F)
    (args : RTCInterpolateNArguments F) :
    List Nat → InterpolateState F → Except GeometryFault (InterpolateState F)
  | [], st => Except.ok st
  | i :: is, st =>
    match interpolateNBody interpolate args i st with
    | Except.error f => Except.error f
    | Except.ok st1 => interpolateNLoop interpolate args is st1

/-- The method `Geometry::interpolateN(args)`; `garbage` is the content of the six
temporary arrays before they are written.  It returns the memory behind the output
pointers. -/
def interpolateN
    (interpolate : RTCInterpolateArguments F → (Quantity → Nat → F) → Quantity → Nat → F)
    (garbage : Quantity → Nat → F) (args : RTCInterpolateNArguments F) :
    Except GeometryFault (Quantity → Option (OutBuffer F)) :=
  if args.valueCount > 256 then
    Except.error (GeometryFault.rtcError RTCError.RTC_ERROR_INVALID_OPERATION
      "maximally 256 floating point values can be interpolated per vertex")
  else
    match interpolateNLoop interpolate args (List.range args.numUVs) ⟨garbage, args.out⟩ with
    | Except.error f => Except.error f
    | Except.ok st => Except.ok st.out

/-- What the temporary arrays hold when iteration `i` starts: they keep what the calls
of `interpolate` of the iterations before left. -/
def temporariesBefore
    (interpolate : RTCInterpolateArguments F → (Quantity → Nat → F) → Quantity → Nat → F)
    (garbage : Quantity → Nat → F) (args : RTCInterpolateNArguments F) :
    Nat → Quantity → Nat → F
  | 0 => garbage
  | i + 1 =>
    if skipped args i = true then temporariesBefore interpolate garbage args i
    else
      callInterpolate interpolate (iargs args i)
        (temporariesBefore interpolate garbage args i)

end Interpolation

/-- Hooks for the examples: the part `world` of a scene counts the primitives of its
enabled geometries. -/
def exampleHooks : GeometryHooks Nat where
  enabling g n := n + g.numPrimitives
  disabling g n := n - g.numPrimitives

/-- Scenes that nothing is attached to. -/
def exampleScenes : Nat → SceneState Nat := fun _ => ⟨0, false, 0⟩

/-- Two geometries as their constructor leaves them, a triangle mesh and one of a type
without filter functions, and scenes that nothing is attached to. -/
def exampleGeometryWorld : GeometryWorld Nat :=
  ⟨[Geometry.new Geometry.GType.TRIANGLE_MESH 4 1, Geometry.new (Geometry.GType.other 9) 1 1],
    exampleScenes⟩

/-- A sequence of calls on `exampleGeometryWorld` that keeps to the order of attach and
detach; the fourth call is rejected, geometry 1 being of a type without filter
functions. -/
def exampleCalls : List GeometryCall :=
  [GeometryCall.setIntersectionFilterFunctionN 0 (some 7), GeometryCall.attach 0 5 0,
    GeometryCall.setOcclusionFilterFunctionN 0 (some 9),
    GeometryCall.setIntersectionFilterFunctionN 1 (some 3), GeometryCall.attach 1 5 1,
    GeometryCall.disable 0, GeometryCall.enable 0,
    GeometryCall.setIntersectionFilterFunctionN 0 none, GeometryCall.detach 1]

/-- A stand-in for the virtual method `interpolate`: value `j` of array `q` for the
primitive `primID` is `100 * primID + 10 * q + j`, the arrays being numbered from 0. -/
def exampleInterpolate :
    RTCInterpolateArguments Nat → (Quantity → Nat → Nat) → Quantity → Nat → Nat :=
  fun a _ q j =>
    100 * a.primID + 10 * (match q with
      | Quantity.P => 0
      | Quantity.dPdu => 1
      | Quantity.dPdv => 2
      | Quantity.ddPdudu => 3
      | Quantity.ddPdvdv => 4
      | Quantity.ddPdudv => 5) + j

/-- Three points on the primitives 1, 2 and 3, the second one masked out, two values per
point, and output arrays `P`, `dPdu` and `dPdv` that hold zeros. -/
def exampleInterpolateArgs : RTCInterpolateNArguments Nat where
  valid := some fun i => if i = 1 then 0 else -1
  primIDs := fun i => i + 1
  u := fun _ => 0
  v := fun _ => 0
  numUVs := 3
  bufferType := 0
  bufferSlot := 0
  out := fun q =>
    match q with
    | Quantity.P => some ⟨fun _ => 0, []⟩
    | Quantity.dPdu => some ⟨fun _ => 0, []⟩
    | Quantity.dPdv => some ⟨fun _ => 0, []⟩
    | _ => none
  valueCount := 2

/-- One point on primitive 1, one value, and `dPdv` the only output array, holding
fives. -/
def exampleLoneArgs : RTCInterpolateNArguments Nat where
  valid := none
  primIDs := fun _ => 1
  u := fun _ => 0
  v := fun _ => 0
  numUVs := 1
  bufferType := 0
  bufferSlot := 0
  out := fun q =>
    match q with
    | Quantity.dPdv => some ⟨fun _ => 5, []⟩
    | _ => none
  valueCount := 1

/-! ## Example data -/

/-- A two-slot AABB node over two leaves. -/
def exampleInner : NodeRef 2 (Fin 8) :=
  NodeRef.aabb (fun i => if i = 0 then ⟨1, 2⟩ else ⟨2, 4⟩)
    (fun i => if i = 0 then NodeRef.leaf 10 1 else NodeRef.leaf 20 2)

/-- A two-slot AABB node with one inner child and one empty slot. -/
def exampleRoot : NodeRef 2 (Fin 8) :=
  NodeRef.aabb (fun i => if i = 0 then ⟨1, 4⟩ else BBox.empty)
    (fun i => if i = 0 then exampleInner else NodeRef.emptyNode)

/-- An ordering key in the manner of `bounds_area`: the extent of the box, zero on leaves. -/
def exampleArea : BuildRef 2 (Fin 8) → Nat :=
  fun r => if r.node.isLeaf then 0 else r.bounds.upper.val - r.bounds.lower.val

/-- Two build references: a sub-BVH of depth two and a single leaf. -/
def exampleRefs : List (BuildRef 2 (Fin 8)) :=
  [⟨⟨1, 4⟩, exampleRoot⟩, ⟨⟨0, 7⟩, NodeRef.leaf 30 3⟩]

/-- A configuration with the sequential opening compiled in. -/
def exampleConfig : Config where
  ENABLE_DIRECT_SAH_MERGE_BUILDER := false
  ENABLE_OPEN_SEQUENTIAL := true
  SPLIT_MIN_EXT_SPACE := 4
  SPLIT_MEMORY_RESERVE_SCALE := 2
  primReserve n := n / 1000
  maxBuildDepthLeaf := 32
  singleThreadThreshold_ := 4096

/-- Collaborators for the examples: object 0 contributes the sub-BVH `exampleRoot`, every
other object one leaf; the stand-in for the SAH builders returns the first leaf it is
offered. -/
def exampleEnv : Collaborators 2 (Fin 8) Nat exampleArea where
  attachBuildRefs objectID _ :=
    if objectID = 0 then [⟨⟨1, 4⟩, exampleRoot⟩] else [⟨⟨0, 7⟩, NodeRef.leaf 30 3⟩]
  buildBinnedSAH leaf _ _ _ := (leaf 0).getD NodeRef.emptyNode
  buildBinnedOpenMergeSAH refs _ _ _ := (refs.head?.map fun r => r.node).getD NodeRef.emptyNode
  heap := sortedHeap exampleArea

/-- A builder that has not built anything yet. -/
def exampleInit : TwoLevel 2 (Fin 8) where
  objects := []
  builders_ := []
  refs_ := []
  prims_ := []
  nextRef_ := 0
  root := NodeRef.emptyNode
  bounds := BBox.empty
  numPrimitives := 0
  log := []

/-- A scene without geometry. -/
def exampleEmptyScene : Scene := ⟨[], 0⟩

/-- A scene with one mesh of five primitives. -/
def exampleSingleScene : Scene := ⟨[some ⟨5, 1, true, 0⟩], 5⟩

/-- A scene with a mesh of five primitives and a mesh of one primitive. -/
def exampleScene : Scene := ⟨[some ⟨5, 1, true, 0⟩, some ⟨1, 1, true, 0⟩], 6⟩

/-- A cache environment for the examples: four slots chosen by the tag, a buffer address
that depends on the size only, and a builder whose root is the buffer address. -/
def exampleCacheEnv : CacheEnv where
  SHARED_TESSELLATION_CACHE := true
  getTag tag := tag % 4
  alloc_tessellation_cache_mem blocks := 4096 + 64 * blocks
  buildSubdivPatchTree _ lazymem := lazymem

/-- A shared cache in which nothing has been built yet. -/
def exampleWorld : CacheWorld where
  tags _ := ⟨0, 0, 0, 0, 0, 0, false⟩
  rw_mtx := none
  log := []

/-- A patch at address 320 whose grid subtree takes six blocks. -/
def examplePatch : SubdivPatch := ⟨320, 6⟩

/-- The shared cache after the subtree of `examplePatch` was built for commit counter 1. -/
def exampleWarmWorld : CacheWorld :=
  (getSubtreeRootNode exampleCacheEnv examplePatch 1 exampleWorld).2

/-- A thread-local cache with a single entry (tag, version, root). -/
def exampleLocalCache : LocalCache (Option (Nat × Nat × Nat)) where
  lookup l tag commitCounter :=
    match l with
    | some (t, v, r) => if t = tag ∧ v = commitCounter then (r, l) else (sizeT - 1, l)
    | none => (sizeT - 1, l)
  request_LRU _ tag commitCounter := (0, some (tag, commitCounter, 0))
  copyFromSharedCacheTag l _ t :=
    match l with
    | some (a, v, _) => some (a, v, t.getRef)
    | none => none
  getRootRef l _ :=
    match l with
    | some (_, _, r) => r
    | none => 0

/-- The warm shared cache, with a read lock on slot 1 remembered in `pre.rw_mtx`. -/
def exampleLockedWorld : CacheWorld :=
  ⟨exampleWarmWorld.tags, some 1, exampleWarmWorld.log⟩

/-- An AABB node all of whose child slots are empty. -/
def exampleHollow : NodeRef 2 (Fin 8) :=
  NodeRef.aabb (fun _ => BBox.empty) (fun _ => NodeRef.emptyNode)

section OpeningLemmas

variable {N : Nat} {V K : Type} [LinearOrder K] {key : BuildRef N V → K}

theorem finalState_cons {X : Type} (init a : X) (t : List X) :
    finalState init (a :: t) = finalState a t := by
  cases t with
  | nil => rfl
  | cons b t =>
    simp only [finalState, List.getLast?_cons_cons]
    rw [List.getLast?_eq_getLast _ (List.cons_ne_nil b t)]
    rfl

theorem finalState_append {X : Type} (init : X) (s t : List X) :
    finalState init (s ++ t) = finalState (finalState init s) t := by
  induction s generalizing init with
  | nil => rfl
  | cons a s ih => simp only [List.cons_append, finalState_cons, ih]

theorem BuildRef.leafRefs_perm {l l' : List (BuildRef N V)} (h : l.Perm l') :
    (BuildRef.leafRefs l).Perm (BuildRef.leafRefs l') :=
  (h.map _).flatten

theorem BuildRef.aabbNodes_perm {l l' : List (BuildRef N V)} (h : l.Perm l') :
    BuildRef.aabbNodes l = BuildRef.aabbNodes l' :=
  (h.map _).sum_eq

theorem BuildRef.leafRefs_append (l l' : List (BuildRef N V)) :
    BuildRef.leafRefs (l ++ l') = BuildRef.leafRefs l ++ BuildRef.leafRefs l' := by
  simp [BuildRef.leafRefs]

theorem BuildRef.aabbNodes_append (l l' : List (BuildRef N V)) :
    BuildRef.aabbNodes (l ++ l') = BuildRef.aabbNodes l + BuildRef.aabbNodes l' := by
  simp [BuildRef.aabbNodes]

/-- The children pushed for an opened node carry exactly the node's leaves. -/
theorem leafRefs_openedChildren (bounds : Fin N → BBox V) (child : Fin N → NodeRef N V)
    (slots : List (Fin N)) :
    BuildRef.leafRefs (openedChildren bounds child slots)
      = (slots.map fun i => (child i).leafRefs).flatten := by
  induction slots with
  | nil => rfl
  | cons i slots ih =>
    unfold openedChildren at ih ⊢
    cases hc : child i <;>
      simp [List.filter_cons, NodeRef.isEmpty, hc, NodeRef.leafRefs, BuildRef.leafRefs] at ih ⊢ <;>
      exact ih

/-- The children pushed for an opened node carry exactly the AABB nodes below it. -/
theorem aabbNodes_openedChildren (bounds : Fin N → BBox V) (child : Fin N → NodeRef N V)
    (slots : List (Fin N)) :
    BuildRef.aabbNodes (openedChildren bounds child slots)
      = (slots.map fun i => (child i).aabbNodes).sum := by
  induction slots with
  | nil => rfl
  | cons i slots ih =>
    unfold openedChildren at ih ⊢
    cases hc : child i <;>
      simp [List.filter_cons, NodeRef.isEmpty, hc, NodeRef.aabbNodes, BuildRef.aabbNodes] at ih ⊢ <;>
      exact ih

theorem pushChildren_spec (H : HeapAlgorithms (BuildRef N V) K key)
    (bounds : Fin N → BBox V) (child : Fin N → NodeRef N V) :
    ∀ (slots : List (Fin N)) (refs : List (BuildRef N V)), is_heap key refs →
      (finalState refs (pushChildren H bounds child slots refs)).Perm
          (refs ++ openedChildren bounds child slots) ∧
      is_heap key (finalState refs (pushChildren H bounds child slots refs)) ∧
      ∀ s ∈ pushChildren H bounds child slots refs, s.length ≤ refs.length + slots.length := by
  intro slots
  induction slots with
  | nil =>
    intro refs hheap
    simp [pushChildren, finalState, openedChildren, hheap]
  | cons i slots ih =>
    intro refs hheap
    by_cases hc : (child i).isEmpty = true
    · obtain ⟨h1, h2, h3⟩ := ih refs hheap
      simp only [pushChildren, hc, if_true]
      refine ⟨?_, h2, ?_⟩
      · simpa [openedChildren, List.filter_cons, hc] using h1
      · intro s hs
        have := h3 s hs
        simp only [List.length_cons]
        omega
    · have hd : (refs ++ [BuildRef.mk (bounds i) (child i)]).dropLast = refs :=
        List.dropLast_concat
      have hpre : is_heap key (refs ++ [BuildRef.mk (bounds i) (child i)]).dropLast := by
        rw [hd]; exact hheap
      have hp := H.push_heap_perm _ hpre
      have hh := H.push_heap_heap _ hpre
      obtain ⟨h1, h2, h3⟩ := ih _ hh
      simp only [pushChildren, hc, if_false, finalState_cons, Bool.false_eq_true]
      refine ⟨?_, h2, ?_⟩
      · refine h1.trans ?_
        have : openedChildren bounds child (i :: slots)
            = BuildRef.mk (bounds i) (child i) :: openedChildren bounds child slots := by
          simp [openedChildren, List.filter_cons, hc]
        rw [this]
        have := hp.append_right (openedChildren bounds child slots)
        simpa using this
      · intro s hs
        have hl := hp.length_eq
        rw [List.length_append, List.length_singleton] at hl
        rw [List.length_cons]
        rcases List.mem_cons.mp hs with rfl | hs
        · rw [List.length_append, List.length_singleton]; omega
        rcases List.mem_cons.mp hs with rfl | hs
        · omega
        · have := h3 s hs
          omega


/-- Under the loop condition, with a non-empty array that fits the address space, one
iteration leaves at most `extSize` entries. -/
theorem openCond_bound {extSize size M : Nat} (hc : openCond N extSize size = true)
    (hpos : 0 < size) (hM : size ≤ M) (hfit : M + N ≤ sizeT) : size - 1 + N ≤ extSize := by
  unfold openCond at hc
  have h := of_decide_eq_true hc
  have h64 : 0 < sizeT := Nat.two_pow_pos 64
  rw [if_neg (by omega), Nat.mod_eq_of_lt (by omega)] at h
  omega

theorem openLoop_spec (H : HeapAlgorithms (BuildRef N V) K key) (extSize : Nat) :
    ∀ (fuel : Nat) (refs : List (BuildRef N V)), is_heap key refs →
      (BuildRef.leafRefs (finalState refs (openLoop H extSize fuel refs).1)).Perm
          (BuildRef.leafRefs refs) ∧
      (BuildRef.aabbNodes refs < fuel →
          (openLoop H extSize fuel refs).2 ≠ Outcome.outOfFuel) ∧
      (∀ M, refs.length ≤ M → extSize ≤ M → M + N ≤ sizeT →
          ∀ s ∈ (openLoop H extSize fuel refs).1, s.length ≤ M) := by
  intro fuel
  induction fuel with
  | zero =>
    intro refs _
    simp only [openLoop]
    split <;> simp [finalState]
  | succ fuel ih =>
    intro refs hheap
    have hperm := H.pop_heap_perm refs hheap
    have hpheap := H.pop_heap_heap refs hheap
    have stop : ∀ o : Outcome, o ≠ Outcome.outOfFuel →
        (BuildRef.leafRefs (finalState refs ([H.pop_heap refs], o).1)).Perm
            (BuildRef.leafRefs refs) ∧
        (BuildRef.aabbNodes refs < fuel + 1 → ([H.pop_heap refs], o).2 ≠ Outcome.outOfFuel) ∧
        (∀ M, refs.length ≤ M → extSize ≤ M → M + N ≤ sizeT →
            ∀ s ∈ ([H.pop_heap refs], o).1, s.length ≤ M) := by
      intro o ho
      refine ⟨BuildRef.leafRefs_perm hperm, fun _ => ho, ?_⟩
      intro M hM _ _ s hs
      rw [List.mem_singleton.mp hs, hperm.length_eq]
      exact hM
    simp only [openLoop]
    split
    · rename_i hcond
      split
      · exact stop _ (by decide)
      · rename_i back hback
        split
        · exact stop _ (by decide)
        · rename_i hleaf
          split
          · rename_i bounds child hnode
            have hsplit : (H.pop_heap refs).dropLast ++ [back] = H.pop_heap refs :=
              List.dropLast_append_getLast? back (by simp [hback])
            obtain ⟨hp3, hh3, hs3⟩ :=
              pushChildren_spec H bounds child (List.finRange N) _ hpheap
            obtain ⟨i1, i2, i3⟩ := ih _ hh3
            have hlen : (H.pop_heap refs).dropLast.length + 1 = refs.length := by
              rw [← hperm.length_eq, ← hsplit]
              simp
            have hopen : (openedChildren bounds child (List.finRange N)).length ≤ N := by
              unfold openedChildren
              rw [List.length_map]
              exact (List.length_filter_le _ _).trans (by simp)
            refine ⟨?_, ?_, ?_⟩
            · simp only [finalState_cons, finalState_append]
              refine i1.trans ((BuildRef.leafRefs_perm hp3).trans ?_)
              refine List.Perm.trans ?_ (BuildRef.leafRefs_perm hperm)
              rw [← hsplit, BuildRef.leafRefs_append, BuildRef.leafRefs_append,
                leafRefs_openedChildren]
              simp [BuildRef.leafRefs, hnode, NodeRef.leafRefs]
            · intro hfuel
              apply i2
              have e1 := BuildRef.aabbNodes_perm hp3
              have e2 := BuildRef.aabbNodes_perm hperm
              rw [BuildRef.aabbNodes_append, aabbNodes_openedChildren] at e1
              rw [← hsplit, BuildRef.aabbNodes_append] at e2
              simp only [BuildRef.aabbNodes, List.map_cons, List.map_nil, List.sum_cons,
                List.sum_nil, hnode, NodeRef.aabbNodes] at e1 e2 hfuel ⊢
              omega
            · intro M hM hext hfit s hs
              have hb := openCond_bound hcond (by omega) hM hfit
              have hl3 := hp3.length_eq
              rw [List.length_append] at hl3
              rcases List.mem_cons.mp hs with rfl | hs
              · rw [hperm.length_eq]; exact hM
              rcases List.mem_cons.mp hs with rfl | hs
              · omega
              rcases List.mem_append.mp hs with hs | hs
              · have := hs3 s hs
                rw [List.length_finRange] at this
                omega
              · exact i3 M (by omega) hext hfit s hs
          · rename_i other hno
            exfalso
            cases hb : back.node with
            | emptyNode => rw [hb] at hleaf; exact hleaf rfl
            | leaf p n => rw [hb] at hleaf; exact hleaf rfl
            | aabb bounds child => exact hno bounds child hb
    · simp [finalState]


/-- With a non-empty array all of whose AABB nodes have a non-empty child, the opening
loop never evaluates `refs_.back()` on an empty array. -/
theorem openLoop_defined (H : HeapAlgorithms (BuildRef N V) K key) (extSize : Nat) :
    ∀ (fuel : Nat) (refs : List (BuildRef N V)), is_heap key refs → refs ≠ [] →
      (∀ r ∈ refs, r.node.populated) →
      (openLoop H extSize fuel refs).2 ≠ Outcome.undefinedBehaviour := by
  intro fuel
  induction fuel with
  | zero =>
    intro refs _ _ _
    simp only [openLoop]
    split <;> simp
  | succ fuel ih =>
    intro refs hheap hne hpop
    have hperm := H.pop_heap_perm refs hheap
    have hpheap := H.pop_heap_heap refs hheap
    simp only [openLoop]
    split
    · split
      · rename_i hnone
        exfalso
        apply hne
        have := List.getLast?_eq_none_iff.mp hnone
        rw [this] at hperm
        exact List.Perm.eq_nil hperm.symm
      · rename_i back hback
        split
        · simp
        · rename_i hleaf
          split
          · rename_i bounds child hnode
            have hsplit : (H.pop_heap refs).dropLast ++ [back] = H.pop_heap refs :=
              List.dropLast_append_getLast? back (by simp [hback])
            obtain ⟨hp3, hh3, _⟩ :=
              pushChildren_spec H bounds child (List.finRange N) _ hpheap
            have hbmem : back ∈ refs := by
              apply hperm.subset
              rw [← hsplit]
              simp
            have hbp := hpop back hbmem
            rw [hnode] at hbp
            obtain ⟨⟨i, hi⟩, hall⟩ := hbp
            apply ih _ hh3
            · intro h0
              rw [h0] at hp3
              have h1 := List.Perm.eq_nil hp3.symm
              have h2 : BuildRef.mk (bounds i) (child i)
                  ∈ (H.pop_heap refs).dropLast ++ openedChildren bounds child (List.finRange N) := by
                apply List.mem_append_right
                unfold openedChildren
                exact List.mem_map.mpr ⟨i, List.mem_filter.mpr ⟨List.mem_finRange i, by simp [hi]⟩, rfl⟩
              rw [h1] at h2
              exact List.not_mem_nil _ h2
            · intro r hr
              rcases List.mem_append.mp (hp3.subset hr) with h | h
              · apply hpop
                apply hperm.subset
                rw [← hsplit]
                exact List.mem_append_left _ h
              · unfold openedChildren at h
                obtain ⟨j, _, rfl⟩ := List.mem_map.mp h
                exact hall j
          · rename_i other hno
            exfalso
            cases hb : back.node with
            | emptyNode => rw [hb] at hleaf; exact hleaf rfl
            | leaf p n => rw [hb] at hleaf; exact hleaf rfl
            | aabb bounds child => exact hno bounds child hb
    · simp

end OpeningLemmas

/-- On an empty array `open_sequential` returns at once. -/
theorem open_sequential_of_empty {N : Nat} {V K : Type} [LinearOrder K]
    {key : BuildRef N V → K} (H : HeapAlgorithms (BuildRef N V) K key)
    (extSize : Nat) (refs : List (BuildRef N V)) (h : refs.length = 0) :
    open_sequential H extSize refs = ⟨refs, [], Outcome.finished⟩ := by
  unfold open_sequential
  rw [if_pos h]

/-- On a non-empty array `open_sequential` heapifies and runs the opening loop. -/
theorem open_sequential_of_nonempty {N : Nat} {V K : Type} [LinearOrder K]
    {key : BuildRef N V → K} (H : HeapAlgorithms (BuildRef N V) K key)
    (extSize : Nat) (refs : List (BuildRef N V)) (h : ¬ refs.length = 0) :
    open_sequential H extSize refs =
      ⟨refs,
       H.make_heap refs ::
         (openLoop H extSize (BuildRef.aabbNodes refs + 1) (H.make_heap refs)).1,
       (openLoop H extSize (BuildRef.aabbNodes refs + 1) (H.make_heap refs)).2⟩ := by
  unfold open_sequential
  rw [if_neg h]

/-! ## Opening: the budget and the leaves -/

section OpeningTheorems

variable {N : Nat} {V K : Type} [LinearOrder K] {key : BuildRef N V → K}

/-- C1 (opening budget): `open_sequential(extSize)` never grows the `BuildRef` array beyond
`extSize`.  For every branching factor `N`, every `extSize` and every initial array that
fits the address space, every value `refs_` takes during the call and the value it has
afterwards has at most `max(initial size, extSize)` entries; when the initial array has at
most `extSize` entries this bound is `extSize`. -/
theorem open_sequential_within_budget (H : HeapAlgorithms (BuildRef N V) K key)
    (extSize : Nat) (refs : List (BuildRef N V))
    (hfit : max refs.length extSize + N ≤ sizeT) :
    (∀ s ∈ (open_sequential H extSize refs).states, s.length ≤ max refs.length extSize) ∧
    (open_sequential H extSize refs).final.length ≤ max refs.length extSize ∧
    (refs.length ≤ extSize →
      (∀ s ∈ (open_sequential H extSize refs).states, s.length ≤ extSize) ∧
      (open_sequential H extSize refs).final.length ≤ extSize) := by
  have key1 : ∀ s ∈ (open_sequential H extSize refs).states,
      s.length ≤ max refs.length extSize := by
    by_cases hne : refs.length = 0
    · rw [open_sequential_of_empty H extSize refs hne]
      intro s hs
      exact absurd hs (List.not_mem_nil s)
    · rw [open_sequential_of_nonempty H extSize refs hne]
      intro s hs
      rcases List.mem_cons.mp hs with rfl | hs
      · rw [(H.make_heap_perm refs).length_eq]
        exact le_max_left _ _
      · exact (openLoop_spec H extSize _ _ (H.make_heap_heap refs)).2.2 _
          (by rw [(H.make_heap_perm refs).length_eq]; exact le_max_left _ _)
          (le_max_right _ _) hfit s hs
  have key2 : (open_sequential H extSize refs).final.length ≤ max refs.length extSize := by
    unfold OpenRun.final finalState
    cases hl : (open_sequential H extSize refs).states.getLast? with
    | none =>
      have : (open_sequential H extSize refs).init = refs := by
        by_cases hne : refs.length = 0
        · rw [open_sequential_of_empty H extSize refs hne]
        · rw [open_sequential_of_nonempty H extSize refs hne]
      rw [Option.getD_none, this]
      exact le_max_left _ _
    | some s => exact key1 s (List.mem_of_getLast?_eq_some hl)
  refine ⟨key1, key2, fun hle => ?_⟩
  rw [max_eq_right hle] at key1 key2
  exact ⟨key1, key2⟩

/-- C2 (opening loses and duplicates nothing): for every finite forest of sub-BVHs
referenced by `refs_`, the leaf references reachable from the entries of `refs_` after
`open_sequential(extSize)` are, with multiplicity, the ones reachable before it.  The call
ends within its iteration budget, and it ends regularly whenever every AABB node of the
forest has a non-empty child. -/
theorem open_sequential_preserves_leaves (H : HeapAlgorithms (BuildRef N V) K key)
    (extSize : Nat) (refs : List (BuildRef N V)) :
    (BuildRef.leafRefs (open_sequential H extSize refs).final).Perm (BuildRef.leafRefs refs) ∧
    (open_sequential H extSize refs).outcome ≠ Outcome.outOfFuel ∧
    ((∀ r ∈ refs, r.node.populated) →
      (open_sequential H extSize refs).outcome = Outcome.finished) := by
  by_cases hne : refs.length = 0
  · rw [open_sequential_of_empty H extSize refs hne]
    exact ⟨List.Perm.refl _, by simp, fun _ => rfl⟩
  · rw [open_sequential_of_nonempty H extSize refs hne]
    have hspec := openLoop_spec H extSize (BuildRef.aabbNodes refs + 1) _ (H.make_heap_heap refs)
    have hcount := BuildRef.aabbNodes_perm (H.make_heap_perm refs)
    have hfuel := hspec.2.1 (by omega)
    have hleaves := hspec.1
    have hdef := openLoop_defined H extSize (BuildRef.aabbNodes refs + 1) _
      (H.make_heap_heap refs)
      (fun h0 => hne (by rw [← (H.make_heap_perm refs).length_eq, h0]; rfl))
    clear hspec
    generalize openLoop H extSize (BuildRef.aabbNodes refs + 1) (H.make_heap refs) = run
      at hfuel hleaves hdef ⊢
    refine ⟨?_, hfuel, fun hpop => ?_⟩
    · show (BuildRef.leafRefs (finalState refs (H.make_heap refs :: run.1))).Perm _
      rw [finalState_cons]
      exact hleaves.trans (BuildRef.leafRefs_perm (H.make_heap_perm refs))
    · have hdef2 := hdef (fun r hr => hpop r ((H.make_heap_perm refs).subset hr))
      show run.2 = Outcome.finished
      cases ho : run.2 with
      | finished => rfl
      | undefinedBehaviour => exact absurd ho hdef2
      | outOfFuel => exact absurd ho hfuel

/-- The opening budget at work on `exampleRefs` with `extSize = 5`. -/
theorem open_sequential_within_budget_witness :
    max exampleRefs.length 5 + 2 ≤ sizeT ∧
    ((∀ s ∈ (open_sequential (sortedHeap exampleArea) 5 exampleRefs).states,
        s.length ≤ max exampleRefs.length 5) ∧
     (open_sequential (sortedHeap exampleArea) 5 exampleRefs).final.length
        ≤ max exampleRefs.length 5 ∧
     (exampleRefs.length ≤ 5 →
      (∀ s ∈ (open_sequential (sortedHeap exampleArea) 5 exampleRefs).states, s.length ≤ 5) ∧
      (open_sequential (sortedHeap exampleArea) 5 exampleRefs).final.length ≤ 5)) :=
  ⟨by decide, open_sequential_within_budget (sortedHeap exampleArea) 5 exampleRefs (by decide)⟩

end OpeningTheorems

/-! ## Lemmas on `build()` -/

section BuilderLemmas

variable {N : Nat} {V K : Type} [LinearOrder K] {key : BuildRef N V → K}

theorem extends_refl (P : Event → Prop) (s : TwoLevel N V) : Extends P s s :=
  ⟨[], by simp, by simp⟩

theorem extends_trans {P : Event → Prop} {s t u : TwoLevel N V}
    (h1 : Extends P s t) (h2 : Extends P t u) : Extends P s u := by
  obtain ⟨e1, l1, p1⟩ := h1
  obtain ⟨e2, l2, p2⟩ := h2
  refine ⟨e1 ++ e2, by rw [l2, l1, List.append_assoc], ?_⟩
  intro e he
  rcases List.mem_append.mp he with h | h
  · exact p1 e h
  · exact p2 e h

theorem extends_record {P : Event → Prop} (s : TwoLevel N V) (evs : List Event)
    (h : ∀ e ∈ evs, P e) : Extends P s (s.record evs) :=
  ⟨evs, rfl, h⟩

/-- A loop over objects keeps every relation that its body keeps. -/
theorem forObjects_induction (R : TwoLevel N V → TwoLevel N V → Prop)
    (hrefl : ∀ s, R s s) (htrans : ∀ s t u, R s t → R t u → R s u)
    (body : Nat → TwoLevel N V → Except Fault (TwoLevel N V))
    (hbody : ∀ i s t, body i s = Except.ok t → R s t) :
    ∀ (is : List Nat) (s t : TwoLevel N V), forObjects body is s = Except.ok t → R s t := by
  intro is
  induction is with
  | nil =>
    intro s t h
    simp only [forObjects] at h
    cases h
    exact hrefl s
  | cons i is ih =>
    intro s t h
    simp only [forObjects] at h
    cases hb : body i s with
    | error f => rw [hb] at h; cases h
    | ok u =>
      rw [hb] at h
      exact htrans s u t (hbody i s u hb) (ih u t h)

/-- What the deletion loop leaves untouched, and what it logs. -/
theorem deleteObjects_spec :
    ∀ (is : List Nat) (s t : TwoLevel N V), deleteObjects is s = Except.ok t →
      t.builders_ = s.builders_ ∧ t.refs_ = s.refs_ ∧ t.prims_ = s.prims_ ∧
      t.nextRef_ = s.nextRef_ ∧ Extends (fun e => e.isDeletion = true) s t := by
  intro is
  induction is with
  | nil =>
    intro s t h
    simp only [deleteObjects] at h
    cases h
    exact ⟨rfl, rfl, rfl, rfl, extends_refl _ _⟩
  | cons i is ih =>
    intro s t h
    simp only [deleteObjects] at h
    split at h
    · cases h
    · obtain ⟨h1, h2, h3, h4, h5⟩ := ih _ t h
      refine ⟨h1, h2, h3, h4, extends_trans (extends_record _ _ ?_) h5⟩
      intro e he
      simp only [List.mem_cons, List.mem_singleton, List.not_mem_nil, or_false] at he
      rcases he with rfl | rfl <;> rfl

theorem deletePhase_spec (scene : Scene) (s t : TwoLevel N V)
    (h : deletePhase scene s = Except.ok t) :
    t.builders_ = s.builders_ ∧ t.refs_ = s.refs_ ∧ t.prims_ = s.prims_ ∧
    t.nextRef_ = s.nextRef_ ∧ Extends (fun e => e.isDeletion = true) s t := by
  unfold deletePhase at h
  split at h
  · exact deleteObjects_spec _ s t h
  · cases h
    exact ⟨rfl, rfl, rfl, rfl, extends_refl _ _⟩

theorem extends_mono {P Q : Event → Prop} {s t : TwoLevel N V} (h : Extends P s t)
    (hPQ : ∀ e, P e → Q e) : Extends Q s t := by
  obtain ⟨evs, hl, hp⟩ := h
  exact ⟨evs, hl, fun e he => hPQ e (hp e he)⟩

theorem isTopLevel_of_isDeletion (e : Event) (h : e.isDeletion = true) :
    e.isTopLevel = false := by
  cases e <;> first | rfl | cases h

theorem collecting_refl (s : TwoLevel N V) : Collecting s s :=
  ⟨id, extends_refl _ _⟩

theorem collecting_trans (s t u : TwoLevel N V) (h1 : Collecting s t) (h2 : Collecting t u) :
    Collecting s u :=
  ⟨fun h => h2.1 (h1.1 h), extends_trans h1.2 h2.2⟩

theorem collecting_record (s : TwoLevel N V) (evs : List Event)
    (h : ∀ e ∈ evs, e.isTopLevel = false) : Collecting s (s.record evs) :=
  ⟨id, extends_record s evs h⟩

theorem createLarge_collecting (i : Nat) (mesh : Mesh) (s : TwoLevel N V) :
    Collecting s (createLarge i mesh s) :=
  ⟨id, ⟨_, rfl, by simp [Event.isTopLevel]⟩⟩

theorem setupObject_collecting (scene : Scene) (i : Nat) (s t : TwoLevel N V)
    (h : setupObject N scene i s = Except.ok t) : Collecting s t := by
  unfold setupObject at h
  split at h
  · cases h; exact collecting_refl s
  · split at h
    · cases h; exact collecting_refl s
    · split at h
      · unfold setupLargeBuildRefBuilder at h
        split at h
        · cases h
          exact createLarge_collecting i _ s
        · split at h
          · cases h
          · split at h
            · cases h
              exact collecting_trans _ _ _
                (collecting_record s _ (by simp [Event.isTopLevel]))
                (createLarge_collecting i _ _)
            · cases h; exact collecting_refl s
      · cases h
        unfold setupSmallBuildRefBuilder
        split
        · exact ⟨id, ⟨_, rfl, by simp [Event.isTopLevel]⟩⟩
        · exact collecting_refl s

theorem attachObject_collecting (env : Collaborators N V K key) (scene : Scene) (i : Nat)
    (s t : TwoLevel N V) (h : attachObject env scene i s = Except.ok t) : Collecting s t := by
  unfold attachObject at h
  split at h
  · cases h; exact collecting_refl s
  · split at h
    · cases h; exact collecting_refl s
    · split at h
      · cases h
      · cases h
        refine ⟨fun hc => ?_, ⟨_, rfl, by simp [Event.isTopLevel]⟩⟩
        simp only [TwoLevel.record, List.length_append]
        omega

theorem collectRefs_spec (env : Collaborators N V K key) (scene : Scene) (s t : TwoLevel N V)
    (h : collectRefs env scene s = Except.ok t) :
    t.nextRef_ = t.refs_.length ∧ Extends (fun e => e.isTopLevel = false) s t := by
  unfold collectRefs at h
  split at h
  · cases h
  · rename_i u hu
    have h1 := forObjects_induction Collecting collecting_refl collecting_trans _
      (setupObject_collecting scene) _ _ _ hu
    have h2 := forObjects_induction Collecting collecting_refl collecting_trans _
      (attachObject_collecting env scene) _ _ _ h
    have h0 : Collecting s (prepare scene s) := ⟨fun _ => rfl, ⟨[], by simp [prepare], by simp⟩⟩
    exact ⟨h2.1 (h1.1 rfl), extends_trans (extends_trans h0.2 h1.2) h2.2⟩

/-- The top-level part of `build()` never moves the cursor. -/
theorem topLevel_nextRef [Lattice V] [BoundedOrder V] (cfg : Config)
    (env : Collaborators N V K key) (n : Nat) (s t : TwoLevel N V)
    (h : topLevel cfg env n s = Except.ok t) : t.nextRef_ = s.nextRef_ := by
  unfold topLevel at h
  split at h
  · split at h
    · cases h; rfl
    · cases h
  · unfold generalPath at h
    split at h
    · cases h
    · rename_i u hu
      cases h
      have hu2 : u.nextRef_ = s.nextRef_ := by
        unfold openRefs at hu
        split at hu
        · cases hu; rfl
        · split at hu
          · split at hu
            · cases hu; rfl
            · cases hu
          · cases hu; rfl
      unfold installTopLevel
      split
      · split <;> exact hu2
      · split <;> exact hu2

/-! ### Bounds under opening -/

/-- A `build()` of a scene with primitives that ends went through the three parts. -/
theorem build_inversion [Lattice V] [BoundedOrder V] (cfg : Config)
    (env : Collaborators N V K key) (scene : Scene) (s t : TwoLevel N V)
    (hprims : scene.numPrimitives ≠ 0) (hbuild : build cfg env scene s = Except.ok t) :
    ∃ s1 s3, deletePhase scene s = Except.ok s1 ∧ collectRefs env scene s1 = Except.ok s3 ∧
      topLevel cfg env scene.numPrimitives s3 = Except.ok t := by
  unfold build at hbuild
  cases h1 : deletePhase scene s with
  | error f => rw [h1] at hbuild; cases hbuild
  | ok s1 =>
    rw [h1] at hbuild
    simp only [if_neg hprims] at hbuild
    cases h3 : collectRefs env scene s1 with
    | error f => rw [h3] at hbuild; cases hbuild
    | ok s3 =>
      rw [h3] at hbuild
      exact ⟨s1, s3, rfl, h3, hbuild⟩

theorem emittedRefs_eq (env : Collaborators N V K key) (scene : Scene) (s s1 s3 : TwoLevel N V)
    (h1 : deletePhase scene s = Except.ok s1) (h3 : collectRefs env scene s1 = Except.ok s3) :
    emittedRefs env scene s = s3.refs_ := by
  unfold emittedRefs
  rw [h1]
  simp only [h3]

end BuilderLemmas

/-! ## The paths of `build()` -/

section BuilderTheorems

variable {N : Nat} {V K : Type} [LinearOrder K] {key : BuildRef N V → K}
  [Lattice V] [BoundedOrder V]

/-- C3 (fast path): whenever exactly one `BuildRef` was emitted during `build()`
(`nextRef_ == 1`, in a scene with primitives), the installed scene root is exactly
`refs_[0].node`, the installed bounds are `refs_[0].bounds()`, the installed primitive
count is `numPrimitives`, and the call logs neither `open_sequential` nor a top-level
SAH build. -/
theorem build_fast_path (cfg : Config) (env : Collaborators N V K key) (scene : Scene)
    (s t : TwoLevel N V) (hprims : scene.numPrimitives ≠ 0)
    (hbuild : build cfg env scene s = Except.ok t) (hone : t.nextRef_ = 1) :
    ∃ r, t.refs_ = [r] ∧ t.root = r.node ∧ t.bounds = r.bounds ∧
      t.numPrimitives = scene.numPrimitives ∧
      ∃ evs, t.log = s.log ++ evs ∧ ∀ e ∈ evs, e.isTopLevel = false := by
  obtain ⟨s1, s3, hs1, hs3, htop⟩ := build_inversion cfg env scene s t hprims hbuild
  obtain ⟨hcur, hext⟩ := collectRefs_spec env scene s1 s3 hs3
  have hdel := (deletePhase_spec scene s s1 hs1).2.2.2.2
  have hlog := extends_trans (extends_mono hdel isTopLevel_of_isDeletion) hext
  have hn := topLevel_nextRef cfg env _ s3 t htop
  rw [hone] at hn
  unfold topLevel at htop
  rw [if_pos hn.symm] at htop
  split at htop
  · rename_i r hr
    cases htop
    have hlen : s3.refs_.length = 1 := by rw [← hcur, ← hn]
    refine ⟨r, ?_, rfl, rfl, rfl, hlog⟩
    show s3.refs_ = [r]
    match hrefs : s3.refs_, hlen with
    | [a], _ =>
      rw [hrefs] at hr
      simp only [List.getElem?_cons_zero, Option.some.injEq] at hr
      rw [hr]
  · cases htop

/-- C4 (empty scene): whenever `scene_->getNumPrimitives(Mesh::geom_type,false) == 0`,
a `build()` that gets past the deletion of removed objects installs `BVH::emptyNode` as
root with empty bounds and primitive count 0, resizes `prims_` to 0 and returns: it
leaves builders, references and cursor as they were and logs only the calls of the
deletion loop (no builder is set up or attached, no opening, no top-level build).  With no
object to delete the call is exactly this early return. -/
theorem build_empty_scene (cfg : Config) (env : Collaborators N V K key) (scene : Scene)
    (s : TwoLevel N V) (hzero : scene.numPrimitives = 0) :
    (∀ t, build cfg env scene s = Except.ok t →
      t.root = NodeRef.emptyNode ∧ t.bounds = BBox.empty ∧ t.numPrimitives = 0 ∧
      t.prims_ = [] ∧ t.builders_ = s.builders_ ∧ t.refs_ = s.refs_ ∧
      t.nextRef_ = s.nextRef_ ∧
      ∃ evs, t.log = s.log ++ evs ∧ ∀ e ∈ evs, e.isDeletion = true) ∧
    (s.objects.length ≤ scene.meshes.length →
      build cfg env scene s = Except.ok (skipEmptyScene s)) := by
  constructor
  · intro t hbuild
    unfold build at hbuild
    split at hbuild
    · cases hbuild
    · rename_i s1 hs1
      rw [if_pos hzero] at hbuild
      cases hbuild
      obtain ⟨h1, h2, _, h4, h5⟩ := deletePhase_spec scene s s1 hs1
      exact ⟨rfl, rfl, rfl, rfl, h1, h2, h4, h5⟩
  · intro hle
    have hdel : deletePhase scene s = Except.ok s := by
      unfold deletePhase
      rw [if_neg (by omega)]
    unfold build
    rw [hdel]
    simp only [hzero, if_true]

/-- The fast path at work: a scene with one mesh. -/
theorem build_fast_path_witness :
    (exampleSingleScene.numPrimitives ≠ 0 ∧
     build exampleConfig exampleEnv exampleSingleScene exampleInit
       = Except.ok (built exampleConfig exampleEnv exampleSingleScene exampleInit) ∧
     (built exampleConfig exampleEnv exampleSingleScene exampleInit).nextRef_ = 1) ∧
    ∃ r, (built exampleConfig exampleEnv exampleSingleScene exampleInit).refs_ = [r] ∧
      (built exampleConfig exampleEnv exampleSingleScene exampleInit).root = r.node ∧
      (built exampleConfig exampleEnv exampleSingleScene exampleInit).bounds = r.bounds ∧
      (built exampleConfig exampleEnv exampleSingleScene exampleInit).numPrimitives
        = exampleSingleScene.numPrimitives ∧
      ∃ evs, (built exampleConfig exampleEnv exampleSingleScene exampleInit).log
          = exampleInit.log ++ evs ∧ ∀ e ∈ evs, e.isTopLevel = false :=
  ⟨⟨by decide, rfl, rfl⟩,
   build_fast_path exampleConfig exampleEnv exampleSingleScene exampleInit _ (by decide) rfl rfl⟩

/-- The early return at work: the empty scene after a scene with two meshes. -/
theorem build_empty_scene_witness :
    exampleEmptyScene.numPrimitives = 0 ∧
    ((∀ t, build exampleConfig exampleEnv exampleEmptyScene
          (built exampleConfig exampleEnv exampleScene exampleInit) = Except.ok t →
        t.root = NodeRef.emptyNode ∧ t.bounds = BBox.empty ∧ t.numPrimitives = 0 ∧
        t.prims_ = [] ∧
        t.builders_ = (built exampleConfig exampleEnv exampleScene exampleInit).builders_ ∧
        t.refs_ = (built exampleConfig exampleEnv exampleScene exampleInit).refs_ ∧
        t.nextRef_ = (built exampleConfig exampleEnv exampleScene exampleInit).nextRef_ ∧
        ∃ evs, t.log = (built exampleConfig exampleEnv exampleScene exampleInit).log ++ evs ∧
          ∀ e ∈ evs, e.isDeletion = true) ∧
     ((built exampleConfig exampleEnv exampleScene exampleInit).objects.length
          ≤ exampleEmptyScene.meshes.length →
        build exampleConfig exampleEnv exampleEmptyScene
            (built exampleConfig exampleEnv exampleScene exampleInit)
          = Except.ok (skipEmptyScene (built exampleConfig exampleEnv exampleScene exampleInit)))) :=
  ⟨rfl, build_empty_scene exampleConfig exampleEnv exampleEmptyScene
    (built exampleConfig exampleEnv exampleScene exampleInit) rfl⟩

end BuilderTheorems
/-! ## Lemmas on the tessellation cache -/

section CacheLemmas

theorem modify_tags_same (w : CacheWorld) (i : Nat) (f : CacheTag → CacheTag) :
    (w.modify i f).tags i = f (w.tags i) := by
  simp [CacheWorld.modify]

theorem modify_tags_other (w : CacheWorld) (i j : Nat) (f : CacheTag → CacheTag) (h : j ≠ i) :
    (w.modify i f).tags j = w.tags j := by
  simp [CacheWorld.modify, Function.update_noteq h]

theorem sameData_refl (a : CacheTag) : a.sameData a := ⟨rfl, rfl, rfl, rfl, rfl⟩

theorem sameData_trans {a b c : CacheTag} (h1 : a.sameData b) (h2 : b.sameData c) :
    a.sameData c := by
  obtain ⟨a1, a2, a3, a4, a5⟩ := h1
  obtain ⟨b1, b2, b3, b4, b5⟩ := h2
  exact ⟨a1.trans b1, a2.trans b2, a3.trans b3, a4.trans b4, a5.trans b5⟩

theorem sameData_match {a b : CacheTag} (h : a.sameData b) (tag cc : Nat) :
    a.match_ tag cc = b.match_ tag cc := by
  unfold CacheTag.match_
  rw [h.1, h.2.1]

/-- An operation on the lock of slot `i` leaves the data of every tag as it is. -/
theorem modify_lock_sameData (w : CacheWorld) (i : Nat) (f : CacheTag → CacheTag)
    (hf : ∀ t, (f t).sameData t) (j : Nat) : ((w.modify i f).tags j).sameData (w.tags j) := by
  by_cases h : j = i
  · subst h
    rw [modify_tags_same]
    exact hf _
  · rw [modify_tags_other w i j f h]
    exact sameData_refl _

theorem releaseRemembered_lockStep (env : CacheEnv) (w : CacheWorld) :
    LockStep w (releaseRemembered env w) := by
  unfold releaseRemembered
  split
  · split
    · rename_i m _
      exact ⟨modify_lock_sameData w m _ (fun t => sameData_refl _),
        ⟨[CacheEvent.read_unlock m], rfl, by simp [CacheEvent.isLock]⟩⟩
    · exact ⟨fun j => sameData_refl _, ⟨[], by simp, by simp⟩⟩
  · exact ⟨fun j => sameData_refl _, ⟨[], by simp, by simp⟩⟩

theorem lockAndRemember_lockStep (env : CacheEnv) (i : Nat) (w : CacheWorld) :
    LockStep w (lockAndRemember env i w) := by
  unfold lockAndRemember
  split
  · exact ⟨modify_lock_sameData w i _ (fun t => sameData_refl _),
      ⟨[CacheEvent.read_lock i], rfl, by simp [CacheEvent.isLock]⟩⟩
  · exact ⟨modify_lock_sameData w i _ (fun t => sameData_refl _),
      ⟨[CacheEvent.read_lock i], rfl, by simp [CacheEvent.isLock]⟩⟩

theorem lockStep_trans {w u v : CacheWorld} (h1 : LockStep w u) (h2 : LockStep u v) :
    LockStep w v := by
  obtain ⟨d1, e1, l1, p1⟩ := h1
  obtain ⟨d2, e2, l2, p2⟩ := h2
  refine ⟨fun j => sameData_trans (d2 j) (d1 j), e1 ++ e2, by rw [l2, l1, List.append_assoc], ?_⟩
  intro e he
  rcases List.mem_append.mp he with h | h
  · exact p1 e h
  · exact p2 e h

/-- The entry of `getSubtreeRootNode` touches locks only. -/
theorem prelude_lockStep (env : CacheEnv) (i : Nat) (w : CacheWorld) :
    LockStep w (lockAndRemember env i (releaseRemembered env w)) :=
  lockStep_trans (releaseRemembered_lockStep env w) (lockAndRemember_lockStep env i _)

/-- The miss path of `getSubtreeRootNode`, spelled out: the root returned, the tag of the
slot, the other tags, the remembered mutex and the log. -/
theorem missPath_spec (env : CacheEnv) (patch : SubdivPatch) (cc i : Nat) (w : CacheWorld) :
    (missPath env patch cc i w).1
        = env.buildSubdivPatchTree patch ((missPath env patch cc i w).2.tags i).ptr ∧
    ((missPath env patch cc i w).2.tags i).prim_tag = patch.tag ∧
    ((missPath env patch cc i w).2.tags i).commit_tag = cc ∧
    ((missPath env patch cc i w).2.tags i).subtree_root = (missPath env patch cc i w).1 ∧
    ((missPath env patch cc i w).2.tags i).ptr
        = (if (w.tags i).usedBlocks < patch.grid_subtree_size_64b_blocks
            then env.alloc_tessellation_cache_mem patch.grid_subtree_size_64b_blocks
            else (w.tags i).ptr) ∧
    ((missPath env patch cc i w).2.tags i).usedBlocks
        = (if (w.tags i).usedBlocks < patch.grid_subtree_size_64b_blocks
            then patch.grid_subtree_size_64b_blocks else (w.tags i).usedBlocks) ∧
    (∀ j, j ≠ i → (missPath env patch cc i w).2.tags j = w.tags j) ∧
    (missPath env patch cc i w).2.rw_mtx = w.rw_mtx ∧
    (missPath env patch cc i w).2.log
        = w.log ++ ([CacheEvent.read_unlock i, CacheEvent.prefetchData patch.tag,
              CacheEvent.write_lock i] ++ fitEvents patch i (w.tags i) ++
            [CacheEvent.buildSubdivPatchTree patch.tag ((missPath env patch cc i w).2.tags i).ptr,
              CacheEvent.updateRootRef i, CacheEvent.write_unlock_set_read_lock i]) := by
  by_cases hlt : (w.tags i).usedBlocks < patch.grid_subtree_size_64b_blocks
  · simp [missPath, buildIntoSlot, storeRoot, fitSlot, expandSlot, upgradeToWrite, fitEvents,
      CacheWorld.modify, CacheWorld.record, CacheTag.blocks, CacheTag.getPtr, CacheTag.set,
      CacheTag.setPtr, CacheTag.update, CacheTag.updateRootRef, CacheTag.read_unlock,
      CacheTag.write_lock, CacheTag.write_unlock_set_read_lock, hlt]
    intro j hj
    exact Function.update_noteq hj _ _
  · simp [missPath, buildIntoSlot, storeRoot, fitSlot, expandSlot, upgradeToWrite, fitEvents,
      CacheWorld.modify, CacheWorld.record, CacheTag.blocks, CacheTag.getPtr, CacheTag.set,
      CacheTag.setPtr, CacheTag.update, CacheTag.updateRootRef, CacheTag.read_unlock,
      CacheTag.write_lock, CacheTag.write_unlock_set_read_lock, hlt]
    intro j hj
    exact Function.update_noteq hj _ _

/-- The miss path changes no block count downwards. -/
theorem missPath_blocks_le (env : CacheEnv) (patch : SubdivPatch) (cc i : Nat) (w : CacheWorld)
    (j : Nat) : (w.tags j).usedBlocks ≤ ((missPath env patch cc i w).2.tags j).usedBlocks := by
  obtain ⟨_, _, _, _, _, hb, ho, _⟩ := missPath_spec env patch cc i w
  by_cases h : j = i
  · subst h
    rw [hb]
    split <;> omega
  · rw [ho j h]

/-- The function `getSubtreeRootNode` on a hit. -/
theorem getSubtreeRootNode_hit (env : CacheEnv) (patch : SubdivPatch) (cc : Nat) (w : CacheWorld)
    (h : (w.tags (env.getTag patch.tag)).match_ patch.tag cc = true) :
    getSubtreeRootNode env patch cc w
      = ((w.tags (env.getTag patch.tag)).getRef,
         lockAndRemember env (env.getTag patch.tag) (releaseRemembered env w)) := by
  have hs := (prelude_lockStep env (env.getTag patch.tag) w).1 (env.getTag patch.tag)
  have hm := sameData_match hs patch.tag cc
  unfold getSubtreeRootNode lookupOrRebuild
  rw [hm, h]
  simp only [Bool.true_eq_false, if_false, CacheTag.getRef]
  rw [hs.2.2.2.2]

/-- The function `getSubtreeRootNode` on a miss. -/
theorem getSubtreeRootNode_miss (env : CacheEnv) (patch : SubdivPatch) (cc : Nat)
    (w : CacheWorld) (h : (w.tags (env.getTag patch.tag)).match_ patch.tag cc = false) :
    getSubtreeRootNode env patch cc w
      = missPath env patch cc (env.getTag patch.tag)
          (lockAndRemember env (env.getTag patch.tag) (releaseRemembered env w)) := by
  have hs := (prelude_lockStep env (env.getTag patch.tag) w).1 (env.getTag patch.tag)
  have hm := sameData_match hs patch.tag cc
  unfold getSubtreeRootNode lookupOrRebuild
  rw [hm, h]
  simp only [if_true]

theorem match_eq_true_iff (t : CacheTag) (tag cc : Nat) :
    t.match_ tag cc = true ↔ t.prim_tag = tag ∧ t.commit_tag = cc := by
  simp [CacheTag.match_]

theorem isBuild_of_isLock (e : CacheEvent) (h : e.isLock = true) : e.isBuild = false := by
  cases e <;> first | rfl | cases h

theorem isMemory_of_isLock (e : CacheEvent) (h : e.isLock = true) : e.isMemory = false := by
  cases e <;> first | rfl | cases h

/-- No call of `getSubtreeRootNode` lowers a block count. -/
theorem getSubtreeRootNode_blocks_le (env : CacheEnv) (patch : SubdivPatch) (cc : Nat)
    (w : CacheWorld) (j : Nat) :
    (w.tags j).usedBlocks ≤ ((getSubtreeRootNode env patch cc w).2.tags j).usedBlocks := by
  have hs := (prelude_lockStep env (env.getTag patch.tag) w).1 j
  cases h : (w.tags (env.getTag patch.tag)).match_ patch.tag cc with
  | true =>
    rw [getSubtreeRootNode_hit env patch cc w h]
    exact le_of_eq hs.2.2.2.1.symm
  | false =>
    rw [getSubtreeRootNode_miss env patch cc w h]
    exact le_trans (le_of_eq hs.2.2.2.1.symm) (missPath_blocks_le env patch cc _ _ j)

end CacheLemmas

/-! ## The shared cache: hits, rebuilds and buffers -/

section CacheTheorems

/-- C6 (rebuild exactly on a mismatch): for every state of the cache and every patch and
commit counter, `getSubtreeRootNode` invokes `buildSubdivPatchTree` if and only if the
slot of the patch does not match (tag, commitCounter).  On a mismatch, in particular when
the stored tag is the patch but the stored version differs from the commit counter, the
root returned is the one `buildSubdivPatchTree` returned for the slot's buffer, and the
tag stores it; on a match `t->getRef()` is returned and tag, version, pointer, block count
and root of the slot are unchanged. -/
theorem getSubtreeRootNode_rebuilds_iff_mismatch (env : CacheEnv) (patch : SubdivPatch)
    (cc : Nat) (w : CacheWorld) :
    ∃ evs, (getSubtreeRootNode env patch cc w).2.log = w.log ++ evs ∧
      ((∃ e ∈ evs, e.isBuild = true) ↔
        (w.tags (env.getTag patch.tag)).match_ patch.tag cc = false) ∧
      ((w.tags (env.getTag patch.tag)).match_ patch.tag cc = false →
        (getSubtreeRootNode env patch cc w).1
          = env.buildSubdivPatchTree patch
              ((getSubtreeRootNode env patch cc w).2.tags (env.getTag patch.tag)).getPtr ∧
        ((getSubtreeRootNode env patch cc w).2.tags (env.getTag patch.tag)).getRef
          = (getSubtreeRootNode env patch cc w).1) ∧
      ((w.tags (env.getTag patch.tag)).prim_tag = patch.tag →
        (w.tags (env.getTag patch.tag)).commit_tag ≠ cc →
        (∃ e ∈ evs, e.isBuild = true) ∧
        (getSubtreeRootNode env patch cc w).1
          = env.buildSubdivPatchTree patch
              ((getSubtreeRootNode env patch cc w).2.tags (env.getTag patch.tag)).getPtr) ∧
      ((w.tags (env.getTag patch.tag)).match_ patch.tag cc = true →
        (getSubtreeRootNode env patch cc w).1 = (w.tags (env.getTag patch.tag)).getRef ∧
        ((getSubtreeRootNode env patch cc w).2.tags (env.getTag patch.tag)).sameData
          (w.tags (env.getTag patch.tag))) := by
  obtain ⟨hdata, pe, hplog, hpe⟩ := prelude_lockStep env (env.getTag patch.tag) w
  cases h : (w.tags (env.getTag patch.tag)).match_ patch.tag cc with
  | true =>
    rw [getSubtreeRootNode_hit env patch cc w h]
    refine ⟨pe, hplog, ?_, ?_, ?_, ?_⟩
    · constructor
      · rintro ⟨e, he, hb⟩
        rw [isBuild_of_isLock e (hpe e he)] at hb
        cases hb
      · intro hf; cases hf
    · intro hf; cases hf
    · intro h1 h2
      exact absurd ((match_eq_true_iff _ _ _).mp h).2 h2
    · intro _
      exact ⟨rfl, hdata _⟩
  | false =>
    rw [getSubtreeRootNode_miss env patch cc w h]
    generalize lockAndRemember env (env.getTag patch.tag) (releaseRemembered env w) = u
      at hdata hplog ⊢
    obtain ⟨h1, _, _, h4, _, _, _, _, hlog⟩ := missPath_spec env patch cc (env.getTag patch.tag) u
    have hbuild : ∃ e ∈ pe ++ ([CacheEvent.read_unlock (env.getTag patch.tag),
          CacheEvent.prefetchData patch.tag, CacheEvent.write_lock (env.getTag patch.tag)] ++
        fitEvents patch (env.getTag patch.tag) (u.tags (env.getTag patch.tag)) ++
        [CacheEvent.buildSubdivPatchTree patch.tag
            ((missPath env patch cc (env.getTag patch.tag) u).2.tags (env.getTag patch.tag)).ptr,
          CacheEvent.updateRootRef (env.getTag patch.tag),
          CacheEvent.write_unlock_set_read_lock (env.getTag patch.tag)]), e.isBuild = true :=
      ⟨_, List.mem_append_right _ (List.mem_append_right _ (List.mem_cons_self _ _)), rfl⟩
    refine ⟨_, by rw [hlog, hplog, List.append_assoc], ?_, ?_, ?_, ?_⟩
    · exact ⟨fun _ => rfl, fun _ => hbuild⟩
    · intro _
      exact ⟨h1, h4⟩
    · intro _ _
      exact ⟨hbuild, h1⟩
    · intro hf; cases hf

/-- C7 (a rebuild makes the slot valid): after `getSubtreeRootNode(patch, geom)` with
commit counter `c`, the slot matches (patch, c) and its root reference is the root that
was returned, on the miss path the one `buildSubdivPatchTree` returned; so a second call
for the same patch with unchanged commit counter returns the same root and does not
invoke `buildSubdivPatchTree`. -/
theorem getSubtreeRootNode_second_call_hits (env : CacheEnv) (patch : SubdivPatch) (cc : Nat)
    (w : CacheWorld) :
    ((getSubtreeRootNode env patch cc w).2.tags (env.getTag patch.tag)).match_ patch.tag cc
        = true ∧
    ((getSubtreeRootNode env patch cc w).2.tags (env.getTag patch.tag)).getRef
        = (getSubtreeRootNode env patch cc w).1 ∧
    ((w.tags (env.getTag patch.tag)).match_ patch.tag cc = false →
      (getSubtreeRootNode env patch cc w).1
        = env.buildSubdivPatchTree patch
            ((getSubtreeRootNode env patch cc w).2.tags (env.getTag patch.tag)).getPtr) ∧
    (getSubtreeRootNode env patch cc (getSubtreeRootNode env patch cc w).2).1
        = (getSubtreeRootNode env patch cc w).1 ∧
    ∃ evs, (getSubtreeRootNode env patch cc (getSubtreeRootNode env patch cc w).2).2.log
        = (getSubtreeRootNode env patch cc w).2.log ++ evs ∧ ∀ e ∈ evs, e.isBuild = false := by
  have first : ((getSubtreeRootNode env patch cc w).2.tags (env.getTag patch.tag)).match_
        patch.tag cc = true ∧
      ((getSubtreeRootNode env patch cc w).2.tags (env.getTag patch.tag)).getRef
        = (getSubtreeRootNode env patch cc w).1 ∧
      ((w.tags (env.getTag patch.tag)).match_ patch.tag cc = false →
        (getSubtreeRootNode env patch cc w).1
          = env.buildSubdivPatchTree patch
              ((getSubtreeRootNode env patch cc w).2.tags (env.getTag patch.tag)).getPtr) := by
    have hdata := (prelude_lockStep env (env.getTag patch.tag) w).1 (env.getTag patch.tag)
    cases h : (w.tags (env.getTag patch.tag)).match_ patch.tag cc with
    | true =>
      rw [getSubtreeRootNode_hit env patch cc w h]
      refine ⟨by rw [sameData_match hdata, h], ?_, fun hf => by cases hf⟩
      exact hdata.2.2.2.2
    | false =>
      rw [getSubtreeRootNode_miss env patch cc w h]
      obtain ⟨h1, h2, h3, h4, _⟩ := missPath_spec env patch cc (env.getTag patch.tag)
        (lockAndRemember env (env.getTag patch.tag) (releaseRemembered env w))
      exact ⟨(match_eq_true_iff _ _ _).mpr ⟨h2, h3⟩, h4, fun _ => h1⟩
  obtain ⟨hm, hr, hb⟩ := first
  refine ⟨hm, hr, hb, ?_⟩
  rw [getSubtreeRootNode_hit env patch cc _ hm]
  obtain ⟨_, pe, hplog, hpe⟩ :=
    prelude_lockStep env (env.getTag patch.tag) (getSubtreeRootNode env patch cc w).2
  exact ⟨hr, pe, hplog, fun e he => isBuild_of_isLock e (hpe e he)⟩

/-- C9 (an L1 hit is lock-free and build-free): whenever `pre.local_cache->lookup(tag,
commitCounter)` returns a value other than `(size_t)-1`,
`getSubtreeRootNodeFromCacheHierarchy` returns exactly that root and leaves the shared
cache as it was: no tag is changed, and nothing is logged, so no lock of an L2 tag is
taken or released and `buildSubdivPatchTree` is not invoked. -/
theorem hierarchy_L1_hit {L : Type} (env : CacheEnv) (ops : LocalCache L) (patch : SubdivPatch)
    (cc : Nat) (l1 : L) (w : CacheWorld)
    (hhit : (ops.lookup l1 patch.tag cc).1 ≠ sizeT - 1) :
    ∃ l1', getSubtreeRootNodeFromCacheHierarchy env ops patch cc l1 w
        = Except.ok ((ops.lookup l1 patch.tag cc).1, l1', w) := by
  unfold getSubtreeRootNodeFromCacheHierarchy
  rw [if_neg hhit]
  exact ⟨_, rfl⟩

/-- An L1 hit at work: the single entry of the thread-local cache is the patch asked for. -/
theorem hierarchy_L1_hit_witness :
    (exampleLocalCache.lookup (some (320, 1, 4480)) examplePatch.tag 1).1 ≠ sizeT - 1 ∧
    ∃ l1', getSubtreeRootNodeFromCacheHierarchy exampleCacheEnv exampleLocalCache examplePatch 1
        (some (320, 1, 4480)) exampleWarmWorld
      = Except.ok ((exampleLocalCache.lookup (some (320, 1, 4480)) examplePatch.tag 1).1, l1',
          exampleWarmWorld) :=
  ⟨by decide, hierarchy_L1_hit exampleCacheEnv exampleLocalCache examplePatch 1
    (some (320, 1, 4480)) exampleWarmWorld (by decide)⟩

/-- C8, evaluated: with an empty thread-local cache and a shared tag that is valid for the
patch and the commit counter, `getSubtreeRootNodeFromCacheHierarchy` takes the write lock
of the tag, frees and reallocates its buffer, and invokes `buildSubdivPatchTree`; the
condition `1 || …` sends every L1 miss down the rebuild branch. -/
theorem hierarchy_rebuilds_valid_L2 :
    (exampleWarmWorld.tags (exampleCacheEnv.getTag examplePatch.tag)).match_ examplePatch.tag 1
      = true ∧
    (exampleLocalCache.lookup none examplePatch.tag 1).1 = sizeT - 1 ∧
    ∃ r, getSubtreeRootNodeFromCacheHierarchy exampleCacheEnv exampleLocalCache examplePatch 1
        none exampleWarmWorld = Except.ok r ∧
      r.2.2.log = exampleWarmWorld.log ++
        [CacheEvent.read_lock 0, CacheEvent.prefetchData 320, CacheEvent.read_unlock 0,
         CacheEvent.write_lock 0, CacheEvent.free_tessellation_cache_mem 4480,
         CacheEvent.alloc_tessellation_cache_mem 6, CacheEvent.set 0, CacheEvent.setPtr 0,
         CacheEvent.buildSubdivPatchTree 320 4480, CacheEvent.updateRootRef 0,
         CacheEvent.write_unlock 0] :=
  ⟨by decide, by decide, _, rfl, by decide⟩

/-- C10 (buffers only grow): on a rebuild in `getSubtreeRootNode` the buffer of the slot
is freed (if there is one) and reallocated if and only if the block count of the slot is
smaller than the patch's `grid_subtree_size_64b_blocks`; otherwise pointer and block count
are kept and `update` sets tag and version only.  A hit touches no buffer.  Hence the
block count of no slot decreases across any sequence of `getSubtreeRootNode` calls. -/
theorem getSubtreeRootNode_buffer_policy (env : CacheEnv) (patch : SubdivPatch) (cc : Nat)
    (w : CacheWorld) :
    (∃ evs, (getSubtreeRootNode env patch cc w).2.log = w.log ++ evs ∧
      ((∃ e ∈ evs, e.isMemory = true) ↔
        ((w.tags (env.getTag patch.tag)).match_ patch.tag cc = false ∧
         (w.tags (env.getTag patch.tag)).blocks < patch.grid_subtree_size_64b_blocks)) ∧
      ((w.tags (env.getTag patch.tag)).match_ patch.tag cc = false →
        (w.tags (env.getTag patch.tag)).blocks < patch.grid_subtree_size_64b_blocks →
        CacheEvent.alloc_tessellation_cache_mem patch.grid_subtree_size_64b_blocks ∈ evs ∧
        ((w.tags (env.getTag patch.tag)).getPtr ≠ 0 →
          CacheEvent.free_tessellation_cache_mem (w.tags (env.getTag patch.tag)).getPtr ∈ evs)) ∧
      ((w.tags (env.getTag patch.tag)).match_ patch.tag cc = false →
        ¬ (w.tags (env.getTag patch.tag)).blocks < patch.grid_subtree_size_64b_blocks →
        CacheEvent.update (env.getTag patch.tag) ∈ evs ∧
        CacheEvent.set (env.getTag patch.tag) ∉ evs ∧
        CacheEvent.setPtr (env.getTag patch.tag) ∉ evs)) ∧
    ((w.tags (env.getTag patch.tag)).match_ patch.tag cc = false →
      (w.tags (env.getTag patch.tag)).blocks < patch.grid_subtree_size_64b_blocks →
      ((getSubtreeRootNode env patch cc w).2.tags (env.getTag patch.tag)).getPtr
        = env.alloc_tessellation_cache_mem patch.grid_subtree_size_64b_blocks ∧
      ((getSubtreeRootNode env patch cc w).2.tags (env.getTag patch.tag)).blocks
        = patch.grid_subtree_size_64b_blocks) ∧
    ((w.tags (env.getTag patch.tag)).match_ patch.tag cc = false →
      ¬ (w.tags (env.getTag patch.tag)).blocks < patch.grid_subtree_size_64b_blocks →
      ((getSubtreeRootNode env patch cc w).2.tags (env.getTag patch.tag)).getPtr
        = (w.tags (env.getTag patch.tag)).getPtr ∧
      ((getSubtreeRootNode env patch cc w).2.tags (env.getTag patch.tag)).blocks
        = (w.tags (env.getTag patch.tag)).blocks) ∧
    (∀ (calls : List (SubdivPatch × Nat)) (j : Nat),
      (w.tags j).blocks ≤ ((getSubtreeRootNodes env calls w).tags j).blocks) := by
  obtain ⟨hdata, pe, hplog, hpe⟩ := prelude_lockStep env (env.getTag patch.tag) w
  have hmono : ∀ (calls : List (SubdivPatch × Nat)) (v : CacheWorld) (j : Nat),
      (v.tags j).blocks ≤ ((getSubtreeRootNodes env calls v).tags j).blocks := by
    intro calls
    induction calls with
    | nil => intro v j; exact le_refl _
    | cons c cs ih =>
      intro v j
      exact le_trans (getSubtreeRootNode_blocks_le env c.1 c.2 v j) (ih _ j)
  refine ⟨?_, ?_, ?_, fun calls j => hmono calls w j⟩
  · cases h : (w.tags (env.getTag patch.tag)).match_ patch.tag cc with
    | true =>
      rw [getSubtreeRootNode_hit env patch cc w h]
      refine ⟨pe, hplog, ?_, ?_, ?_⟩
      · constructor
        · rintro ⟨e, he, hb⟩
          rw [isMemory_of_isLock e (hpe e he)] at hb
          cases hb
        · rintro ⟨hf, _⟩; cases hf
      · intro hf; cases hf
      · intro hf; cases hf
    | false =>
      rw [getSubtreeRootNode_miss env patch cc w h]
      have hd := hdata (env.getTag patch.tag)
      generalize lockAndRemember env (env.getTag patch.tag) (releaseRemembered env w) = u
        at hd hplog ⊢
      obtain ⟨_, _, _, _, _, _, _, _, hlog⟩ :=
        missPath_spec env patch cc (env.getTag patch.tag) u
      refine ⟨_, by rw [hlog, hplog, List.append_assoc], ?_, ?_, ?_⟩
      · constructor
        · rintro ⟨e, he, hb⟩
          refine ⟨rfl, ?_⟩
          by_contra hlt
          have hfit : fitEvents patch (env.getTag patch.tag) (u.tags (env.getTag patch.tag))
              = [CacheEvent.update (env.getTag patch.tag)] := by
            unfold fitEvents CacheTag.blocks
            rw [hd.2.2.2.1]
            exact if_neg hlt
          rw [hfit] at he
          rcases List.mem_append.mp he with he | he
          · rw [isMemory_of_isLock e (hpe e he)] at hb; cases hb
          · have hall : ∀ x ∈ [CacheEvent.read_unlock (env.getTag patch.tag),
                  CacheEvent.prefetchData patch.tag,
                  CacheEvent.write_lock (env.getTag patch.tag)] ++
                [CacheEvent.update (env.getTag patch.tag)] ++
                [CacheEvent.buildSubdivPatchTree patch.tag
                  ((missPath env patch cc (env.getTag patch.tag) u).2.tags
                    (env.getTag patch.tag)).ptr,
                 CacheEvent.updateRootRef (env.getTag patch.tag),
                 CacheEvent.write_unlock_set_read_lock (env.getTag patch.tag)],
                x.isMemory = false := by
              simp [CacheEvent.isMemory]
            rw [hall e he] at hb
            cases hb
        · rintro ⟨_, hlt⟩
          refine ⟨CacheEvent.alloc_tessellation_cache_mem patch.grid_subtree_size_64b_blocks,
            ?_, rfl⟩
          unfold CacheTag.blocks at hlt
          unfold fitEvents CacheTag.blocks
          rw [hd.2.2.2.1, if_pos hlt]
          simp
      · intro _ hlt
        unfold CacheTag.blocks at hlt
        unfold fitEvents CacheTag.blocks CacheTag.getPtr
        rw [hd.2.2.2.1, hd.2.2.1, if_pos hlt]
        refine ⟨by simp, fun hp => ?_⟩
        simp [hp]
      · intro _ hlt
        unfold CacheTag.blocks at hlt
        unfold fitEvents CacheTag.blocks
        rw [hd.2.2.2.1, if_neg hlt]
        have hs : CacheEvent.set (env.getTag patch.tag) ∉ pe :=
          fun hin => by have := hpe _ hin; cases this
        have hp : CacheEvent.setPtr (env.getTag patch.tag) ∉ pe :=
          fun hin => by have := hpe _ hin; cases this
        simp [hs, hp]
  · intro h hlt
    rw [getSubtreeRootNode_miss env patch cc w h]
    have hd := hdata (env.getTag patch.tag)
    generalize lockAndRemember env (env.getTag patch.tag) (releaseRemembered env w) = u at hd ⊢
    obtain ⟨_, _, _, _, hp, hb, _⟩ := missPath_spec env patch cc (env.getTag patch.tag) u
    unfold CacheTag.blocks at hlt
    unfold CacheTag.getPtr CacheTag.blocks
    rw [hp, hb, hd.2.2.2.1, if_pos hlt, if_pos hlt]
    exact ⟨rfl, rfl⟩
  · intro h hlt
    rw [getSubtreeRootNode_miss env patch cc w h]
    have hd := hdata (env.getTag patch.tag)
    generalize lockAndRemember env (env.getTag patch.tag) (releaseRemembered env w) = u at hd ⊢
    obtain ⟨_, _, _, _, hp, hb, _⟩ := missPath_spec env patch cc (env.getTag patch.tag) u
    unfold CacheTag.blocks at hlt
    unfold CacheTag.getPtr CacheTag.blocks
    rw [hp, hb, hd.2.2.2.1, if_neg hlt, if_neg hlt]
    exact ⟨hd.2.2.1, rfl⟩

end CacheTheorems

/-! ## The shared cache: locks -/

section CacheLocks

/-- The log at the entry of `getSubtreeRootNode`. -/
theorem prelude_log (env : CacheEnv) (i : Nat) (w : CacheWorld) :
    (lockAndRemember env i (releaseRemembered env w)).log = w.log ++ preludeEvents env i w := by
  unfold lockAndRemember releaseRemembered preludeEvents
  cases env.SHARED_TESSELLATION_CACHE <;> cases w.rw_mtx <;>
    simp [CacheWorld.record, CacheWorld.modify]

/-- The entry events contain no write-lock event and no mutation. -/
theorem writeBracketed_prelude (env : CacheEnv) (i : Nat) (w : CacheWorld) (held : Bool)
    (es : List CacheEvent) :
    writeBracketed i held (preludeEvents env i w ++ es) = writeBracketed i held es := by
  unfold preludeEvents
  cases env.SHARED_TESSELLATION_CACHE <;> cases w.rw_mtx <;> simp [writeBracketed]

/-- The fitting branch keeps the bracket when the write lock is held. -/
theorem writeBracketed_fit (patch : SubdivPatch) (i : Nat) (t : CacheTag)
    (es : List CacheEvent) :
    writeBracketed i true (fitEvents patch i t ++ es) = writeBracketed i true es := by
  unfold fitEvents
  split
  · split <;> simp [writeBracketed]
  · simp [writeBracketed]

/-- The whole log of a `getSubtreeRootNode` call. -/
theorem getSubtreeRootNode_log (env : CacheEnv) (patch : SubdivPatch) (cc : Nat)
    (w : CacheWorld) :
    (getSubtreeRootNode env patch cc w).2.log
      = w.log ++ (preludeEvents env (env.getTag patch.tag) w ++
          if (w.tags (env.getTag patch.tag)).match_ patch.tag cc = false then
            [CacheEvent.read_unlock (env.getTag patch.tag), CacheEvent.prefetchData patch.tag,
              CacheEvent.write_lock (env.getTag patch.tag)] ++
            fitEvents patch (env.getTag patch.tag) (w.tags (env.getTag patch.tag)) ++
            [CacheEvent.buildSubdivPatchTree patch.tag
                ((getSubtreeRootNode env patch cc w).2.tags (env.getTag patch.tag)).ptr,
              CacheEvent.updateRootRef (env.getTag patch.tag),
              CacheEvent.write_unlock_set_read_lock (env.getTag patch.tag)]
          else []) := by
  have hd := (prelude_lockStep env (env.getTag patch.tag) w).1 (env.getTag patch.tag)
  have hl := prelude_log env (env.getTag patch.tag) w
  cases h : (w.tags (env.getTag patch.tag)).match_ patch.tag cc with
  | true =>
    rw [getSubtreeRootNode_hit env patch cc w h, hl]
    simp
  | false =>
    rw [getSubtreeRootNode_miss env patch cc w h]
    have hfit : fitEvents patch (env.getTag patch.tag)
        ((lockAndRemember env (env.getTag patch.tag) (releaseRemembered env w)).tags
          (env.getTag patch.tag))
        = fitEvents patch (env.getTag patch.tag) (w.tags (env.getTag patch.tag)) := by
      unfold fitEvents CacheTag.blocks CacheTag.getPtr
      rw [hd.2.2.2.1, hd.2.2.1]
    generalize lockAndRemember env (env.getTag patch.tag) (releaseRemembered env w) = u
      at hl hfit ⊢
    obtain ⟨_, _, _, _, _, _, _, _, hlog⟩ := missPath_spec env patch cc (env.getTag patch.tag) u
    rw [hlog, hl, hfit]
    simp

/-- The locks of the slot after the miss path of `getSubtreeRootNode`: the read lock given
up has been taken again, the write lock is released. -/
theorem missPath_locks (env : CacheEnv) (patch : SubdivPatch) (cc i : Nat) (w : CacheWorld) :
    ((missPath env patch cc i w).2.tags i).readers = (w.tags i).readers ∧
    ((missPath env patch cc i w).2.tags i).writer = false := by
  by_cases hlt : (w.tags i).usedBlocks < patch.grid_subtree_size_64b_blocks <;>
    simp [missPath, buildIntoSlot, storeRoot, fitSlot, expandSlot, upgradeToWrite,
      CacheWorld.modify, CacheWorld.record, CacheTag.blocks, CacheTag.getPtr, CacheTag.set,
      CacheTag.setPtr, CacheTag.update, CacheTag.updateRootRef, CacheTag.read_unlock,
      CacheTag.write_lock, CacheTag.write_unlock_set_read_lock, hlt]

/-- A lock operation on slot `i`, seen from slot `j`. -/
theorem modify_readers (w : CacheWorld) (i j : Nat) (f : CacheTag → CacheTag) (d : Int)
    (hf : ∀ t, (f t).readers = t.readers + d) :
    ((w.modify i f).tags j).readers = (w.tags j).readers + (if j = i then d else 0) := by
  by_cases h : j = i
  · subst h
    rw [modify_tags_same, hf, if_pos rfl]
  · rw [modify_tags_other w i j f h, if_neg h, add_zero]

theorem modify_writer (w : CacheWorld) (i j : Nat) (f : CacheTag → CacheTag)
    (hf : ∀ t, (f t).writer = t.writer) :
    ((w.modify i f).tags j).writer = (w.tags j).writer := by
  by_cases h : j = i
  · subst h
    rw [modify_tags_same, hf]
  · rw [modify_tags_other w i j f h]

/-- The locks after the release of the remembered read lock. -/
theorem releaseRemembered_locks (env : CacheEnv) (w : CacheWorld) :
    (∀ j, ((releaseRemembered env w).tags j).readers
        = (w.tags j).readers
          - (if env.SHARED_TESSELLATION_CACHE = true ∧ w.rw_mtx = some j then 1 else 0)) ∧
    (∀ j, ((releaseRemembered env w).tags j).writer = (w.tags j).writer) ∧
    (releaseRemembered env w).rw_mtx = w.rw_mtx := by
  unfold releaseRemembered
  cases hs : env.SHARED_TESSELLATION_CACHE
  · simp
  · cases hm : w.rw_mtx with
    | none => simp [hm]
    | some m =>
      refine ⟨fun j => ?_, fun j => ?_, ?_⟩
      · show (((w.modify m CacheTag.read_unlock).tags j).readers) = _
        rw [modify_readers w m j CacheTag.read_unlock (-1) (fun t => rfl)]
        by_cases h : j = m
        · subst h
          simp
          ring
        · have : ¬ m = j := fun e => h e.symm
          simp [h, this]
      · exact modify_writer w m j _ (fun t => rfl)
      · show (w.modify m CacheTag.read_unlock).rw_mtx = some m
        exact hm

/-- The locks and the remembered mutex after `t->read_lock(); pre.rw_mtx = &t->mtx;`. -/
theorem lockAndRemember_locks (env : CacheEnv) (i : Nat) (w : CacheWorld) :
    (∀ j, ((lockAndRemember env i w).tags j).readers
        = (w.tags j).readers + (if j = i then 1 else 0)) ∧
    (∀ j, ((lockAndRemember env i w).tags j).writer = (w.tags j).writer) ∧
    (lockAndRemember env i w).rw_mtx
        = (if env.SHARED_TESSELLATION_CACHE = true then some i else w.rw_mtx) := by
  unfold lockAndRemember
  cases hs : env.SHARED_TESSELLATION_CACHE
  · refine ⟨fun j => ?_, fun j => ?_, by simp [CacheWorld.record, CacheWorld.modify]⟩
    · exact modify_readers w i j CacheTag.read_lock 1 (fun t => rfl)
    · exact modify_writer w i j _ (fun t => rfl)
  · refine ⟨fun j => ?_, fun j => ?_, by simp⟩
    · exact modify_readers w i j CacheTag.read_lock 1 (fun t => rfl)
    · exact modify_writer w i j _ (fun t => rfl)

/-- The locks and the remembered mutex after the entry of `getSubtreeRootNode`. -/
theorem prelude_locks (env : CacheEnv) (i : Nat) (w : CacheWorld) :
    (∀ j, ((lockAndRemember env i (releaseRemembered env w)).tags j).readers
        = (w.tags j).readers + (if j = i then 1 else 0)
          - (if env.SHARED_TESSELLATION_CACHE = true ∧ w.rw_mtx = some j then 1 else 0)) ∧
    (∀ j, ((lockAndRemember env i (releaseRemembered env w)).tags j).writer
        = (w.tags j).writer) ∧
    (lockAndRemember env i (releaseRemembered env w)).rw_mtx
        = (if env.SHARED_TESSELLATION_CACHE = true then some i else w.rw_mtx) := by
  obtain ⟨a1, a2, a3⟩ := releaseRemembered_locks env w
  obtain ⟨b1, b2, b3⟩ := lockAndRemember_locks env i (releaseRemembered env w)
  refine ⟨fun j => ?_, fun j => ?_, ?_⟩
  · rw [b1 j, a1 j]; ring
  · rw [b2 j, a2 j]
  · rw [b3, a3]

end CacheLocks

/-! ## The shared cache: the rebuild of the hierarchy and the lock discipline -/

section CacheHierarchy

/-- An L1 miss in `getSubtreeRootNodeFromCacheHierarchy`: the call returns, and this is
what it has done to the shared cache. -/
theorem hierarchy_miss {L : Type} (env : CacheEnv) (ops : LocalCache L) (patch : SubdivPatch)
    (cc : Nat) (l1 : L) (w : CacheWorld)
    (hmiss : (ops.lookup l1 patch.tag cc).1 = sizeT - 1) :
    ∃ r, getSubtreeRootNodeFromCacheHierarchy env ops patch cc l1 w = Except.ok r ∧
      r.2.2.log = w.log ++
        ([CacheEvent.read_lock (env.getTag patch.tag), CacheEvent.prefetchData patch.tag,
          CacheEvent.read_unlock (env.getTag patch.tag),
          CacheEvent.write_lock (env.getTag patch.tag)] ++
         (if (w.tags (env.getTag patch.tag)).getPtr ≠ 0
            then [CacheEvent.free_tessellation_cache_mem (w.tags (env.getTag patch.tag)).getPtr]
            else []) ++
         [CacheEvent.alloc_tessellation_cache_mem patch.grid_subtree_size_64b_blocks,
          CacheEvent.set (env.getTag patch.tag), CacheEvent.setPtr (env.getTag patch.tag),
          CacheEvent.buildSubdivPatchTree patch.tag
            (env.alloc_tessellation_cache_mem patch.grid_subtree_size_64b_blocks),
          CacheEvent.updateRootRef (env.getTag patch.tag),
          CacheEvent.write_unlock (env.getTag patch.tag)]) ∧
      (r.2.2.tags (env.getTag patch.tag)).readers = (w.tags (env.getTag patch.tag)).readers ∧
      (r.2.2.tags (env.getTag patch.tag)).writer = false ∧
      (r.2.2.tags (env.getTag patch.tag)).getPtr
        = env.alloc_tessellation_cache_mem patch.grid_subtree_size_64b_blocks ∧
      (r.2.2.tags (env.getTag patch.tag)).blocks = patch.grid_subtree_size_64b_blocks ∧
      (∀ j, j ≠ env.getTag patch.tag → r.2.2.tags j = w.tags j) ∧
      r.2.2.rw_mtx = w.rw_mtx := by
  unfold getSubtreeRootNodeFromCacheHierarchy
  rw [if_pos hmiss]
  generalize env.getTag patch.tag = i
  generalize (ops.lookup l1 patch.tag cc).2 = l2
  have hm : missL1 env ops patch cc i l2
      ((w.modify i CacheTag.read_lock).record [CacheEvent.read_lock i])
      = Except.ok (fillL1 ops patch cc i l2 (rebuildL2 env patch cc i
          ((w.modify i CacheTag.read_lock).record [CacheEvent.read_lock i]))) := by
    simp [missL1]
  refine ⟨_, hm, ?_, ?_, ?_, ?_, ?_, ?_, ?_⟩
  · simp [fillL1, rebuildL2, storeRoot, fitSlotL2, expandSlot, upgradeToWriteL2,
      CacheWorld.modify, CacheWorld.record, CacheTag.getPtr, CacheTag.set, CacheTag.setPtr,
      CacheTag.read_lock, CacheTag.read_unlock, CacheTag.write_lock]
  · simp [fillL1, rebuildL2, storeRoot, fitSlotL2, expandSlot, upgradeToWriteL2,
      CacheWorld.modify, CacheWorld.record, CacheTag.getPtr, CacheTag.set, CacheTag.setPtr,
      CacheTag.read_lock, CacheTag.read_unlock, CacheTag.write_lock, CacheTag.write_unlock,
      CacheTag.updateRootRef]
  · simp [fillL1, rebuildL2, storeRoot, fitSlotL2, expandSlot, upgradeToWriteL2,
      CacheWorld.modify, CacheWorld.record, CacheTag.getPtr, CacheTag.set, CacheTag.setPtr,
      CacheTag.read_lock, CacheTag.read_unlock, CacheTag.write_lock, CacheTag.write_unlock,
      CacheTag.updateRootRef]
  · simp [fillL1, rebuildL2, storeRoot, fitSlotL2, expandSlot, upgradeToWriteL2,
      CacheWorld.modify, CacheWorld.record, CacheTag.getPtr, CacheTag.set, CacheTag.setPtr,
      CacheTag.read_lock, CacheTag.read_unlock, CacheTag.write_lock, CacheTag.write_unlock,
      CacheTag.updateRootRef]
  · simp [fillL1, rebuildL2, storeRoot, fitSlotL2, expandSlot, upgradeToWriteL2,
      CacheWorld.modify, CacheWorld.record, CacheTag.getPtr, CacheTag.set, CacheTag.setPtr,
      CacheTag.read_lock, CacheTag.read_unlock, CacheTag.write_lock, CacheTag.write_unlock,
      CacheTag.updateRootRef, CacheTag.blocks]
  · intro j hj
    simp [fillL1, rebuildL2, storeRoot, fitSlotL2, expandSlot, upgradeToWriteL2,
      CacheWorld.modify, CacheWorld.record, Function.update_apply, hj]
  · simp [fillL1, rebuildL2, storeRoot, fitSlotL2, expandSlot, upgradeToWriteL2,
      CacheWorld.modify, CacheWorld.record]

/-- C11, evaluated: with an empty thread-local cache and a shared slot whose buffer of
eight blocks is large enough for the six blocks of the patch,
`getSubtreeRootNodeFromCacheHierarchy` frees the buffer and allocates a new one of six
blocks; `update` is not called, the pointer changes and the block count shrinks.  The
condition `1 || t_l2->blocks() < needed_blocks` sends every rebuild down the reallocating
branch. -/
theorem hierarchy_reallocates_fitting_buffer :
    examplePatch.grid_subtree_size_64b_blocks
      ≤ (exampleStaleWorld.tags (exampleCacheEnv.getTag examplePatch.tag)).blocks ∧
    (exampleStaleWorld.tags (exampleCacheEnv.getTag examplePatch.tag)).getPtr = 8192 ∧
    (exampleLocalCache.lookup none examplePatch.tag 1).1 = sizeT - 1 ∧
    ∃ r, getSubtreeRootNodeFromCacheHierarchy exampleCacheEnv exampleLocalCache examplePatch 1
        none exampleStaleWorld = Except.ok r ∧
      r.2.2.log = exampleStaleWorld.log ++
        [CacheEvent.read_lock 0, CacheEvent.prefetchData 320, CacheEvent.read_unlock 0,
         CacheEvent.write_lock 0, CacheEvent.free_tessellation_cache_mem 8192,
         CacheEvent.alloc_tessellation_cache_mem 6, CacheEvent.set 0, CacheEvent.setPtr 0,
         CacheEvent.buildSubdivPatchTree 320 4480, CacheEvent.updateRootRef 0,
         CacheEvent.write_unlock 0] ∧
      (r.2.2.tags 0).getPtr = 4480 ∧ (r.2.2.tags 0).blocks = 6 :=
  ⟨by decide, by decide, by decide, _, rfl, by decide, by decide, by decide⟩

/-- C12 (write-lock bracket): the events of every `getSubtreeRootNode` call and of every
`getSubtreeRootNodeFromCacheHierarchy` call (which always returns) are bracketed for the
shared tag of the patch: every `set`, `update`, `setPtr` and `updateRootRef` is one of
that tag, and these, every free or allocation of a buffer and every
`buildSubdivPatchTree` come after a `write_lock` of the tag and before the matching
`write_unlock` or `write_unlock_set_read_lock`; the write lock is not held at the end. -/
theorem write_lock_bracket {L : Type} (env : CacheEnv) (ops : LocalCache L)
    (patch : SubdivPatch) (cc : Nat) (l1 : L) (w : CacheWorld) :
    (∃ evs, (getSubtreeRootNode env patch cc w).2.log = w.log ++ evs ∧
      writeBracketed (env.getTag patch.tag) false evs = true) ∧
    (∃ r evs, getSubtreeRootNodeFromCacheHierarchy env ops patch cc l1 w = Except.ok r ∧
      r.2.2.log = w.log ++ evs ∧
      writeBracketed (env.getTag patch.tag) false evs = true) := by
  constructor
  · refine ⟨_, getSubtreeRootNode_log env patch cc w, ?_⟩
    rw [writeBracketed_prelude]
    cases h : (w.tags (env.getTag patch.tag)).match_ patch.tag cc with
    | true => simp [writeBracketed]
    | false =>
      simp only [if_true, List.append_assoc, List.cons_append, List.nil_append]
      simp only [writeBracketed, if_true, Bool.not_false, Bool.true_and]
      rw [writeBracketed_fit]
      simp [writeBracketed]
  · by_cases hmiss : (ops.lookup l1 patch.tag cc).1 = sizeT - 1
    · obtain ⟨r, hr, hlog, _⟩ := hierarchy_miss env ops patch cc l1 w hmiss
      refine ⟨r, _, hr, hlog, ?_⟩
      by_cases hp : (w.tags (env.getTag patch.tag)).getPtr = 0
      · simp [writeBracketed, hp]
      · simp [writeBracketed, hp]
    · refine ⟨((ops.lookup l1 patch.tag cc).1, (ops.lookup l1 patch.tag cc).2, w), [],
        ?_, ?_, by simp [writeBracketed]⟩
      · unfold getSubtreeRootNodeFromCacheHierarchy
        rw [if_neg hmiss]
      · simp

/-- C14 (lock state on return), with the shared cache compiled in.  `getSubtreeRootNode`
returns with `pre.rw_mtx` set to the mutex of the looked-up tag; the reader count of every
tag is the one on entry, plus one for the looked-up tag, minus one for the tag `pre.rw_mtx`
referenced on entry; the write lock of the looked-up tag is free after a miss and as on
entry after a hit, and no other write lock changes.  The hierarchy lookup always returns,
with every reader count as on entry, the write lock of the L2 tag free after an L1 miss
and as on entry after an L1 hit, every other tag and `pre.rw_mtx` as on entry. -/
theorem lock_state_on_return {L : Type} (env : CacheEnv) (ops : LocalCache L)
    (patch : SubdivPatch) (cc : Nat) (l1 : L) (w : CacheWorld)
    (hs : env.SHARED_TESSELLATION_CACHE = true) :
    ((getSubtreeRootNode env patch cc w).2.rw_mtx = some (env.getTag patch.tag) ∧
     (∀ j, ((getSubtreeRootNode env patch cc w).2.tags j).readers
        = (w.tags j).readers + (if j = env.getTag patch.tag then 1 else 0)
          - (if w.rw_mtx = some j then 1 else 0)) ∧
     ((getSubtreeRootNode env patch cc w).2.tags (env.getTag patch.tag)).writer
        = (if (w.tags (env.getTag patch.tag)).match_ patch.tag cc = true
            then (w.tags (env.getTag patch.tag)).writer else false) ∧
     (∀ j, j ≠ env.getTag patch.tag →
        ((getSubtreeRootNode env patch cc w).2.tags j).writer = (w.tags j).writer)) ∧
    (∃ r, getSubtreeRootNodeFromCacheHierarchy env ops patch cc l1 w = Except.ok r ∧
      (∀ j, (r.2.2.tags j).readers = (w.tags j).readers) ∧
      (r.2.2.tags (env.getTag patch.tag)).writer
        = (if (ops.lookup l1 patch.tag cc).1 = sizeT - 1 then false
            else (w.tags (env.getTag patch.tag)).writer) ∧
      (∀ j, j ≠ env.getTag patch.tag → r.2.2.tags j = w.tags j) ∧
      r.2.2.rw_mtx = w.rw_mtx) := by
  constructor
  · obtain ⟨p1, p2, p3⟩ := prelude_locks env (env.getTag patch.tag) w
    have hd := (prelude_lockStep env (env.getTag patch.tag) w).1 (env.getTag patch.tag)
    simp only [hs, true_and, if_true] at p1 p3
    cases h : (w.tags (env.getTag patch.tag)).match_ patch.tag cc with
    | true =>
      rw [getSubtreeRootNode_hit env patch cc w h]
      exact ⟨p3, p1, by rw [p2]; simp, fun j _ => p2 j⟩
    | false =>
      rw [getSubtreeRootNode_miss env patch cc w h]
      generalize lockAndRemember env (env.getTag patch.tag) (releaseRemembered env w) = u
        at p1 p2 p3 hd
      obtain ⟨_, _, _, _, _, _, hother, hmtx, _⟩ :=
        missPath_spec env patch cc (env.getTag patch.tag) u
      obtain ⟨hr, hw⟩ := missPath_locks env patch cc (env.getTag patch.tag) u
      refine ⟨by rw [hmtx, p3], fun j => ?_, by rw [hw]; simp, fun j hj => ?_⟩
      · by_cases hj : j = env.getTag patch.tag
        · subst hj
          rw [hr, p1]
        · rw [hother j hj, p1]
      · rw [hother j hj, p2]
  · by_cases hmiss : (ops.lookup l1 patch.tag cc).1 = sizeT - 1
    · obtain ⟨r, hr, _, hrd, hwr, _, _, hother, hmtx⟩ :=
        hierarchy_miss env ops patch cc l1 w hmiss
      refine ⟨r, hr, fun j => ?_, by rw [hwr, if_pos hmiss], hother, hmtx⟩
      by_cases hj : j = env.getTag patch.tag
      · subst hj
        exact hrd
      · rw [hother j hj]
    · refine ⟨((ops.lookup l1 patch.tag cc).1, (ops.lookup l1 patch.tag cc).2, w), ?_,
        fun j => rfl, ?_, fun j _ => rfl, rfl⟩
      · unfold getSubtreeRootNodeFromCacheHierarchy
        rw [if_neg hmiss]
      · rw [if_neg hmiss]

/-- The lock state at work: a lookup of `examplePatch` in a shared cache that remembers a
read lock on slot 1. -/
theorem lock_state_on_return_witness :
    exampleCacheEnv.SHARED_TESSELLATION_CACHE = true ∧
    ((getSubtreeRootNode exampleCacheEnv examplePatch 1
        exampleLockedWorld).2.rw_mtx = some 0 ∧
     ((getSubtreeRootNode exampleCacheEnv examplePatch 1
        exampleLockedWorld).2.tags 1).readers
        = (exampleLockedWorld.tags 1).readers - 1) :=
  ⟨rfl, (lock_state_on_return exampleCacheEnv exampleLocalCache examplePatch 1 none
      exampleLockedWorld rfl).1.1,
    by
      have h := (lock_state_on_return exampleCacheEnv exampleLocalCache examplePatch 1 none
        exampleLockedWorld rfl).1.2.1 1
      simpa [exampleCacheEnv, examplePatch, exampleLockedWorld] using h⟩

end CacheHierarchy

/-! ## Rebasing: sentinels and leaves -/

section Rebasing

theorem rebase_int (v old_ptr new_ptr : Nat) :
    ((rebase v old_ptr new_ptr : Nat) : Int)
      = ((v : Int) - (old_ptr : Int) + (new_ptr : Int)) % ((2 : Int) ^ 64) := by
  simp only [rebase, sizeT]
  push_cast
  omega

/-- A step of the child loop keeps every empty word when the call does. -/
theorem updateChild_keeps_empty (enc : Encoding) (call : Nat → Heap → Except RefFault Heap)
    (node : Nat) (i : Fin 4) (h h' : Heap)
    (hcall : ∀ a g g', call a g = Except.ok g' →
      ∀ b, g.word b = enc.emptyNode → g'.word b = enc.emptyNode)
    (hr : updateChild enc call node i h = Except.ok h') :
    ∀ b, h.word b = enc.emptyNode → h'.word b = enc.emptyNode := by
  unfold updateChild at hr
  split at hr
  · exact fun b hb => hcall _ _ _ hr b hb
  · cases hr
    exact fun b hb => hb

/-- Every word that holds `emptyNode` holds it after `updateNodeRefs`. -/
theorem updateNodeRefs_keeps_empty (enc : Encoding) (asserts : Bool) (old_ptr new_ptr : Nat) :
    ∀ (fuel nr : Nat) (h h' : Heap),
      updateNodeRefs enc asserts old_ptr new_ptr fuel nr h = Except.ok h' →
      ∀ b, h.word b = enc.emptyNode → h'.word b = enc.emptyNode := by
  intro fuel
  induction fuel with
  | zero =>
    intro nr h h' hr
    simp [updateNodeRefs] at hr
  | succ fuel ih =>
    intro nr h h' hr b hb
    simp only [updateNodeRefs] at hr
    split at hr
    · cases hr
      exact hb
    · rename_i hne
      split at hr
      · cases hr
      · split at hr
        · split at hr
          · cases hr
          · cases hr
            have hbn : b ≠ nr := fun e => hne (e ▸ hb)
            simp [Heap.write, Function.update_noteq hbn, hb]
        · cases h0e : updateChild enc
              (fun a g => updateNodeRefs enc asserts old_ptr new_ptr fuel a g)
              (enc.node (h.word nr)) 0 h with
          | error e => rw [h0e] at hr; cases hr
          | ok h0 =>
            rw [h0e] at hr
            simp only [Except.bind] at hr
            cases h1e : updateChild enc
                (fun a g => updateNodeRefs enc asserts old_ptr new_ptr fuel a g)
                (enc.node (h.word nr)) 1 h0 with
            | error e => rw [h1e] at hr; cases hr
            | ok h1 =>
              rw [h1e] at hr
              simp only [Except.bind] at hr
              cases h2e : updateChild enc
                  (fun a g => updateNodeRefs enc asserts old_ptr new_ptr fuel a g)
                  (enc.node (h.word nr)) 2 h1 with
              | error e => rw [h2e] at hr; cases hr
              | ok h2 =>
                rw [h2e] at hr
                simp only [Except.bind] at hr
                cases h3e : updateChild enc
                    (fun a g => updateNodeRefs enc asserts old_ptr new_ptr fuel a g)
                    (enc.node (h.word nr)) 3 h2 with
                | error e => rw [h3e] at hr; cases hr
                | ok h3 =>
                  rw [h3e] at hr
                  simp only [Except.bind] at hr
                  cases hr
                  have k0 := updateChild_keeps_empty enc _ _ _ _ _ (fun a g g' => ih a g g') h0e
                  have k1 := updateChild_keeps_empty enc _ _ _ _ _ (fun a g g' => ih a g g') h1e
                  have k2 := updateChild_keeps_empty enc _ _ _ _ _ (fun a g g' => ih a g g') h2e
                  have k3 := updateChild_keeps_empty enc _ _ _ _ _ (fun a g g' => ih a g g') h3e
                  have hbn : b ≠ nr := fun e => hne (e ▸ hb)
                  simp [Heap.write, Function.update_noteq hbn, k3 b (k2 b (k1 b (k0 b hb)))]

/-- C16 (the empty sentinel is left alone): if `nr` equals `BVH4::emptyNode` on entry,
`updateNodeRefs` returns with `nr` and all of memory as they were, having read no child
slot and written nothing.  Likewise, whenever a call returns, every word that held
`emptyNode` on entry, so every empty child slot of every visited node, still holds it. -/
theorem updateNodeRefs_empty_untouched (enc : Encoding) (asserts : Bool)
    (old_ptr new_ptr fuel nr : Nat) (h : Heap) :
    (h.word nr = enc.emptyNode →
      updateNodeRefs enc asserts old_ptr new_ptr (fuel + 1) nr h = Except.ok h) ∧
    (∀ h', updateNodeRefs enc asserts old_ptr new_ptr fuel nr h = Except.ok h' →
      ∀ slot, h.word slot = enc.emptyNode → h'.word slot = enc.emptyNode) := by
  constructor
  · intro he
    simp only [updateNodeRefs]
    rw [if_pos he]
  · exact fun h' hr => updateNodeRefs_keeps_empty enc asserts old_ptr new_ptr fuel nr h h' hr

/-- The low bits of a rebased reference, when the two bases agree in their low bits. -/
theorem rebase_low_bits (a v old_ptr new_ptr : Nat) (hal : a ∣ sizeT)
    (hdiff : old_ptr % a = new_ptr % a) :
    rebase v old_ptr new_ptr % a = v % a := by
  have hi := rebase_int v old_ptr new_ptr
  have hd : (a : Int) ∣ (2 : Int) ^ 64 := by
    have : ((2 ^ 64 : Nat) : Int) = (2 : Int) ^ 64 := by norm_num
    rw [← this]
    exact Int.natCast_dvd_natCast.mpr hal
  have hdi : ((old_ptr : Int)) % (a : Int) = (new_ptr : Int) % (a : Int) := by
    exact_mod_cast congrArg (Nat.cast : Nat → Int) hdiff
  have h1 : ((rebase v old_ptr new_ptr : Nat) : Int) % (a : Int) = (v : Int) % (a : Int) := by
    rw [hi, Int.emod_emod_of_dvd _ hd]
    have : ((v : Int) - old_ptr + new_ptr) = (v : Int) + (new_ptr - old_ptr) := by ring
    rw [this]
    have hz : ((new_ptr : Int) - old_ptr) % (a : Int) = 0 := by
      rw [Int.sub_emod, hdi, sub_self, Int.zero_emod]
    rw [Int.add_emod, hz, add_zero, Int.emod_emod_of_dvd _ (dvd_refl _)]
  exact_mod_cast h1

/-- The address part of a rebased reference. -/
theorem rebase_address (a v old_ptr new_ptr : Nat) (hal : a ∣ sizeT)
    (hdiff : old_ptr % a = new_ptr % a) :
    (((rebase v old_ptr new_ptr - rebase v old_ptr new_ptr % a : Nat)) : Int)
      = (((v - v % a : Nat) : Int) - (old_ptr : Int) + (new_ptr : Int)) % ((2 : Int) ^ 64) := by
  have hlow := rebase_low_bits a v old_ptr new_ptr hal hdiff
  have hi := rebase_int v old_ptr new_ptr
  have hlt : rebase v old_ptr new_ptr < 2 ^ 64 := by
    unfold rebase sizeT
    exact Nat.mod_lt _ (Nat.two_pow_pos 64)
  have hle1 : rebase v old_ptr new_ptr % a ≤ rebase v old_ptr new_ptr := Nat.mod_le _ _
  have hle2 : v % a ≤ v := Nat.mod_le _ _
  rw [hlow] at hle1 ⊢
  generalize rebase v old_ptr new_ptr = r at hi hlt hle1
  generalize v % a = t at hle1 hle2
  push_cast [Nat.cast_sub hle1, Nat.cast_sub hle2]
  omega

/-- C18 (leaf references survive rebasing): for a leaf reference `nr` (leaf-tagged, neither
sentinel) and bases that agree in the low bits below the alignment, `updateNodeRefs`
returns with `nr` set to `(nr - old_ptr + new_ptr) mod 2^64`; the new value is a leaf
reference with the same low bits (tag and count), its address part is the old address part
shifted by `new_ptr - old_ptr`, and the only word written is `nr`: no child slot is read
and no other word changes. -/
theorem updateNodeRefs_leaf (enc : Encoding) (asserts : Bool) (old_ptr new_ptr fuel nr : Nat)
    (h : Heap) (hleaf : enc.isLeaf (h.word nr) = true) (hne : h.word nr ≠ enc.emptyNode)
    (hni : h.word nr ≠ enc.invalidNode) (hal : enc.alignment ∣ sizeT)
    (hdiff : old_ptr % enc.alignment = new_ptr % enc.alignment) :
    ∃ h', updateNodeRefs enc asserts old_ptr new_ptr (fuel + 1) nr h = Except.ok h' ∧
      ((h'.word nr : Nat) : Int)
        = ((h.word nr : Int) - (old_ptr : Int) + (new_ptr : Int)) % ((2 : Int) ^ 64) ∧
      enc.isLeaf (h'.word nr) = true ∧
      h'.word nr % enc.alignment = h.word nr % enc.alignment ∧
      ((enc.address (h'.word nr) : Nat) : Int)
        = ((enc.address (h.word nr) : Int) - (old_ptr : Int) + (new_ptr : Int))
            % ((2 : Int) ^ 64) ∧
      (∀ a, a ≠ nr → h'.word a = h.word a) ∧
      h'.writes = h.writes ++ [nr] ∧ h'.reads = h.reads := by
  have hlow := rebase_low_bits enc.alignment (h.word nr) old_ptr new_ptr hal hdiff
  have hleaf' : enc.isLeaf (rebase (h.word nr) old_ptr new_ptr) = true := by
    unfold Encoding.isLeaf at hleaf ⊢
    rw [hlow]
    exact hleaf
  refine ⟨h.write nr (rebase (h.word nr) old_ptr new_ptr), ?_, ?_, ?_, ?_, ?_, ?_, rfl, rfl⟩
  · simp only [updateNodeRefs]
    rw [if_neg hne, if_neg (fun hc => hni hc.2), if_pos hleaf, if_neg (by simp [hleaf'])]
  · simp only [Heap.write, Function.update_same]
    exact rebase_int _ _ _
  · simp only [Heap.write, Function.update_same]
    exact hleaf'
  · simp only [Heap.write, Function.update_same]
    exact hlow
  · simp only [Heap.write, Function.update_same, Encoding.address]
    exact rebase_address _ _ _ _ hal hdiff
  · intro a ha
    simp only [Heap.write]
    exact Function.update_noteq ha _ _

/-- A leaf reference rebased: the leaf at `4224` with two blocks, moved from the buffer at
`4096` to the buffer at `8192`; the reference `4234` becomes `8330`. -/
theorem updateNodeRefs_leaf_witness :
    (bvh4Encoding.isLeaf ((exampleHeap [(64, 4234)]).word 64) = true ∧
     (exampleHeap [(64, 4234)]).word 64 ≠ bvh4Encoding.emptyNode ∧
     (exampleHeap [(64, 4234)]).word 64 ≠ bvh4Encoding.invalidNode ∧
     bvh4Encoding.alignment ∣ sizeT ∧
     4096 % bvh4Encoding.alignment = 8192 % bvh4Encoding.alignment) ∧
    ∃ h', updateNodeRefs bvh4Encoding true 4096 8192 1 64 (exampleHeap [(64, 4234)])
        = Except.ok h' ∧
      ((h'.word 64 : Nat) : Int)
        = (((exampleHeap [(64, 4234)]).word 64 : Int) - (4096 : Nat) + (8192 : Nat))
            % ((2 : Int) ^ 64) ∧
      bvh4Encoding.isLeaf (h'.word 64) = true ∧
      h'.word 64 % bvh4Encoding.alignment
        = (exampleHeap [(64, 4234)]).word 64 % bvh4Encoding.alignment ∧
      ((bvh4Encoding.address (h'.word 64) : Nat) : Int)
        = ((bvh4Encoding.address ((exampleHeap [(64, 4234)]).word 64) : Int)
            - (4096 : Nat) + (8192 : Nat)) % ((2 : Int) ^ 64) ∧
      (∀ a, a ≠ 64 → h'.word a = (exampleHeap [(64, 4234)]).word a) ∧
      h'.writes = (exampleHeap [(64, 4234)]).writes ++ [64] ∧
      h'.reads = (exampleHeap [(64, 4234)]).reads :=
  ⟨⟨by decide, by decide, by decide, by decide, by decide⟩,
    updateNodeRefs_leaf bvh4Encoding true 4096 8192 0 64 (exampleHeap [(64, 4234)])
      (by decide) (by decide) (by decide) (by decide) (by decide)⟩

/-- C17, evaluated: with assertions compiled out, `updateNodeRefs` on a word that holds
`BVH4::invalidNode` returns with the word rebased like a leaf (here `4088`, not the
sentinel); with assertions compiled in the call fails the assertion
`ref != BVH4::invalidNode` and does not return. -/
theorem updateNodeRefs_invalid_changes :
    (exampleHeap [(64, bvh4Encoding.invalidNode)]).word 64 = bvh4Encoding.invalidNode ∧
    (∃ h', updateNodeRefs bvh4Encoding false 4096 8192 1 64
          (exampleHeap [(64, bvh4Encoding.invalidNode)]) = Except.ok h' ∧
        h'.word 64 = 4088 ∧ h'.word 64 ≠ bvh4Encoding.invalidNode) ∧
    updateNodeRefs bvh4Encoding true 4096 8192 1 64
        (exampleHeap [(64, bvh4Encoding.invalidNode)]) = Except.error RefFault.assertion :=
  ⟨by decide, ⟨_, rfl, by decide, by decide⟩, rfl⟩

/-- C17, amended: `updateNodeRefs` does not accept the invalid sentinel.  On a word that
holds `BVH4::invalidNode` the call fails the assertion `ref != BVH4::invalidNode` when
assertions are compiled in, and nothing is written; with assertions compiled out a
leaf-tagged sentinel is rebased like a leaf, to `invalidNode - old_ptr + new_ptr`. -/
theorem updateNodeRefs_invalid_asserted (enc : Encoding) (asserts : Bool)
    (old_ptr new_ptr fuel nr : Nat) (h : Heap) (hv : h.word nr = enc.invalidNode)
    (hne : enc.invalidNode ≠ enc.emptyNode) :
    (asserts = true →
      updateNodeRefs enc asserts old_ptr new_ptr (fuel + 1) nr h
        = Except.error RefFault.assertion) ∧
    (asserts = false → enc.isLeaf enc.invalidNode = true →
      updateNodeRefs enc asserts old_ptr new_ptr (fuel + 1) nr h
        = Except.ok (h.write nr (rebase enc.invalidNode old_ptr new_ptr))) := by
  constructor
  · intro ha
    simp only [updateNodeRefs]
    rw [if_neg (by rw [hv]; exact hne), if_pos ⟨ha, hv⟩]
  · intro ha hl
    simp only [updateNodeRefs]
    rw [if_neg (by rw [hv]; exact hne), if_neg (by simp [ha]), hv, if_pos hl,
      if_neg (by simp [ha])]

/-- The assertion at work on the encoding of the examples. -/
theorem updateNodeRefs_invalid_asserted_witness :
    (exampleHeap [(64, bvh4Encoding.invalidNode)]).word 64 = bvh4Encoding.invalidNode ∧
    bvh4Encoding.invalidNode ≠ bvh4Encoding.emptyNode ∧
    updateNodeRefs bvh4Encoding true 4096 8192 1 64
        (exampleHeap [(64, bvh4Encoding.invalidNode)]) = Except.error RefFault.assertion :=
  ⟨by decide, by decide,
    (updateNodeRefs_invalid_asserted bvh4Encoding true 4096 8192 0 64
      (exampleHeap [(64, bvh4Encoding.invalidNode)]) (by decide) (by decide)).1 rfl⟩

/-- A call on an internal node with three empty child slots returns and leaves them
empty. -/
theorem updateNodeRefs_empty_untouched_witness :
    ∃ h', updateNodeRefs bvh4Encoding true 4096 8192 2 64 exampleCopiedTree = Except.ok h' ∧
      exampleCopiedTree.word 4200 = bvh4Encoding.emptyNode ∧
      h'.word 4200 = bvh4Encoding.emptyNode :=
  ⟨_, rfl, by decide,
    (updateNodeRefs_empty_untouched bvh4Encoding true 4096 8192 2 64 exampleCopiedTree).2 _ rfl
      4200 (by decide)⟩

/-- C15, evaluated: a node at `4096` with one leaf child, copied byte for byte to `8192`,
and `updateNodeRefs(root, 4096, 8192)` with `root` the reference of the source node.  The
root is shifted to `8192`, but the node is decoded from the source reference: the child
slot rewritten is the one of the source buffer (`4192`, now `8330`), and the child slot of
the copy (`8288`) still holds the source reference `4234`, outside the copy. -/
theorem updateNodeRefs_rewrites_source :
    (∀ i : Fin 4, exampleCopiedTree.word (bvh4Encoding.child 8192 i)
        = exampleCopiedTree.word (bvh4Encoding.child 4096 i)) ∧
    exampleCopiedTree.word 64 = 4096 ∧ exampleCopiedTree.word 4192 = 4234 ∧
    ∃ h', updateNodeRefs bvh4Encoding true 4096 8192 2 64 exampleCopiedTree = Except.ok h' ∧
      h'.word 64 = 8192 ∧ h'.word 8288 = 4234 ∧ h'.word 8288 ≠ 4234 - 4096 + 8192 ∧
      h'.word 4192 = 8330 ∧ h'.writes = [4192, 64] :=
  ⟨by decide, by decide, by decide, _, rfl, by decide, by decide, by decide, by decide,
    by decide⟩

end Rebasing

/-! ## The grid subtree builder: leaves -/

section GridLeafTheorems

variable {T : Type}

theorem GridRange.v_size_eq (r : GridRange) (h1 : r.v_start ≤ r.v_end) (h2 : r.v_end < uintT)
    (h3 : 1 ≤ r.v_size) : r.v_end = r.v_start + r.v_size - 1 := by
  unfold GridRange.v_size uintT at *
  norm_num at *
  omega

theorem setLane_apply (leaf : Nat → Nat → T) (y x : Nat) (value : T) (y' x' : Nat) :
    setLane leaf y x value y' x' = if y' = y ∧ x' = x then value else leaf y' x' := by
  unfold setLane
  by_cases hy : y' = y
  · subst hy
    by_cases hx : x' = x
    · subst hx
      simp
    · simp [hx]
  · simp [hy]

/-- The column loop replicates the last column of the range. -/
theorem clampColumns_apply (us : Nat) (hu1 : 1 ≤ us) (hu3 : us ≤ 3) (leaf : Nat → Nat → T)
    (x y : Nat) (hx : x < 3) (hy : y < 3) :
    clampColumns us leaf y x = leaf y (min x (us - 1)) := by
  interval_cases us <;> interval_cases y <;> interval_cases x <;>
    simp [clampColumns, predU, List.range', List.range, List.range.loop, setLane_apply]

/-- The row loop replicates the last row of the range. -/
theorem clampRows_apply (vs : Nat) (hv1 : 1 ≤ vs) (hv3 : vs ≤ 3) (leaf : Nat → Nat → T)
    (x y : Nat) (hx : x < 3) (hy : y < 3) :
    clampRows vs leaf y x = leaf (min y (vs - 1)) x := by
  interval_cases vs <;> interval_cases y <;> interval_cases x <;>
    simp [clampRows, predU, List.range', List.range, List.range.loop, setLane_apply]

/-- The loop over the rows, for a range of at most three rows. -/
theorem loadRows_apply (grid : Nat → T) (res : Nat) (r : GridRange) (leaf : Nat → Nat → T)
    (vs : Nat) (hv1 : 1 ≤ vs) (hv3 : vs ≤ 3) (hve : r.v_end = r.v_start + vs - 1)
    (y : Nat) (hy : y < vs) (lane : Nat) :
    loadRows grid res r leaf y lane
      = grid (((r.v_start + y) * res + r.u_start) % uintT + lane) := by
  unfold loadRows
  rw [hve]
  have e1 : r.v_start + 1 - r.v_start = 1 := by omega
  have e2 : r.v_start + 1 + 1 - r.v_start = 2 := by omega
  have e3 : r.v_start + 2 + 1 - r.v_start = 3 := by omega
  interval_cases vs <;> interval_cases y <;>
    simp [List.range', loadRow, Function.update, e1, e2, e3]

/-- The entries of the five arrays of a terminal range after the row loop and the two
clamping loops, for a range of one to three rows and columns. -/
theorem leafArrays_clamped (grid : Channel → Nat → T) (grid_u_res : Nat)
    (r : GridRange) (leaf : Channel → Nat → Nat → T)
    (hv : r.v_start ≤ r.v_end) (hve : r.v_end < uintT)
    (hu1 : 1 ≤ r.u_size) (hu3 : r.u_size ≤ 3) (hv1 : 1 ≤ r.v_size) (hv3 : r.v_size ≤ 3)
    (hoff : r.v_end * grid_u_res + r.u_start < uintT) :
    ∀ (c : Channel) (x y : Nat), x < 3 → y < 3 →
      leafArrays grid grid_u_res r leaf c y x
        = grid c ((r.v_start + min y (r.v_size - 1)) * grid_u_res + r.u_start
            + min x (r.u_size - 1)) := by
  intro c x y hx hy
  have hvend := GridRange.v_size_eq r hv hve hv1
  unfold leafArrays leafChannel
  rw [clampRows_apply r.v_size hv1 hv3 _ x y hx hy,
    clampColumns_apply r.u_size hu1 hu3 _ x _ hx (by omega),
    loadRows_apply (grid c) grid_u_res r (leaf c) r.v_size hv1 hv3 hvend _ (by omega)]
  have hle : (r.v_start + min y (r.v_size - 1)) * grid_u_res ≤ r.v_end * grid_u_res :=
    Nat.mul_le_mul_right grid_u_res (by omega)
  rw [Nat.mod_eq_of_lt (by omega)]

/-- C19 (leaf clamping): on a terminal range whose `u_size = u_end-u_start+1` and
`v_size = v_end-v_start+1` are 1, 2 or 3, `createSubTree` returns a leaf, and the 3x3
sample block its `Quad2x2` is initialised from (the five arrays passed to
`Quad2x2::init`) has, for every `x, y < 3` and each of the five channels, the entry
`leaf[y][x] = grid[(v_start + min(y, v_size-1)) * grid_u_res + u_start + min(x,
u_size-1)]`, whatever the arrays held before: samples of the range are copied, and the
rows and columns past it repeat its last row and column.  The rows of the range are well
formed (`v_start ≤ v_end`, with `v_end` below the largest `unsigned int`, so that the
loop `v<=v_end` ends), and the row offsets `v * grid_u_res + u_start` fit
`unsigned int`. -/
theorem createSubTree_leaf_clamping [Lattice T] [BoundedOrder T] (ops : GridSplit)
    (quadBlocks : Nat) (grid : Channel → Nat → T) (grid_u_res : Nat)
    (garbage : Channel → Nat → Nat → T) (fuel : Nat) (r : GridRange) (c : Nat)
    (hleaf : ops.hasLeafSize r = true)
    (hv : r.v_start ≤ r.v_end) (hve : r.v_end + 1 < uintT)
    (hu1 : 1 ≤ r.u_size) (hu3 : r.u_size ≤ 3) (hv1 : 1 ≤ r.v_size) (hv3 : r.v_size ≤ 3)
    (hoff : r.v_end * grid_u_res + r.u_start < uintT) :
    ∃ quad,
      createSubTree ops quadBlocks grid grid_u_res garbage (fuel + 1) r c
        = some ⟨quadBounds quad, GridNode.leaf (c * 16 % uintT / 16) 2 quad,
            (c + quadBlocks) % uintT⟩ ∧
      ∀ (ch : Channel) (x y : Nat), x < 3 → y < 3 →
        quad ch y x
          = grid ch ((r.v_start + min y (r.v_size - 1)) * grid_u_res + r.u_start
              + min x (r.u_size - 1)) := by
  refine ⟨leafArrays grid grid_u_res r garbage, ?_,
    leafArrays_clamped grid grid_u_res r garbage hv (by omega) hu1 hu3 hv1 hv3 hoff⟩
  simp only [createSubTree, hleaf, if_true]

/-- The clamping at work: a range of two columns and one row in a grid of width 5 whose
samples are their own indices; the corner `leaf[2][2]` of the leaf that `createSubTree`
returns is the sample 9 at row 1, column 4. -/
theorem createSubTree_leaf_clamping_witness :
    (exampleSplit.hasLeafSize ⟨3, 4, 1, 1⟩ = true ∧
      (1 ≤ GridRange.u_size ⟨3, 4, 1, 1⟩ ∧ GridRange.u_size ⟨3, 4, 1, 1⟩ ≤ 3) ∧
      (1 ≤ GridRange.v_size ⟨3, 4, 1, 1⟩ ∧ GridRange.v_size ⟨3, 4, 1, 1⟩ ≤ 3)) ∧
    ∃ quad,
      createSubTree exampleSplit 3 (fun _ n => (Fin.ofNat n : Fin 16)) 5 (fun _ _ _ => 0) 1
        ⟨3, 4, 1, 1⟩ 0 = some ⟨quadBounds quad, GridNode.leaf 0 2 quad, 3⟩ ∧
      quad Channel.x 2 2 = 9 := by
  refine ⟨⟨by decide, by decide, by decide⟩, ?_⟩
  obtain ⟨quad, h1, h2⟩ :=
    createSubTree_leaf_clamping exampleSplit 3 (fun _ n => (Fin.ofNat n : Fin 16)) 5
      (fun _ _ _ => 0) 0 ⟨3, 4, 1, 1⟩ 0 (by decide) (by decide) (by decide) (by decide)
      (by decide) (by decide) (by decide) (by decide)
  exact ⟨quad, h1, (h2 Channel.x 2 2 (by decide) (by decide)).trans (by decide)⟩

end GridLeafTheorems

/-! ## The grid subtree builder: bounds -/

section GridTreeBasics

variable {T : Type}

end GridTreeBasics

section GridTreeTheorems

variable {T : Type} [Lattice T] [BoundedOrder T]

end GridTreeTheorems

/-! ## Intervals: `merge` -/

section IntervalMerge

variable {V : Type} [LinearOrder V]

theorem interval_merge_comm (a b : Interval V) : Interval.merge a b = Interval.merge b a := by
  simp only [Interval.merge, min_comm, max_comm]

theorem interval_merge_assoc (a b c : Interval V) :
    Interval.merge (Interval.merge a b) c = Interval.merge a (Interval.merge b c) := by
  simp only [Interval.merge, min_assoc, max_assoc]

theorem interval_merge_self (a : Interval V) : Interval.merge a a = a := by
  simp only [Interval.merge, min_self, max_self]

/-- Merging the value of a bracketing into `x` is folding its arguments into `x`. -/
theorem MergeExpr.merge_eval (e : MergeExpr V) :
    ∀ x, Interval.merge x e.eval = e.args.foldl Interval.merge x := by
  induction e with
  | arg a => exact fun x => rfl
  | merge l r ihl ihr =>
    intro x
    simp only [MergeExpr.eval, MergeExpr.args, List.foldl_append]
    rw [← ihl x, ← ihr, interval_merge_assoc]

/-- Folding `merge` over a list does not depend on the order of the list. -/
theorem interval_foldl_merge_perm {l l' : List (Interval V)} (h : l.Perm l') (x : Interval V) :
    l.foldl Interval.merge x = l'.foldl Interval.merge x := by
  induction h generalizing x with
  | nil => rfl
  | cons a _ ih => exact ih _
  | swap a b l =>
    simp only [List.foldl_cons]
    rw [interval_merge_assoc, interval_merge_comm b a, ← interval_merge_assoc]
  | trans _ _ ih1 ih2 => exact (ih1 x).trans (ih2 x)

/-- Two bracketings of the same arguments, in any order, have the same value. -/
theorem MergeExpr.eval_perm (e f : MergeExpr V) (h : e.args.Perm f.args) : e.eval = f.eval := by
  have h1 : Interval.merge e.eval f.eval = e.eval := by
    rw [MergeExpr.merge_eval f, ← interval_foldl_merge_perm h, ← MergeExpr.merge_eval e,
      interval_merge_self]
  have h2 : Interval.merge f.eval e.eval = f.eval := by
    rw [MergeExpr.merge_eval e, interval_foldl_merge_perm h, ← MergeExpr.merge_eval f,
      interval_merge_self]
  rw [← h1, interval_merge_comm, h2]

/-- C25 (`merge` is associative and commutative): for all intervals over a linearly ordered
type, `merge(a,b) = merge(b,a)` and `merge(merge(a,b),c) = merge(a,merge(b,c))`; the
overload `merge(a,b,c)` is the value of every bracketing of the two-argument `merge` whose
arguments are `a`, `b`, `c` in some order, and `merge(a,b,c,d)` is the value of every
bracketing whose arguments are `a`, `b`, `c`, `d` in some order. -/
theorem interval_merge_laws (a b c d : Interval V) :
    Interval.merge a b = Interval.merge b a ∧
    Interval.merge (Interval.merge a b) c = Interval.merge a (Interval.merge b c) ∧
    (∀ e : MergeExpr V, e.args.Perm [a, b, c] → e.eval = Interval.merge3 a b c) ∧
    (∀ e : MergeExpr V, e.args.Perm [a, b, c, d] → e.eval = Interval.merge4 a b c d) := by
  refine ⟨interval_merge_comm a b, interval_merge_assoc a b c, fun e he => ?_, fun e he => ?_⟩
  · exact MergeExpr.eval_perm e
      (MergeExpr.merge (MergeExpr.merge (MergeExpr.arg a) (MergeExpr.arg b)) (MergeExpr.arg c)) he
  · exact MergeExpr.eval_perm e
      (MergeExpr.merge (MergeExpr.merge (MergeExpr.arg a) (MergeExpr.arg b))
        (MergeExpr.merge (MergeExpr.arg c) (MergeExpr.arg d))) he

end IntervalMerge

/-! ## Opening: the iterations of the loop -/

section OpeningSteps

variable {N : Nat} {V K : Type} [LinearOrder K] {key : BuildRef N V → K}

/-- The first entry of a max-heap is a maximum. -/
theorem is_heap_head_max {E : Type} (key : E → K) (l : List E) (hheap : is_heap key l)
    (h : E) (hh : l.head? = some h) : ∀ e ∈ l, key e ≤ key h := by
  have hall : ∀ (i : Nat) (a : E), l[i]? = some a → key a ≤ key h := by
    intro i
    induction i using Nat.strong_induction_on with
    | _ i ih =>
      intro a ha
      by_cases hi : i = 0
      · subst hi
        rw [← List.head?_eq_getElem?, hh] at ha
        cases ha
        exact le_refl _
      · have hlt : i < l.length := by
          by_contra hc
          rw [List.getElem?_eq_none (by omega)] at ha
          cases ha
        have hj : (i - 1) / 2 < l.length := by omega
        have hb : l[(i - 1) / 2]? = some (l[(i - 1) / 2]) := List.getElem?_eq_getElem hj
        exact le_trans (hheap i a (l[(i - 1) / 2]) (by omega) ha hb) (ih ((i - 1) / 2) (by omega) _ hb)
  intro e he
  obtain ⟨i, hi⟩ := List.mem_iff_getElem?.mp he
  exact hall i e hi

/-- What every listed iteration of the opening loop does, when the loop starts on a
max-heap: the array is a max-heap at the start of the iteration, `pop_heap` moves its
first entry, a maximum, to the back; a leaf there ends the loop with the entries as they
were, an AABB node is replaced by its non-empty children. -/
theorem openSteps_spec (H : HeapAlgorithms (BuildRef N V) K key) (extSize : Nat) :
    ∀ (fuel : Nat) (refs : List (BuildRef N V)), is_heap key refs →
      ∀ p ∈ openSteps H extSize fuel refs,
        is_heap key p.1 ∧ openCond N extSize p.1.length = true ∧
        ∃ back, (H.pop_heap p.1).getLast? = some back ∧ p.1.head? = some back ∧
          (H.pop_heap p.1).Perm p.1 ∧ (∀ e ∈ p.1, key e ≤ key back) ∧
          (back.node.isLeaf = true → p.2 = H.pop_heap p.1 ∧
            ∀ fuel', openLoop H extSize (fuel' + 1) p.1
              = ([H.pop_heap p.1], Outcome.finished)) ∧
          (∀ bounds child, back.node = NodeRef.aabb bounds child →
            p.2 = finalState (H.pop_heap p.1).dropLast
              (pushChildren H bounds child (List.finRange N) (H.pop_heap p.1).dropLast) ∧
            (back :: p.2).Perm (p.1 ++ openedChildren bounds child (List.finRange N)) ∧
            BuildRef.aabbNodes p.2 + 1 ≤ BuildRef.aabbNodes p.1 ∧ is_heap key p.2) := by
  intro fuel
  induction fuel with
  | zero =>
    intro refs _ p hp
    simp [openSteps] at hp
  | succ fuel ih =>
    intro refs hheap p hp
    have hperm := H.pop_heap_perm refs hheap
    have hpheap := H.pop_heap_heap refs hheap
    have hlast := H.pop_heap_last refs hheap
    simp only [openSteps] at hp
    split at hp
    · rename_i hcond
      split at hp
      · cases hp
      · rename_i back hback
        have hhead : refs.head? = some back := by rw [← hlast, hback]
        have hmax := is_heap_head_max key refs hheap back hhead
        split at hp
        · rename_i hleaf
          rw [List.mem_singleton] at hp
          subst hp
          refine ⟨hheap, hcond, back, hback, hhead, hperm, hmax, fun _ => ⟨rfl, fun fuel' => ?_⟩,
            fun bounds child hn => ?_⟩
          · simp only [openLoop, hcond, if_true, hback, hleaf]
          · rw [hn] at hleaf
            cases hleaf
        · rename_i hleaf
          split at hp
          · rename_i bounds child hnode
            have hsplit : (H.pop_heap refs).dropLast ++ [back] = H.pop_heap refs :=
              List.dropLast_append_getLast? back (by simp [hback])
            obtain ⟨hp3, hh3, _⟩ :=
              pushChildren_spec H bounds child (List.finRange N) _ hpheap
            rcases List.mem_cons.mp hp with rfl | hp
            · refine ⟨hheap, hcond, back, hback, hhead, hperm, hmax,
                fun hl => absurd hl hleaf, fun bounds' child' hn => ?_⟩
              rw [hnode] at hn
              cases hn
              refine ⟨rfl, ?_, ?_, hh3⟩
              · have h1 : (back :: ((H.pop_heap refs).dropLast
                      ++ openedChildren bounds child (List.finRange N))).Perm
                    (((H.pop_heap refs).dropLast ++ [back])
                      ++ openedChildren bounds child (List.finRange N)) := by
                  simp only [List.append_assoc, List.singleton_append]
                  exact List.perm_middle.symm
                have h2 : (((H.pop_heap refs).dropLast ++ [back])
                      ++ openedChildren bounds child (List.finRange N)).Perm
                    (refs ++ openedChildren bounds child (List.finRange N)) := by
                  rw [hsplit]
                  exact List.Perm.append_right _ hperm
                exact ((List.Perm.cons back hp3).trans h1).trans h2
              · have e1 := BuildRef.aabbNodes_perm hp3
                have e2 := BuildRef.aabbNodes_perm hperm
                rw [BuildRef.aabbNodes_append, aabbNodes_openedChildren] at e1
                rw [← hsplit, BuildRef.aabbNodes_append] at e2
                simp only [BuildRef.aabbNodes, List.map_cons, List.map_nil, List.sum_cons,
                  List.sum_nil, hnode, NodeRef.aabbNodes] at e1 e2 ⊢
                omega
            · exact ih _ hh3 p hp
          · cases hp
    · cases hp

/-- The array the opening loop ends with is the end of its last listed iteration. -/
theorem openLoop_final_steps (H : HeapAlgorithms (BuildRef N V) K key) (extSize : Nat) :
    ∀ (fuel : Nat) (refs : List (BuildRef N V)), is_heap key refs →
      finalState refs (openLoop H extSize fuel refs).1
        = ((openSteps H extSize fuel refs).getLast?.map Prod.snd).getD refs := by
  intro fuel
  induction fuel with
  | zero =>
    intro refs _
    simp only [openLoop, openSteps]
    split <;> rfl
  | succ fuel ih =>
    intro refs hheap
    have hperm := H.pop_heap_perm refs hheap
    have hpheap := H.pop_heap_heap refs hheap
    simp only [openLoop, openSteps]
    split
    · split
      · rename_i hnone
        have hnil : H.pop_heap refs = [] := List.getLast?_eq_none_iff.mp hnone
        have hrefs : refs = [] := by
          have := hperm.length_eq
          rw [hnil] at this
          exact List.length_eq_zero.mp this.symm
        simp only [hnil, finalState]
        simp [hrefs]
      · rename_i back hback
        split
        · simp [finalState]
        · split
          · rename_i bounds child hnode
            obtain ⟨_, hh3, _⟩ := pushChildren_spec H bounds child (List.finRange N) _ hpheap
            have hrec := ih _ hh3
            simp only [finalState_cons, finalState_append]
            rw [hrec]
            generalize openSteps H extSize fuel
              (finalState (H.pop_heap refs).dropLast
                (pushChildren H bounds child (List.finRange N) (H.pop_heap refs).dropLast)) = rest
            cases rest with
            | nil => simp
            | cons q rest =>
              rw [List.getLast?_cons_cons]
              cases hgl : (q :: rest).getLast? with
              | none => simp at hgl
              | some x => simp
          · rename_i hleaf _ hno
            exfalso
            cases hb : back.node with
            | emptyNode => rw [hb] at hleaf; exact hleaf rfl
            | leaf q n => rw [hb] at hleaf; exact hleaf rfl
            | aabb bounds child => exact hno bounds child hb
    · rfl

/-- C28 (opening pops the largest entry and stops at a leaf): `make_heap` leaves a
max-heap, and at the start of every iteration of the loop of `open_sequential` that
examines an entry `refs_` is a max-heap under the `BuildRef` ordering; the entry
`pop_heap` moves to the back is an entry of the array that no entry exceeds.  If its node
is a leaf the loop stops there, and `refs_` is left as a rearrangement of the array at
the start of that iteration.  The array `open_sequential` ends with is the array at the
end of the last such iteration. -/
theorem open_sequential_pops_maximum (H : HeapAlgorithms (BuildRef N V) K key)
    (extSize : Nat) (refs : List (BuildRef N V)) :
    is_heap key (H.make_heap refs) ∧
    (∀ fuel, ∀ p ∈ openSteps H extSize fuel (H.make_heap refs),
      is_heap key p.1 ∧
      ∃ back, (H.pop_heap p.1).getLast? = some back ∧ back ∈ p.1 ∧
        (∀ e ∈ p.1, key e ≤ key back) ∧
        (back.node.isLeaf = true →
          (∀ fuel', openLoop H extSize (fuel' + 1) p.1
            = ([H.pop_heap p.1], Outcome.finished)) ∧
          p.2 = H.pop_heap p.1 ∧ p.2.Perm p.1)) ∧
    (refs ≠ [] →
      (open_sequential H extSize refs).final
        = ((openSteps H extSize (BuildRef.aabbNodes refs + 1)
            (H.make_heap refs)).getLast?.map Prod.snd).getD (H.make_heap refs)) := by
  refine ⟨H.make_heap_heap refs, fun fuel p hp => ?_, fun hne => ?_⟩
  · obtain ⟨hh, _, back, hback, hhead, hperm, hmax, hleaf, _⟩ :=
      openSteps_spec H extSize fuel _ (H.make_heap_heap refs) p hp
    refine ⟨hh, back, hback, List.mem_of_mem_head? hhead, hmax, fun hl => ?_⟩
    obtain ⟨h2, hstop⟩ := hleaf hl
    exact ⟨hstop, h2, h2 ▸ hperm⟩
  · rw [open_sequential_of_nonempty H extSize refs (by
      intro h
      exact hne (List.length_eq_zero.mp h))]
    have h := openLoop_final_steps H extSize (BuildRef.aabbNodes refs + 1) _
      (H.make_heap_heap refs)
    generalize openLoop H extSize (BuildRef.aabbNodes refs + 1) (H.make_heap refs) = run at h ⊢
    simp only [OpenRun.final, finalState_cons]
    exact h

end OpeningSteps

/-! ## The general path of `build()` -/

section GeneralPath

variable {N : Nat} {V K : Type} [LinearOrder K] {key : BuildRef N V → K}
/-- The opening step on an array without references leaves it without references and
logs no SAH build. -/
theorem openRefs_nil (cfg : Config) (env : Collaborators N V K key) (ext : Nat)
    (s u : TwoLevel N V) (hnil : s.refs_ = []) (h : openRefs cfg env ext s = Except.ok u) :
    u.refs_ = [] ∧ Extends (fun e => e.isSAHBuild = false) s u := by
  unfold openRefs at h
  split at h
  · cases h
    exact ⟨hnil, extends_refl _ _⟩
  · split at h
    · split at h
      · cases h
        refine ⟨?_, extends_record _ _ ?_⟩
        · show (open_sequential env.heap ext s.refs_).final = []
          rw [hnil, open_sequential_of_empty env.heap ext [] rfl]
          rfl
        · intro e he
          rw [List.mem_singleton] at he
          subst he
          rfl
      · cases h
    · cases h
      exact ⟨hnil, extends_refl _ _⟩

variable [Lattice V] [BoundedOrder V]

/-- A `build()` that ends on the general path: the references are opened, then the
top-level part runs on them. -/
theorem build_general_inversion (cfg : Config) (env : Collaborators N V K key) (scene : Scene)
    (s t : TwoLevel N V) (hprims : scene.numPrimitives ≠ 0)
    (hbuild : build cfg env scene s = Except.ok t) (hmany : t.nextRef_ ≠ 1) :
    ∃ s3 u, s3.refs_ = emittedRefs env scene s ∧ s3.nextRef_ = s3.refs_.length ∧
      t.nextRef_ = s3.nextRef_ ∧
      Extends (fun e => e.isTopLevel = false) s s3 ∧
      openRefs cfg env (extSize cfg s3.refs_.length scene.numPrimitives) s3 = Except.ok u ∧
      t = installTopLevel cfg env scene.numPrimitives
        (extSize cfg s3.refs_.length scene.numPrimitives) u := by
  obtain ⟨s1, s3, hs1, hs3, htop⟩ := build_inversion cfg env scene s t hprims hbuild
  obtain ⟨hcur, hext⟩ := collectRefs_spec env scene s1 s3 hs3
  have hdel := (deletePhase_spec scene s s1 hs1).2.2.2.2
  have hlog := extends_trans (extends_mono hdel isTopLevel_of_isDeletion) hext
  have hn := topLevel_nextRef cfg env _ s3 t htop
  rw [hn] at hmany
  unfold topLevel at htop
  rw [if_neg hmany] at htop
  unfold generalPath at htop
  have htake : s3.refs_.take s3.nextRef_ = s3.refs_ := by
    rw [hcur]; exact List.take_length _
  rw [htake] at htop
  split at htop
  · cases htop
  · rename_i u hu
    cases htop
    exact ⟨s3, u, (emittedRefs_eq env scene s s1 s3 hs1 hs3).symm, hcur, hn, hlog, hu, rfl⟩

/-- C27 (no reference at all): when the scene has primitives but no object emitted a
`BuildRef` (`nextRef_ == 0`, so `pinfo.size() == 0`), a `build()` that ends has installed
`BVH::emptyNode` with empty bounds and primitive count 0, `refs_` is empty, and no call of
a binned SAH builder is among the calls it made; `open_sequential` on the empty array
returns at once, the array untouched. -/
theorem build_no_references (cfg : Config) (env : Collaborators N V K key) (scene : Scene)
    (s t : TwoLevel N V) (hprims : scene.numPrimitives ≠ 0)
    (hbuild : build cfg env scene s = Except.ok t) (hnone : t.nextRef_ = 0) :
    t.root = NodeRef.emptyNode ∧ t.bounds = BBox.empty ∧ t.numPrimitives = 0 ∧
    t.refs_ = [] ∧
    (∃ evs, t.log = s.log ++ evs ∧ ∀ e ∈ evs, e.isSAHBuild = false) ∧
    ∀ ext, open_sequential env.heap ext ([] : List (BuildRef N V))
      = ⟨[], [], Outcome.finished⟩ := by
  obtain ⟨s3, u, _, hcur, hn, hlog, hu, rfl⟩ :=
    build_general_inversion cfg env scene s t hprims hbuild (by omega)
  have hnil : s3.refs_ = [] := List.length_eq_zero.mp (by omega)
  obtain ⟨hunil, hulog⟩ := openRefs_nil cfg env _ s3 u hnil hu
  have hsah : Extends (fun e => e.isSAHBuild = false) s s3 :=
    extends_mono hlog (fun e he => by cases e <;> simp_all [Event.isTopLevel, Event.isSAHBuild])
  have hsu := extends_trans hsah hulog
  have hsize : (computePrimInfo u.refs_).size = 0 := by
    rw [hunil]
    rfl
  refine ⟨?_, ?_, ?_, ?_, ?_, fun ext => open_sequential_of_empty env.heap ext [] rfl⟩
  · unfold installTopLevel
    rw [if_pos hsize]
    rfl
  · unfold installTopLevel
    rw [if_pos hsize]
    rfl
  · unfold installTopLevel
    rw [if_pos hsize]
    rfl
  · unfold installTopLevel
    rw [if_pos hsize]
    split <;> exact hunil
  · obtain ⟨evs, hevs, hall⟩ := hsu
    refine ⟨evs, ?_, hall⟩
    unfold installTopLevel
    rw [if_pos hsize]
    split <;> exact hevs

/-- C26 (the top level only re-parents existing roots), for the build through
`BVHBuilderBinnedSAH` (the direct merge builder not compiled in): when `build()` ends on
the general path, `prims_` has the length of `refs_` and `prims_[i]` is
`PrimRef(refs_[i].bounds(), refs_[i].node)` for every `i`; the settings have
`minLeafSize = maxLeafSize = 1` and `branchingFactor = N`; the leaf callback applied to a
range starting at `i` returns `refs_[i].node`; and with at least one reference the root
installed is what the SAH builder returned for this callback, these primitives and these
settings. -/
theorem build_reparents_roots (cfg : Config) (env : Collaborators N V K key) (scene : Scene)
    (s t : TwoLevel N V) (hprims : scene.numPrimitives ≠ 0)
    (hbuild : build cfg env scene s = Except.ok t) (hmany : t.nextRef_ ≠ 1)
    (hdirect : cfg.ENABLE_DIRECT_SAH_MERGE_BUILDER = false) :
    t.prims_.length = t.refs_.length ∧
    (∀ (i : Nat) (r : BuildRef N V), t.refs_[i]? = some r →
      t.prims_[i]? = some (PrimRef.mk r.bounds r.node)) ∧
    (topLevelSettings N cfg).minLeafSize = 1 ∧ (topLevelSettings N cfg).maxLeafSize = 1 ∧
    (topLevelSettings N cfg).branchingFactor = N ∧
    (∀ (i : Nat) (r : BuildRef N V), t.refs_[i]? = some r →
      createLeaf t.prims_ i = some r.node) ∧
    (t.refs_ ≠ [] →
      t.root = env.buildBinnedSAH (createLeaf t.prims_) t.prims_ (computePrimInfo t.refs_)
        (topLevelSettings N cfg)) := by
  obtain ⟨s3, u, _, _, _, _, _, rfl⟩ :=
    build_general_inversion cfg env scene s t hprims hbuild hmany
  have hrefs : (installTopLevel cfg env scene.numPrimitives
      (extSize cfg s3.refs_.length scene.numPrimitives) u).refs_ = u.refs_ := by
    unfold installTopLevel
    split
    · split <;> rfl
    · split <;> rfl
  have hprim : (installTopLevel cfg env scene.numPrimitives
      (extSize cfg s3.refs_.length scene.numPrimitives) u).prims_ = primRefs u.refs_ := by
    unfold installTopLevel
    rw [hdirect]
    split <;> rfl
  rw [hrefs, hprim]
  refine ⟨by simp [primRefs], fun i r hi => ?_, rfl, rfl, rfl, fun i r hi => ?_, fun hne => ?_⟩
  · simp [primRefs, hi]
  · simp [createLeaf, primRefs, hi]
  · have hsize : ¬ (computePrimInfo u.refs_).size = 0 := by
      intro h
      exact hne (List.length_eq_zero.mp h)
    unfold installTopLevel
    rw [if_neg hsize, hdirect]
    rfl

/-- A build without references: the only mesh of the scene is disabled. -/
theorem build_no_references_witness :
    exampleIdleScene.numPrimitives ≠ 0 ∧
    build exampleConfig exampleEnv exampleIdleScene exampleInit
      = Except.ok (built exampleConfig exampleEnv exampleIdleScene exampleInit) ∧
    (built exampleConfig exampleEnv exampleIdleScene exampleInit).nextRef_ = 0 ∧
    (built exampleConfig exampleEnv exampleIdleScene exampleInit).root = NodeRef.emptyNode ∧
    (built exampleConfig exampleEnv exampleIdleScene exampleInit).numPrimitives = 0 :=
  ⟨by decide, rfl, by decide,
    (build_no_references exampleConfig exampleEnv exampleIdleScene exampleInit _ (by decide) rfl
      (by decide)).1,
    (build_no_references exampleConfig exampleEnv exampleIdleScene exampleInit _ (by decide) rfl
      (by decide)).2.2.1⟩

/-- The general path at work on the scene with two meshes. -/
theorem build_reparents_roots_witness :
    (exampleScene.numPrimitives ≠ 0 ∧
     build exampleConfig exampleEnv exampleScene exampleInit
       = Except.ok (built exampleConfig exampleEnv exampleScene exampleInit) ∧
     (built exampleConfig exampleEnv exampleScene exampleInit).nextRef_ ≠ 1 ∧
     exampleConfig.ENABLE_DIRECT_SAH_MERGE_BUILDER = false) ∧
    (built exampleConfig exampleEnv exampleScene exampleInit).prims_.length
      = (built exampleConfig exampleEnv exampleScene exampleInit).refs_.length :=
  ⟨⟨by decide, rfl, by decide, rfl⟩,
    (build_reparents_roots exampleConfig exampleEnv exampleScene exampleInit _ (by decide) rfl
      (by decide) rfl).1⟩

end GeneralPath

/-! ## The objects and builders of `build()` -/

section BuilderObjects

variable {N : Nat} {V K : Type} [LinearOrder K] {key : BuildRef N V → K}

theorem getD_set_ne {X : Type} (l : List (Option X)) (i j : Nat) (x : Option X) (h : i ≠ j) :
    (l.set i x).getD j none = l.getD j none := by
  simp [List.getD_eq_getElem?_getD, List.getElem?_set_ne h]

theorem getD_growTo {X : Type} (num j : Nat) (l : List (Option X)) :
    (growTo num l).getD j none = l.getD j none := by
  unfold growTo
  split
  · simp only [List.getD_eq_getElem?_getD]
    by_cases hj : j < l.length
    · rw [List.getElem?_append_left hj]
    · have hl : l[j]? = none := List.getElem?_eq_none (by omega)
      rw [List.getElem?_append_right (by omega), hl]
      cases h : (List.replicate (num - l.length) (none : Option X))[j - l.length]? with
      | none => rfl
      | some x =>
        have := List.getElem?_mem h
        rw [List.mem_replicate] at this
        rw [this.2]
        rfl
  · rfl

/-- A loop over objects keeps a relation that every one of its bodies keeps. -/
theorem forObjects_induction_mem (R : TwoLevel N V → TwoLevel N V → Prop)
    (hrefl : ∀ s, R s s) (htrans : ∀ s t u, R s t → R t u → R s u)
    (body : Nat → TwoLevel N V → Except Fault (TwoLevel N V)) :
    ∀ (is : List Nat), (∀ i ∈ is, ∀ s t, body i s = Except.ok t → R s t) →
      ∀ (s t : TwoLevel N V), forObjects body is s = Except.ok t → R s t := by
  intro is
  induction is with
  | nil =>
    intro _ s t h
    simp only [forObjects] at h
    cases h
    exact hrefl s
  | cons i is ih =>
    intro hbody s t h
    simp only [forObjects] at h
    cases hb : body i s with
    | error f => rw [hb] at h; cases h
    | ok u =>
      rw [hb] at h
      exact htrans s u t (hbody i (List.mem_cons_self _ _) s u hb)
        (ih (fun i' hi' => hbody i' (List.mem_cons_of_mem _ hi')) u t h)

theorem untouched_refl (j : Nat) (s : TwoLevel N V) : Untouched j s s :=
  ⟨rfl, rfl, extends_refl _ _⟩

theorem untouched_trans (j : Nat) (s t u : TwoLevel N V) (h1 : Untouched j s t)
    (h2 : Untouched j t u) : Untouched j s u :=
  ⟨h2.1.trans h1.1, h2.2.1.trans h1.2.1, extends_trans h1.2.2 h2.2.2⟩

/-- The deletion loop leaves alone every object that is not in its range, and nulls the
entries of its range. -/
theorem deleteObjects_frame :
    ∀ (is : List Nat) (s t : TwoLevel N V), deleteObjects is s = Except.ok t →
      t.objects.length = s.objects.length ∧
      (∀ j, j ∉ is → Untouched j s t) ∧
      (∀ j ∈ is, t.objects.getD j none = none) := by
  intro is
  induction is with
  | nil =>
    intro s t h
    simp only [deleteObjects] at h
    cases h
    exact ⟨rfl, fun j _ => untouched_refl j s, fun j hj => by cases hj⟩
  | cons i is ih =>
    intro s t h
    simp only [deleteObjects] at h
    split at h
    · cases h
    · obtain ⟨hlen, hun, hnull⟩ := ih _ t h
      refine ⟨?_, fun j hj => ?_, fun j hj => ?_⟩
      · rw [hlen]
        simp [TwoLevel.record]
      · have hij : i ≠ j := fun e => hj (e ▸ List.mem_cons_self _ _)
        have h1 := hun j (fun hm => hj (List.mem_cons_of_mem _ hm))
        refine untouched_trans j s
          ({ s with objects := s.objects.set i none }.record
            [Event.clearBuilder i, Event.deleteObject i]) t
          ⟨?_, rfl, ⟨[Event.clearBuilder i, Event.deleteObject i], rfl, ?_⟩⟩ h1
        · exact getD_set_ne _ i j none hij
        · intro e he
          simp only [List.mem_cons, List.mem_singleton, List.not_mem_nil, or_false] at he
          rcases he with rfl | rfl <;> simp [Event.objectID, hij]
      · by_cases hm : j ∈ is
        · exact hnull j hm
        · have hji : j = i := by
            rcases List.mem_cons.mp hj with h' | h'
            · exact h'
            · exact absurd h' hm
          subst hji
          rw [(hun j hm).1]
          simp only [TwoLevel.record, List.getD_eq_getElem?_getD]
          by_cases hlt : j < s.objects.length
          · rw [List.getElem?_set_self hlt]
            rfl
          · rw [List.getElem?_eq_none (by simp; omega)]
            rfl

/-- The deletion step of `build()`: the entries from the scene size on are nulled, every
object below the scene size is left alone. -/
theorem deletePhase_frame (scene : Scene) (s t : TwoLevel N V)
    (h : deletePhase scene s = Except.ok t) :
    t.objects.length = s.objects.length ∧
    (∀ j, j < scene.meshes.length → Untouched j s t) ∧
    (∀ j, scene.meshes.length ≤ j → j < s.objects.length → t.objects.getD j none = none) := by
  unfold deletePhase at h
  split at h
  · obtain ⟨hlen, hun, hnull⟩ := deleteObjects_frame _ s t h
    refine ⟨hlen, fun j hj => hun j ?_, fun j h1 h2 => hnull j ?_⟩
    · rw [List.mem_range']
      rintro ⟨k, _, rfl⟩
      omega
    · rw [List.mem_range']
      exact ⟨j - scene.meshes.length, by omega, by omega⟩
  · cases h
    exact ⟨rfl, fun j _ => untouched_refl j s, fun j h1 h2 => by omega⟩

theorem prepare_untouched (scene : Scene) (j : Nat) (s : TwoLevel N V) :
    Untouched j s (prepare scene s) :=
  ⟨getD_growTo _ j _, getD_growTo _ j _, ⟨[], by simp [prepare], by simp⟩⟩

/-- The set-up of an object leaves every other object alone. -/
theorem setupObject_untouched (scene : Scene) (i j : Nat) (hij : i ≠ j) (s t : TwoLevel N V)
    (h : setupObject N scene i s = Except.ok t) : Untouched j s t := by
  have hlarge : ∀ (mesh : Mesh) (u : TwoLevel N V), Untouched j u (createLarge i mesh u) := by
    intro mesh u
    refine ⟨getD_set_ne _ i j _ hij, getD_set_ne _ i j _ hij,
      ⟨[Event.createMeshAccel i, Event.newLargeBuilder i mesh.quality], rfl, ?_⟩⟩
    intro e he
    simp only [List.mem_cons, List.mem_singleton, List.not_mem_nil, or_false] at he
    rcases he with rfl | rfl <;> simp [Event.objectID, hij]
  unfold setupObject at h
  split at h
  · cases h; exact untouched_refl j s
  · split at h
    · cases h; exact untouched_refl j s
    · split at h
      · unfold setupLargeBuildRefBuilder at h
        split at h
        · cases h
          exact hlarge _ s
        · split at h
          · cases h
          · split at h
            · cases h
              refine untouched_trans j s (s.record [Event.deleteObject i]) _
                ⟨rfl, rfl, extends_record s _ ?_⟩ (hlarge _ _)
              intro e he
              rw [List.mem_singleton] at he
              subst he
              simp [Event.objectID, hij]
            · cases h; exact untouched_refl j s
      · cases h
        unfold setupSmallBuildRefBuilder
        split
        · refine ⟨rfl, getD_set_ne _ i j _ hij, ⟨[Event.newSmallBuilder i], rfl, ?_⟩⟩
          intro e he
          rw [List.mem_singleton] at he
          subst he
          simp [Event.objectID, hij]
        · exact untouched_refl j s

/-- The set-up loop passes over a missing mesh and over a mesh with several time steps. -/
theorem setupObject_skip (scene : Scene) (i : Nat) (s : TwoLevel N V)
    (h : ∀ mesh, scene.meshes.getD i none = some mesh → mesh.numTimeSteps ≠ 1) :
    setupObject N scene i s = Except.ok s := by
  unfold setupObject
  split
  · rfl
  · rename_i mesh hm
    rw [if_pos (h mesh hm)]

/-- The attach step of an object changes no sub-BVH and no builder, and appends the
contribution of the object, logging the call if the mesh is enabled and has one time
step. -/
theorem attachObject_frame (env : Collaborators N V K key) (scene : Scene) (i : Nat)
    (s t : TwoLevel N V) (h : attachObject env scene i s = Except.ok t) :
    t.objects = s.objects ∧ t.builders_ = s.builders_ ∧
    t.refs_ = s.refs_ ++ contribution env scene s.builders_ i ∧
    ∃ evs, t.log = s.log ++ evs ∧ (∀ e ∈ evs, e = Event.attachBuildRefs i) ∧
      (evs ≠ [] → ∃ mesh, scene.meshes.getD i none = some mesh ∧ mesh.isEnabled = true ∧
        mesh.numTimeSteps = 1) := by
  unfold attachObject at h
  split at h
  · rename_i hm
    cases h
    have hc : contribution env scene s.builders_ i = [] := by
      simp only [contribution, hm]
    rw [hc]
    exact ⟨rfl, rfl, by simp, [], by simp, by simp, fun hne => absurd rfl hne⟩
  · rename_i mesh hm
    split at h
    · rename_i hskip
      cases h
      have hc : contribution env scene s.builders_ i = [] := by
        simp only [contribution, hm, if_pos hskip]
      rw [hc]
      exact ⟨rfl, rfl, by simp, [], by simp, by simp, fun hne => absurd rfl hne⟩
    · rename_i hskip
      split at h
      · cases h
      · rename_i b hb
        cases h
        have hc : contribution env scene s.builders_ i = env.attachBuildRefs i b := by
          simp only [contribution, hm, if_neg hskip, hb]
        rw [hc]
        refine ⟨rfl, rfl, rfl, [Event.attachBuildRefs i], rfl, by simp,
          fun _ => ⟨mesh, hm, ?_, ?_⟩⟩
        · cases he : mesh.isEnabled with
          | true => rfl
          | false => exact absurd (Or.inl he) hskip
        · by_contra hc'
          exact hskip (Or.inr hc')

/-- The attach loop changes no sub-BVH and no builder, and appends the contributions of
its objects in order; it logs `attachBuildRefs` calls only, each for an enabled mesh with
one time step. -/
theorem attachLoop_frame (env : Collaborators N V K key) (scene : Scene) :
    ∀ (is : List Nat) (s t : TwoLevel N V),
      forObjects (attachObject env scene) is s = Except.ok t →
      t.objects = s.objects ∧ t.builders_ = s.builders_ ∧
      t.refs_ = s.refs_ ++ is.flatMap (contribution env scene s.builders_) ∧
      ∃ evs, t.log = s.log ++ evs ∧
        ∀ e ∈ evs, ∃ i mesh, e = Event.attachBuildRefs i ∧
          scene.meshes.getD i none = some mesh ∧ mesh.isEnabled = true ∧
          mesh.numTimeSteps = 1 := by
  intro is
  induction is with
  | nil =>
    intro s t h
    simp only [forObjects] at h
    cases h
    exact ⟨rfl, rfl, by simp, [], by simp, by simp⟩
  | cons i is ih =>
    intro s t h
    simp only [forObjects] at h
    cases hb : attachObject env scene i s with
    | error f => rw [hb] at h; cases h
    | ok u =>
      rw [hb] at h
      obtain ⟨a1, a2, a3, evs1, a4, a5, a6⟩ := attachObject_frame env scene i s u hb
      obtain ⟨b1, b2, b3, evs2, b4, b5⟩ := ih u t h
      refine ⟨b1.trans a1, b2.trans a2, ?_, evs1 ++ evs2, ?_, ?_⟩
      · rw [b3, a3, a2]
        simp
      · rw [b4, a4, List.append_assoc]
      · intro e he
        rcases List.mem_append.mp he with he | he
        · obtain ⟨mesh, hm, h1, h2⟩ := a6 (List.ne_nil_of_mem he)
          exact ⟨i, mesh, a5 e he, hm, h1, h2⟩
        · exact b5 e he

/-- The set-up of an object stores no reference and logs no `attachBuildRefs`. -/
theorem setupObject_refs (scene : Scene) (i : Nat) (s t : TwoLevel N V)
    (h : setupObject N scene i s = Except.ok t) :
    (t.refs_ = s.refs_ ∧ t.objects.length = s.objects.length) ∧
    Extends (fun e => ∀ k, e ≠ Event.attachBuildRefs k) s t := by
  unfold setupObject at h
  split at h
  · cases h; exact ⟨⟨rfl, rfl⟩, extends_refl _ _⟩
  · rename_i mesh hm
    split at h
    · cases h; exact ⟨⟨rfl, rfl⟩, extends_refl _ _⟩
    · split at h
      · unfold setupLargeBuildRefBuilder at h
        split at h
        · cases h
          exact ⟨⟨rfl, by simp [createLarge, TwoLevel.record]⟩, ⟨_, rfl, by simp⟩⟩
        · split at h
          · cases h
          · split at h
            · cases h
              exact ⟨⟨rfl, by simp [createLarge, TwoLevel.record]⟩,
                ⟨[Event.deleteObject i, Event.createMeshAccel i,
                Event.newLargeBuilder i mesh.quality],
                by simp [createLarge, TwoLevel.record], by simp⟩⟩
            · cases h; exact ⟨⟨rfl, rfl⟩, extends_refl _ _⟩
      · cases h
        unfold setupSmallBuildRefBuilder
        split
        · exact ⟨⟨rfl, rfl⟩, ⟨_, rfl, by simp⟩⟩
        · exact ⟨⟨rfl, rfl⟩, extends_refl _ _⟩

/-- The top-level part of `build()` changes no sub-BVH and no builder, and logs calls of
the opening step and of the SAH builders only. -/
theorem topLevel_frame [Lattice V] [BoundedOrder V] (cfg : Config)
    (env : Collaborators N V K key) (n : Nat) (s t : TwoLevel N V)
    (h : topLevel cfg env n s = Except.ok t) :
    t.objects = s.objects ∧ t.builders_ = s.builders_ ∧
    Extends (fun e => e.isTopLevel = true) s t := by
  unfold topLevel at h
  split at h
  · split at h
    · cases h; exact ⟨rfl, rfl, extends_refl _ _⟩
    · cases h
  · unfold generalPath at h
    split at h
    · cases h
    · rename_i u hu
      cases h
      have hu2 : u.objects = s.objects ∧ u.builders_ = s.builders_ ∧
          Extends (fun e => e.isTopLevel = true) s u := by
        unfold openRefs at hu
        split at hu
        · cases hu; exact ⟨rfl, rfl, ⟨[], by simp, by simp⟩⟩
        · split at hu
          · split at hu
            · cases hu
              exact ⟨rfl, rfl, ⟨[Event.open_sequential _], rfl, by simp [Event.isTopLevel]⟩⟩
            · cases hu
          · cases hu; exact ⟨rfl, rfl, ⟨[], by simp, by simp⟩⟩
      obtain ⟨c1, c2, c3⟩ := hu2
      have hi : ∀ w : TwoLevel N V,
          (installTopLevel cfg env n
            (extSize cfg (s.refs_.take s.nextRef_).length n) w).objects = w.objects ∧
          (installTopLevel cfg env n
            (extSize cfg (s.refs_.take s.nextRef_).length n) w).builders_ = w.builders_ ∧
          Extends (fun e => e.isTopLevel = true) w
            (installTopLevel cfg env n (extSize cfg (s.refs_.take s.nextRef_).length n) w) := by
        intro w
        unfold installTopLevel
        split
        · split
          · exact ⟨rfl, rfl, ⟨[], by simp [TwoLevel.set], by simp⟩⟩
          · exact ⟨rfl, rfl, ⟨[], by simp [TwoLevel.set], by simp⟩⟩
        · split
          · exact ⟨rfl, rfl, ⟨[Event.buildBinnedOpenMergeSAH _], rfl,
              by simp [Event.isTopLevel]⟩⟩
          · exact ⟨rfl, rfl, ⟨[Event.buildBinnedSAH _], rfl, by simp [Event.isTopLevel]⟩⟩
      obtain ⟨d1, d2, d3⟩ := hi u
      exact ⟨d1.trans c1, d2.trans c2, extends_trans c3 d3⟩

/-- The parts a `build()` that ends has gone through. -/
theorem build_phases [Lattice V] [BoundedOrder V] (cfg : Config)
    (env : Collaborators N V K key) (scene : Scene) (s t : TwoLevel N V)
    (hbuild : build cfg env scene s = Except.ok t) :
    ∃ s1, deletePhase scene s = Except.ok s1 ∧
      ((scene.numPrimitives = 0 ∧ t = skipEmptyScene s1) ∨
       (scene.numPrimitives ≠ 0 ∧ ∃ s2 s3,
          forObjects (setupObject N scene) (List.range scene.meshes.length) (prepare scene s1)
            = Except.ok s2 ∧
          forObjects (attachObject env scene) (List.range scene.meshes.length) s2
            = Except.ok s3 ∧
          collectRefs env scene s1 = Except.ok s3 ∧
          topLevel cfg env scene.numPrimitives s3 = Except.ok t)) := by
  by_cases hprims : scene.numPrimitives = 0
  · unfold build at hbuild
    cases h1 : deletePhase scene s with
    | error f => rw [h1] at hbuild; cases hbuild
    | ok s1 =>
      rw [h1] at hbuild
      simp only [if_pos hprims] at hbuild
      cases hbuild
      exact ⟨s1, rfl, Or.inl ⟨hprims, rfl⟩⟩
  · obtain ⟨s1, s3, hs1, hs3, htop⟩ := build_inversion cfg env scene s t hprims hbuild
    refine ⟨s1, hs1, Or.inr ⟨hprims, ?_⟩⟩
    have hc := hs3
    unfold collectRefs at hc
    cases h2 : forObjects (setupObject N scene) (List.range scene.meshes.length)
        (prepare scene s1) with
    | error f => rw [h2] at hc; cases hc
    | ok s2 =>
      rw [h2] at hc
      exact ⟨s2, s3, rfl, hc, hs3, htop⟩

end BuilderObjects

/-! ## Which objects `build()` sets up, attaches and drops -/

section BuilderObjectTheorems

variable {N : Nat} {V K : Type} [LinearOrder K] {key : BuildRef N V → K}
variable [Lattice V] [BoundedOrder V]

/-- C22, evaluated: a disabled mesh is not skipped by the set-up loop.  In
`exampleDisabledScene` mesh 0 is disabled (five primitives, one time step); `build()`
creates a sub-BVH and a large builder for it, and calls `attachBuildRefs` for mesh 1
only. -/
theorem build_sets_up_disabled_mesh :
    exampleDisabledScene.meshes[0]? = some (some ⟨5, 1, false, 0⟩) ∧
    exampleInit.builders_.getD 0 none = none ∧ exampleInit.objects.getD 0 none = none ∧
    build exampleConfig exampleEnv exampleDisabledScene exampleInit
      = Except.ok (built exampleConfig exampleEnv exampleDisabledScene exampleInit) ∧
    (built exampleConfig exampleEnv exampleDisabledScene exampleInit).builders_.getD 0 none
      = some (RefBuilder.large 0 0) ∧
    (built exampleConfig exampleEnv exampleDisabledScene exampleInit).objects.getD 0 none
      = some 0 ∧
    (built exampleConfig exampleEnv exampleDisabledScene exampleInit).log
      = [Event.createMeshAccel 0, Event.newLargeBuilder 0 0, Event.newSmallBuilder 1,
         Event.attachBuildRefs 1] :=
  ⟨by decide, by decide, by decide, rfl, by decide, by decide, by decide⟩

/-- C22, amended: a mesh with `numTimeSteps != 1` is skipped entirely by a `build()` that
ends: its sub-BVH and its builder are as before and no call is made for it; a mesh that
is disabled or has `numTimeSteps != 1` gets no `attachBuildRefs` call and contributes no
`BuildRef`; the references emitted are the contributions of the objects, in order. -/
theorem build_skips_unsupported (cfg : Config) (env : Collaborators N V K key) (scene : Scene)
    (s t : TwoLevel N V) (j : Nat) (mesh : Mesh)
    (hbuild : build cfg env scene s = Except.ok t)
    (hmesh : scene.meshes[j]? = some (some mesh)) :
    (mesh.numTimeSteps ≠ 1 →
      t.objects.getD j none = s.objects.getD j none ∧
      t.builders_.getD j none = s.builders_.getD j none ∧
      ∃ evs, t.log = s.log ++ evs ∧ ∀ e ∈ evs, e.objectID ≠ some j) ∧
    ((mesh.isEnabled = false ∨ mesh.numTimeSteps ≠ 1) →
      (∃ evs, t.log = s.log ++ evs ∧ ∀ e ∈ evs, e ≠ Event.attachBuildRefs j) ∧
      contribution env scene t.builders_ j = []) ∧
    (scene.numPrimitives ≠ 0 →
      emittedRefs env scene s
        = (List.range scene.meshes.length).flatMap (contribution env scene t.builders_)) := by
  have hj : j < scene.meshes.length := by
    by_contra hc
    rw [List.getElem?_eq_none (by omega)] at hmesh
    cases hmesh
  have hget : scene.meshes.getD j none = some mesh := by
    rw [List.getD_eq_getElem?_getD, hmesh]
    rfl
  have hcontrib : ∀ b, (mesh.isEnabled = false ∨ mesh.numTimeSteps ≠ 1) →
      contribution env scene b j = [] := by
    intro b hskip
    simp only [contribution, hget, if_pos hskip]
  obtain ⟨s1, hs1, hrest⟩ := build_phases cfg env scene s t hbuild
  obtain ⟨_, hdel, _⟩ := deletePhase_frame scene s s1 hs1
  have hdelev := (deletePhase_spec scene s s1 hs1).2.2.2.2
  have hdel_attach : Extends (fun e => e ≠ Event.attachBuildRefs j) s s1 :=
    extends_mono hdelev (fun e he => by cases e <;> simp_all [Event.isDeletion])
  rcases hrest with ⟨h0, rfl⟩ | ⟨hprims, s2, s3, h2, h3, hs3, htop⟩
  · refine ⟨fun _ => hdel j hj, fun hskip => ⟨hdel_attach, hcontrib _ hskip⟩,
      fun hne => absurd h0 hne⟩
  · obtain ⟨a1, a2, a3, aevs, a4, a5⟩ := attachLoop_frame env scene _ s2 s3 h3
    obtain ⟨t1, t2, t3⟩ := topLevel_frame cfg env _ s3 t htop
    have hsetup := forObjects_induction
      (fun u v : TwoLevel N V => (v.refs_ = u.refs_ ∧ v.objects.length = u.objects.length) ∧
        Extends (fun e => ∀ k, e ≠ Event.attachBuildRefs k) u v)
      (fun u => ⟨⟨rfl, rfl⟩, extends_refl _ _⟩)
      (fun u v w h1 h2 => ⟨⟨h2.1.1.trans h1.1.1, h2.1.2.trans h1.1.2⟩,
        extends_trans h1.2 h2.2⟩)
      _ (setupObject_refs scene) _ _ _ h2
    refine ⟨fun hmulti => ?_, fun hskip => ⟨?_, hcontrib _ hskip⟩, fun _ => ?_⟩
    · have u2 : Untouched j (prepare scene s1) s2 :=
        forObjects_induction_mem (Untouched j) (untouched_refl j) (untouched_trans j) _ _
          (fun i _ u v hb => by
            by_cases hij : i = j
            · subst hij
              rw [setupObject_skip scene i u (fun m hm => by
                rw [hget] at hm
                cases hm
                exact hmulti)] at hb
              cases hb
              exact untouched_refl i u
            · exact setupObject_untouched scene i j hij u v hb) _ _ h2
      have u3 : Untouched j s2 s3 :=
        ⟨by rw [a1], by rw [a2], ⟨aevs, a4, fun e he => by
          obtain ⟨i, m, rfl, hm, _, hone⟩ := a5 e he
          simp only [Event.objectID, ne_eq, Option.some.injEq]
          intro hij
          subst hij
          rw [hget] at hm
          cases hm
          exact hmulti hone⟩⟩
      have u4 : Untouched j s3 t :=
        ⟨by rw [t1], by rw [t2],
          extends_mono t3 (fun e he => by cases e <;> simp_all [Event.isTopLevel, Event.objectID])⟩
      exact untouched_trans j _ _ _ (hdel j hj)
        (untouched_trans j _ _ _ (prepare_untouched scene j s1)
          (untouched_trans j _ _ _ u2 (untouched_trans j _ _ _ u3 u4)))
    · have e1 : Extends (fun e => e ≠ Event.attachBuildRefs j) s1 (prepare scene s1) :=
        ⟨[], by simp [prepare], by simp⟩
      have e2 : Extends (fun e => e ≠ Event.attachBuildRefs j) (prepare scene s1) s2 :=
        extends_mono hsetup.2 (fun e he => he j)
      have e3 : Extends (fun e => e ≠ Event.attachBuildRefs j) s2 s3 :=
        ⟨aevs, a4, fun e he => by
          obtain ⟨i, m, rfl, hm, hen, hone⟩ := a5 e he
          intro hij
          cases hij
          rw [hget] at hm
          cases hm
          rcases hskip with hd | hd
          · rw [hd] at hen
            cases hen
          · exact hd hone⟩
      have e4 : Extends (fun e => e ≠ Event.attachBuildRefs j) s3 t :=
        extends_mono t3 (fun e he => by cases e <;> simp_all [Event.isTopLevel])
      exact extends_trans hdel_attach (extends_trans e1 (extends_trans e2 (extends_trans e3 e4)))
    · rw [emittedRefs_eq env scene s s1 s3 hs1 hs3, a3, hsetup.1.1, t2, a2]
      simp [prepare]

/-- The skipping at work: the disabled mesh 0 of `exampleDisabledScene` gets no
`attachBuildRefs` call and contributes no reference. -/
theorem build_skips_unsupported_witness :
    (build exampleConfig exampleEnv exampleDisabledScene exampleInit
        = Except.ok (built exampleConfig exampleEnv exampleDisabledScene exampleInit) ∧
     exampleDisabledScene.meshes[0]? = some (some ⟨5, 1, false, 0⟩)) ∧
    (∃ evs, (built exampleConfig exampleEnv exampleDisabledScene exampleInit).log
        = exampleInit.log ++ evs ∧ ∀ e ∈ evs, e ≠ Event.attachBuildRefs 0) ∧
    contribution exampleEnv exampleDisabledScene
      (built exampleConfig exampleEnv exampleDisabledScene exampleInit).builders_ 0 = [] :=
  ⟨⟨rfl, by decide⟩,
    (build_skips_unsupported exampleConfig exampleEnv exampleDisabledScene exampleInit _ 0
      ⟨5, 1, false, 0⟩ rfl (by decide)).2.1 (Or.inl rfl)⟩

/-- C23, evaluated: a mesh that shrinks keeps its large builder.  The first build gives
mesh 0 of `exampleScene` (five primitives, `N = 2`) a large builder; in the next build
mesh 0 has one primitive, `setupSmallBuildRefBuilder` finds `builders_[0]` non-null and
leaves it, and the build ends with the large builder and the sub-BVH still in place.  The
other way round the builder is replaced: mesh 1, grown from one primitive to five, gets a
large builder in place of its small one. -/
theorem build_keeps_large_builder :
    (built exampleConfig exampleEnv exampleScene exampleInit).builders_.getD 0 none
      = some (RefBuilder.large 0 0) ∧
    exampleShrunkScene.meshes[0]? = some (some ⟨1, 1, true, 0⟩) ∧
    build exampleConfig exampleEnv exampleShrunkScene
        (built exampleConfig exampleEnv exampleScene exampleInit)
      = Except.ok (built exampleConfig exampleEnv exampleShrunkScene
          (built exampleConfig exampleEnv exampleScene exampleInit)) ∧
    (built exampleConfig exampleEnv exampleShrunkScene
        (built exampleConfig exampleEnv exampleScene exampleInit)).builders_.getD 0 none
      = some (RefBuilder.large 0 0) ∧
    (built exampleConfig exampleEnv exampleShrunkScene
        (built exampleConfig exampleEnv exampleScene exampleInit)).objects.getD 0 none
      = some 0 ∧
    setupSmallBuildRefBuilder 0 (built exampleConfig exampleEnv exampleScene exampleInit)
      = built exampleConfig exampleEnv exampleScene exampleInit ∧
    (built exampleConfig exampleEnv exampleScene exampleInit).builders_.getD 1 none
      = some (RefBuilder.small 1) ∧
    (built exampleConfig exampleEnv exampleGrownScene
        (built exampleConfig exampleEnv exampleScene exampleInit)).builders_.getD 1 none
      = some (RefBuilder.large 1 0) :=
  ⟨by decide, by decide, rfl, by decide, by decide, rfl, by decide, by decide⟩

/-- C24 (removed objects are dropped): after a `build()` that ends, every entry of
`bvh_->objects` from the scene size `num` up to the old size is null, also when the build
returns early for a scene without primitives; the deletion step leaves every entry below
`num` as it was and makes no call for it, and it goes through when each of the builders
it clears exists.  `deleteGeometry(geomID)` does nothing for `geomID >=
bvh_->objects.size()`, and otherwise, when it returns, it has nulled `objects[geomID]` and
left the other entries alone; it returns when `builders_` has an entry for `geomID`. -/
theorem build_drops_removed (cfg : Config) (env : Collaborators N V K key) (scene : Scene)
    (s : TwoLevel N V) :
    (∀ t, build cfg env scene s = Except.ok t →
      ∀ i, scene.meshes.length ≤ i → i < s.objects.length →
        i < t.objects.length ∧ t.objects.getD i none = none) ∧
    (∀ s1, deletePhase scene s = Except.ok s1 → ∀ j, j < scene.meshes.length →
      s1.objects.getD j none = s.objects.getD j none ∧
      ∃ evs, s1.log = s.log ++ evs ∧ ∀ e ∈ evs, e.objectID ≠ some j) ∧
    ((∀ i, scene.meshes.length ≤ i → i < s.objects.length →
        ∃ b, s.builders_.getD i none = some b) →
      ∃ s1, deletePhase scene s = Except.ok s1) ∧
    (∀ geomID, s.objects.length ≤ geomID → deleteGeometry geomID s = Except.ok s) ∧
    (∀ geomID t, geomID < s.objects.length → deleteGeometry geomID s = Except.ok t →
      t.objects.length = s.objects.length ∧ t.objects.getD geomID none = none ∧
      ∀ j, j ≠ geomID → t.objects.getD j none = s.objects.getD j none) ∧
    (∀ geomID, geomID < s.objects.length → geomID < s.builders_.length →
      ∃ t, deleteGeometry geomID s = Except.ok t) := by
  refine ⟨fun t hbuild i h1 h2 => ?_, fun s1 hs1 j hj => ?_, fun hb => ?_,
    fun geomID hge => ?_, fun geomID t hlt hdel => ?_, fun geomID hlt hbl => ?_⟩
  · obtain ⟨s1, hs1, hrest⟩ := build_phases cfg env scene s t hbuild
    obtain ⟨hlen, _, hnull⟩ := deletePhase_frame scene s s1 hs1
    rcases hrest with ⟨_, rfl⟩ | ⟨_, s2, s3, h2', h3, _, htop⟩
    · exact ⟨by show i < s1.objects.length; omega, hnull i h1 h2⟩
    · obtain ⟨a1, _, _, _⟩ := attachLoop_frame env scene _ s2 s3 h3
      obtain ⟨t1, _, _⟩ := topLevel_frame cfg env _ s3 t htop
      have hsetup := forObjects_induction
        (fun u v : TwoLevel N V => (v.refs_ = u.refs_ ∧ v.objects.length = u.objects.length) ∧
          Extends (fun e => ∀ k, e ≠ Event.attachBuildRefs k) u v)
        (fun u => ⟨⟨rfl, rfl⟩, extends_refl _ _⟩)
        (fun u v w h1 h2 => ⟨⟨h2.1.1.trans h1.1.1, h2.1.2.trans h1.1.2⟩,
          extends_trans h1.2 h2.2⟩)
        _ (setupObject_refs scene) _ _ _ h2'
      have u2 : Untouched i (prepare scene s1) s2 :=
        forObjects_induction_mem (Untouched i) (untouched_refl i) (untouched_trans i) _ _
          (fun i' hi' u v hb => by
            have : i' < scene.meshes.length := List.mem_range.mp hi'
            exact setupObject_untouched scene i' i (by omega) u v hb) _ _ h2'
      have hprep : (prepare scene s1).objects.length = s1.objects.length := by
        simp only [prepare, growTo]
        rw [if_neg (by omega)]
      rw [t1, a1]
      refine ⟨by rw [hsetup.1.2, hprep]; omega, ?_⟩
      rw [u2.1, (prepare_untouched scene i s1).1]
      exact hnull i h1 h2
  · obtain ⟨_, hun, _⟩ := deletePhase_frame scene s s1 hs1
    exact ⟨(hun j hj).1, (hun j hj).2.2⟩
  · unfold deletePhase
    split
    · have hall : ∀ (is : List Nat) (u : TwoLevel N V),
          (∀ i ∈ is, ∃ b, u.builders_.getD i none = some b) →
          ∃ s1, deleteObjects is u = Except.ok s1 := by
        intro is
        induction is with
        | nil => exact fun u _ => ⟨u, rfl⟩
        | cons i is ih =>
          intro u hu
          obtain ⟨b, hbi⟩ := hu i (List.mem_cons_self _ _)
          simp only [deleteObjects, hbi]
          exact ih _ (fun i' hi' => hu i' (List.mem_cons_of_mem _ hi'))
      refine hall _ s (fun i hi => ?_)
      rw [List.mem_range'] at hi
      obtain ⟨k, hk, rfl⟩ := hi
      exact hb _ (by omega) (by omega)
    · exact ⟨s, rfl⟩
  · unfold deleteGeometry
    rw [if_pos hge]
  · unfold deleteGeometry at hdel
    rw [if_neg (by omega)] at hdel
    have hset : (s.objects.set geomID none).getD geomID none = none := by
      rw [List.getD_eq_getElem?_getD, List.getElem?_set_self hlt]
      rfl
    split at hdel
    · cases hdel
    · cases hdel
      exact ⟨by simp [TwoLevel.record], hset,
        fun j hj => getD_set_ne _ geomID j none (fun e => hj e.symm)⟩
    · cases hdel
      exact ⟨by simp [TwoLevel.record], hset,
        fun j hj => getD_set_ne _ geomID j none (fun e => hj e.symm)⟩
  · unfold deleteGeometry
    rw [if_neg (by omega)]
    have hsome : s.builders_[geomID]? = some (s.builders_[geomID]) :=
      List.getElem?_eq_getElem hbl
    rw [hsome]
    cases s.builders_[geomID] with
    | none => exact ⟨_, rfl⟩
    | some b => exact ⟨_, rfl⟩

/-- The dropping at work: the empty scene after the scene with two meshes. -/
theorem build_drops_removed_witness :
    build exampleConfig exampleEnv exampleEmptyScene
        (built exampleConfig exampleEnv exampleScene exampleInit)
      = Except.ok (built exampleConfig exampleEnv exampleEmptyScene
          (built exampleConfig exampleEnv exampleScene exampleInit)) ∧
    (built exampleConfig exampleEnv exampleScene exampleInit).objects.getD 0 none = some 0 ∧
    (built exampleConfig exampleEnv exampleEmptyScene
        (built exampleConfig exampleEnv exampleScene exampleInit)).objects.getD 0 none = none :=
  ⟨rfl, by decide,
    ((build_drops_removed exampleConfig exampleEnv exampleEmptyScene
      (built exampleConfig exampleEnv exampleScene exampleInit)).1 _ rfl 0
      (by decide) (by decide)).2⟩

end BuilderObjectTheorems

/-! ## The grid subtree builder: block layout -/

section GridLayoutBasics

variable {T : Type}

theorem finRange_four : List.finRange 4 = [0, 1, 2, 3] := by decide

/-- A sum over the four slots of a node whose first slots hold the results `ts`. -/
theorem sum_slots (g : GridNode T → Nat) (hg : g GridNode.emptyNode = 0)
    (ts : List (SubTree T)) (hlen : ts.length ≤ 4) :
    ((List.finRange 4).map fun k : Fin 4 =>
        g ((ts[k.val]?.map fun t => t.curNode).getD GridNode.emptyNode)).sum
      = (ts.map fun t => g t.curNode).sum := by
  rw [finRange_four]
  have h3 : ((3 : Fin 4) : Nat) = 3 := rfl
  match ts, hlen with
  | [], _ => simp [hg]
  | [a], _ => simp [hg, h3]
  | [a, b], _ => simp [hg, h3]
  | [a, b, c], _ => simp [hg, h3]
  | [a, b, c, d], _ => simp [h3]
  | _ :: _ :: _ :: _ :: _ :: _, h => simp at h

end GridLayoutBasics
section GridLayoutTheorems

variable {T : Type} [Lattice T] [BoundedOrder T]

end GridLayoutTheorems

/-! ## Interval arithmetic -/

section IntervalArithmetic

variable {V : Type} [LinearOrderedRing V]

/-- A product with a factor between two bounds lies between the products with the
bounds. -/
theorem mul_between_left (l u x c : V) (h1 : l ≤ x) (h2 : x ≤ u) :
    min (l * c) (u * c) ≤ x * c ∧ x * c ≤ max (l * c) (u * c) := by
  rcases le_total 0 c with hc | hc
  · exact ⟨(min_le_left _ _).trans (mul_le_mul_of_nonneg_right h1 hc),
      (mul_le_mul_of_nonneg_right h2 hc).trans (le_max_right _ _)⟩
  · exact ⟨(min_le_right _ _).trans (mul_le_mul_of_nonpos_right h2 hc),
      (mul_le_mul_of_nonpos_right h1 hc).trans (le_max_left _ _)⟩

theorem mul_between_right (l u y c : V) (h1 : l ≤ y) (h2 : y ≤ u) :
    min (c * l) (c * u) ≤ c * y ∧ c * y ≤ max (c * l) (c * u) := by
  rcases le_total 0 c with hc | hc
  · exact ⟨(min_le_left _ _).trans (mul_le_mul_of_nonneg_left h1 hc),
      (mul_le_mul_of_nonneg_left h2 hc).trans (le_max_right _ _)⟩
  · exact ⟨(min_le_right _ _).trans (mul_le_mul_of_nonpos_left h2 hc),
      (mul_le_mul_of_nonpos_left h1 hc).trans (le_max_left _ _)⟩

/-- The product of two intervals contains the products of their points. -/
theorem interval_mul_mem (a b : Interval V) (x y : V)
    (hx : a.lower ≤ x ∧ x ≤ a.upper) (hy : b.lower ≤ y ∧ y ≤ b.upper) :
    (a.mul b).lower ≤ x * y ∧ x * y ≤ (a.mul b).upper := by
  obtain ⟨h1, h2⟩ := mul_between_left a.lower a.upper x y hx.1 hx.2
  obtain ⟨h3, h4⟩ := mul_between_right b.lower b.upper y a.lower hy.1 hy.2
  obtain ⟨h5, h6⟩ := mul_between_right b.lower b.upper y a.upper hy.1 hy.2
  constructor
  · refine le_trans ?_ h1
    exact le_min ((min_le_left _ _).trans h3) ((min_le_right _ _).trans h5)
  · refine le_trans h2 ?_
    exact max_le (h4.trans (le_max_left _ _)) (h6.trans (le_max_right _ _))

/-- The bounds of a product are products of endpoints. -/
theorem interval_mul_attained (a b : Interval V) :
    (∃ p q, (p = a.lower ∨ p = a.upper) ∧ (q = b.lower ∨ q = b.upper) ∧
      (a.mul b).lower = p * q) ∧
    (∃ p q, (p = a.lower ∨ p = a.upper) ∧ (q = b.lower ∨ q = b.upper) ∧
      (a.mul b).upper = p * q) := by
  constructor
  · show ∃ p q, _ ∧ _ ∧ Interval.min4 _ _ _ _ = p * q
    unfold Interval.min4
    rcases min_choice (min (a.lower * b.lower) (a.lower * b.upper))
        (min (a.upper * b.lower) (a.upper * b.upper)) with h | h <;> rw [h]
    · rcases min_choice (a.lower * b.lower) (a.lower * b.upper) with h' | h' <;> rw [h']
      · exact ⟨_, _, Or.inl rfl, Or.inl rfl, rfl⟩
      · exact ⟨_, _, Or.inl rfl, Or.inr rfl, rfl⟩
    · rcases min_choice (a.upper * b.lower) (a.upper * b.upper) with h' | h' <;> rw [h']
      · exact ⟨_, _, Or.inr rfl, Or.inl rfl, rfl⟩
      · exact ⟨_, _, Or.inr rfl, Or.inr rfl, rfl⟩
  · show ∃ p q, _ ∧ _ ∧ Interval.max4 _ _ _ _ = p * q
    unfold Interval.max4
    rcases max_choice (max (a.lower * b.lower) (a.lower * b.upper))
        (max (a.upper * b.lower) (a.upper * b.upper)) with h | h <;> rw [h]
    · rcases max_choice (a.lower * b.lower) (a.lower * b.upper) with h' | h' <;> rw [h']
      · exact ⟨_, _, Or.inl rfl, Or.inl rfl, rfl⟩
      · exact ⟨_, _, Or.inl rfl, Or.inr rfl, rfl⟩
    · rcases max_choice (a.upper * b.lower) (a.upper * b.upper) with h' | h' <;> rw [h']
      · exact ⟨_, _, Or.inr rfl, Or.inl rfl, rfl⟩
      · exact ⟨_, _, Or.inr rfl, Or.inr rfl, rfl⟩

/-- C33 (interval arithmetic is an enclosure): over a linearly ordered ring (an exact
ordered field, or the integers), for intervals `a` and `b` with a point `x` of `a`
(`a.lower ≤ x ≤ a.upper`) and a point `y` of `b`, so that neither is empty, `x + y` lies
in `a + b`, `x - y` in `a - b` and `x * y` in `a * b`; both bounds of `a * b` are products
of an endpoint of `a` with an endpoint of `b`, and every interval that contains all the
products of a point of `a` with a point of `b` contains `a * b`. -/
theorem interval_arithmetic_enclosure (a b : Interval V) (x y : V)
    (hx : a.lower ≤ x ∧ x ≤ a.upper) (hy : b.lower ≤ y ∧ y ≤ b.upper) :
    (a.empty = false ∧ b.empty = false) ∧
    ((a.add b).lower ≤ x + y ∧ x + y ≤ (a.add b).upper) ∧
    ((a.sub b).lower ≤ x - y ∧ x - y ≤ (a.sub b).upper) ∧
    ((a.mul b).lower ≤ x * y ∧ x * y ≤ (a.mul b).upper) ∧
    (∃ p q, (p = a.lower ∨ p = a.upper) ∧ (q = b.lower ∨ q = b.upper) ∧
      (a.mul b).lower = p * q) ∧
    (∃ p q, (p = a.lower ∨ p = a.upper) ∧ (q = b.lower ∨ q = b.upper) ∧
      (a.mul b).upper = p * q) ∧
    ∀ c : Interval V,
      (∀ x' y', a.lower ≤ x' ∧ x' ≤ a.upper → b.lower ≤ y' ∧ y' ≤ b.upper →
        c.lower ≤ x' * y' ∧ x' * y' ≤ c.upper) →
      c.lower ≤ (a.mul b).lower ∧ (a.mul b).upper ≤ c.upper := by
  have ha : a.lower ≤ a.upper := hx.1.trans hx.2
  have hb : b.lower ≤ b.upper := hy.1.trans hy.2
  refine ⟨⟨by simp [Interval.empty, ha], by simp [Interval.empty, hb]⟩,
    ⟨add_le_add hx.1 hy.1, add_le_add hx.2 hy.2⟩,
    ⟨sub_le_sub hx.1 hy.2, sub_le_sub hx.2 hy.1⟩, interval_mul_mem a b x y hx hy,
    (interval_mul_attained a b).1, (interval_mul_attained a b).2, fun c hc => ?_⟩
  have hmem : ∀ p q, (p = a.lower ∨ p = a.upper) → (q = b.lower ∨ q = b.upper) →
      c.lower ≤ p * q ∧ p * q ≤ c.upper := by
    intro p q hp hq
    apply hc
    · rcases hp with rfl | rfl
      · exact ⟨le_refl _, ha⟩
      · exact ⟨ha, le_refl _⟩
    · rcases hq with rfl | rfl
      · exact ⟨le_refl _, hb⟩
      · exact ⟨hb, le_refl _⟩
  obtain ⟨⟨p, q, hp, hq, e⟩, ⟨p', q', hp', hq', e'⟩⟩ := interval_mul_attained a b
  rw [e, e']
  exact ⟨(hmem p q hp hq).1, (hmem p' q' hp' hq').2⟩

/-- The enclosure on integers: `[-1, 2] * [3, 4] = [-4, 8]` contains `1 * 3`. -/
theorem interval_arithmetic_enclosure_witness :
    (((-1 : Int) ≤ 1 ∧ (1 : Int) ≤ 2) ∧ ((3 : Int) ≤ 3 ∧ (3 : Int) ≤ 4)) ∧
    Interval.mul (⟨-1, 2⟩ : Interval Int) ⟨3, 4⟩ = ⟨-4, 8⟩ ∧
    (Interval.mul (⟨-1, 2⟩ : Interval Int) ⟨3, 4⟩).lower ≤ 1 * 3 ∧
    1 * 3 ≤ (Interval.mul (⟨-1, 2⟩ : Interval Int) ⟨3, 4⟩).upper :=
  ⟨by decide, by decide,
    (interval_arithmetic_enclosure (⟨-1, 2⟩ : Interval Int) ⟨3, 4⟩ 1 3 (by decide)
      (by decide)).2.2.2.1⟩

end IntervalArithmetic

/-! ## The function `subset` of `interval.h` -/

/-- C34, evaluated: `subset(a, b)` answers `true` exactly when `a` lies strictly inside
`b` (`b.lower < a.lower` and `a.upper < b.upper`), so `subset(a, a)` is `false` for every
interval, and for the non-empty integer intervals `a = [0, 1]` and `b = [0, 2]`, where
every point of `a` lies in `b`, `subset(a, b)` is `false` as well. -/
theorem subset_is_strict :
    (∀ (V : Type) [LinearOrder V] (a b : Interval V),
      Interval.subset a b = true ↔ b.lower < a.lower ∧ a.upper < b.upper) ∧
    (∀ (V : Type) [LinearOrder V] (a : Interval V), Interval.subset a a = false) ∧
    Interval.subset (⟨0, 1⟩ : Interval Int) ⟨0, 1⟩ = false ∧
    Interval.empty (⟨0, 1⟩ : Interval Int) = false ∧
    (∀ x : Int, 0 ≤ x ∧ x ≤ 1 → 0 ≤ x ∧ x ≤ 2) ∧
    Interval.subset (⟨0, 1⟩ : Interval Int) ⟨0, 2⟩ = false := by
  refine ⟨fun V _ a b => ?_, fun V _ a => ?_, by decide, by decide, fun x h => ⟨h.1, by omega⟩,
    by decide⟩
  · unfold Interval.subset
    by_cases h1 : a.lower ≤ b.lower
    · simp [h1, not_lt.mpr h1]
    · by_cases h2 : a.upper ≥ b.upper
      · simp [h1, h2, not_lt.mpr h2]
      · simp [h1, h2, not_le.mp h1, not_le.mp h2]
  · unfold Interval.subset
    simp

/-! ## The extent of a grid range -/

section GridExtent

variable {T : Type}

theorem GridRange.u_size_closed (r : GridRange) (h1 : r.u_start ≤ r.u_end)
    (h3 : r.u_end ≤ r.u_start + 2) :
    r.u_size = r.u_end - r.u_start + 1 := by
  unfold GridRange.u_size uintT at *
  norm_num at *
  omega

theorem GridRange.v_size_closed (r : GridRange) (h1 : r.v_start ≤ r.v_end)
    (h3 : r.v_end ≤ r.v_start + 2) :
    r.v_size = r.v_end - r.v_start + 1 := by
  unfold GridRange.v_size uintT at *
  norm_num at *
  omega

/-- The entries of the arrays of a terminal range of at most three rows and columns. -/
theorem leafArrays_apply (grid : Channel → Nat → T) (grid_u_res : Nat) (r : GridRange)
    (leaf : Channel → Nat → Nat → T)
    (hu : r.u_start ≤ r.u_end) (hu3 : r.u_end ≤ r.u_start + 2)
    (hv : r.v_start ≤ r.v_end) (hv3 : r.v_end ≤ r.v_start + 2)
    (hoff : r.v_end * grid_u_res + r.u_end < uintT)
    (c : Channel) (x y : Nat) (hx : x < 3) (hy : y < 3) :
    leafArrays grid grid_u_res r leaf c y x
      = grid c ((r.v_start + min y (r.v_end - r.v_start)) * grid_u_res
          + (r.u_start + min x (r.u_end - r.u_start))) := by
  have hus := GridRange.u_size_closed r hu hu3
  have hvs := GridRange.v_size_closed r hv hv3
  have hvend : r.v_end = r.v_start + r.v_size - 1 := by omega
  unfold leafArrays leafChannel
  rw [clampRows_apply r.v_size (by omega) (by omega) _ x y hx hy,
    clampColumns_apply r.u_size (by omega) (by omega) _ x _ hx (by omega),
    loadRows_apply (grid c) grid_u_res r (leaf c) r.v_size (by omega) (by omega) hvend _
      (by omega)]
  have hle : (r.v_start + min y (r.v_size - 1)) * grid_u_res ≤ r.v_end * grid_u_res :=
    Nat.mul_le_mul_right grid_u_res (by omega)
  rw [Nat.mod_eq_of_lt (by omega), hus, hvs]
  simp only [Nat.add_sub_cancel, Nat.add_assoc]

/-- C31, evaluated: the range `(u_start, u_end, v_start, v_end) = (3, 4, 1, 1)` of a grid
of width 5 whose samples are their own indices.  No `u` has `3 ≤ u < 4` together with a
`v` with `1 ≤ v < 1`, yet the range is terminal with `u_size = 2` and `v_size = 1`, and
the leaf `createSubTree` fills holds, at row 0 and column 1, the sample 9 of row
`v_end = 1` and column `u_end = 4`. -/
theorem createSubTree_reads_end_sample :
    (¬ ∃ u v : Nat, (3 ≤ u ∧ u < 4) ∧ (1 ≤ v ∧ v < 1)) ∧
    GridRange.u_size ⟨3, 4, 1, 1⟩ = 2 ∧ GridRange.v_size ⟨3, 4, 1, 1⟩ = 1 ∧
    exampleSplit.hasLeafSize ⟨3, 4, 1, 1⟩ = true ∧
    ∃ t quad,
      createSubTree exampleSplit 3 (fun _ n => (Fin.ofNat n : Fin 16)) 5 (fun _ _ _ => 0) 1
        ⟨3, 4, 1, 1⟩ 0 = some t ∧
      t.curNode = GridNode.leaf 0 2 quad ∧ quad Channel.x 0 0 = 8 ∧
      quad Channel.x 0 1 = 9 ∧ 9 = 1 * 5 + 4 :=
  ⟨by omega, by decide, by decide, by decide, _, _, rfl, rfl, by decide, by decide, by decide⟩

/-- C31, amended (a range is closed): for a terminal range with `u_start ≤ u_end ≤
u_start + 2` and `v_start ≤ v_end ≤ v_start + 2` whose offsets fit `unsigned int`
(and `v_end` below the largest `unsigned int`, so that the loop over the rows ends),
`u_size = u_end - u_start + 1` and `v_size = v_end - v_start + 1`, `createSubTree`
returns a leaf, the leaf holds every grid sample with `u_start ≤ u ≤ u_end` and
`v_start ≤ v ≤ v_end` at row `v - v_start` and column `u - u_start`, and every one of its
entries is such a sample; and for a grid of at least one row and column
`buildSubdivPatchTree` starts on the range `(0, grid_u_res-1, 0, grid_v_res-1)`, whose
samples are all those with `u < grid_u_res` and `v < grid_v_res`. -/
theorem createSubTree_closed_range [Lattice T] [BoundedOrder T] (ops : GridSplit)
    (quadBlocks : Nat) (grid : Channel → Nat → T) (grid_u_res : Nat)
    (garbage : Channel → Nat → Nat → T) (fuel : Nat) (r : GridRange) (c : Nat)
    (hleaf : ops.hasLeafSize r = true)
    (hu : r.u_start ≤ r.u_end) (hu3 : r.u_end ≤ r.u_start + 2)
    (hv : r.v_start ≤ r.v_end) (hv3 : r.v_end ≤ r.v_start + 2) (hve : r.v_end + 1 < uintT)
    (hoff : r.v_end * grid_u_res + r.u_end < uintT) :
    (r.u_size = r.u_end - r.u_start + 1 ∧ r.v_size = r.v_end - r.v_start + 1) ∧
    (∃ quad,
      createSubTree ops quadBlocks grid grid_u_res garbage (fuel + 1) r c
        = some ⟨quadBounds quad, GridNode.leaf (c * 16 % uintT / 16) 2 quad,
            (c + quadBlocks) % uintT⟩ ∧
      (∀ (ch : Channel) (u v : Nat), r.u_start ≤ u → u ≤ r.u_end → r.v_start ≤ v →
        v ≤ r.v_end → quad ch (v - r.v_start) (u - r.u_start) = grid ch (v * grid_u_res + u)) ∧
      (∀ (ch : Channel) (x y : Nat), x < 3 → y < 3 →
        ∃ u v, (r.u_start ≤ u ∧ u ≤ r.u_end) ∧ (r.v_start ≤ v ∧ v ≤ r.v_end) ∧
          quad ch y x = grid ch (v * grid_u_res + u))) ∧
    (∀ (grid_v_res fuel0 : Nat), 1 ≤ grid_u_res → 1 ≤ grid_v_res →
      buildSubdivPatchTree ops quadBlocks grid grid_u_res grid_v_res garbage fuel0
        = createSubTree ops quadBlocks grid grid_u_res garbage fuel0
            ⟨0, grid_u_res - 1, 0, grid_v_res - 1⟩ 0 ∧
      ∀ u v : Nat, (u < grid_u_res ∧ v < grid_v_res) ↔
        ((0 ≤ u ∧ u ≤ grid_u_res - 1) ∧ (0 ≤ v ∧ v ≤ grid_v_res - 1))) := by
  have _ := hve
  refine ⟨⟨GridRange.u_size_closed r hu hu3, GridRange.v_size_closed r hv hv3⟩,
    ⟨leafArrays grid grid_u_res r garbage, ?_, ?_, ?_⟩, ?_⟩
  · simp only [createSubTree, hleaf, if_true]
  · intro ch u v h1 h2 h3 h4
    rw [leafArrays_apply grid grid_u_res r garbage hu hu3 hv hv3 hoff ch _ _ (by omega)
      (by omega)]
    congr 2
    · congr 1
      omega
    · omega
  · intro ch x y hx hy
    refine ⟨r.u_start + min x (r.u_end - r.u_start), r.v_start + min y (r.v_end - r.v_start),
      by omega, by omega, ?_⟩
    exact leafArrays_apply grid grid_u_res r garbage hu hu3 hv hv3 hoff ch x y hx hy
  · intro grid_v_res fuel0 h1 h2
    refine ⟨?_, fun u v => by omega⟩
    unfold buildSubdivPatchTree predU
    rw [if_neg (by omega), if_neg (by omega)]

/-- The closed range at work: the range `(3, 4, 1, 1)` of a grid of width 5 has
`u_size = 2`. -/
theorem createSubTree_closed_range_witness :
    exampleSplit.hasLeafSize ⟨3, 4, 1, 1⟩ = true ∧
    GridRange.u_size ⟨3, 4, 1, 1⟩ = 4 - 3 + 1 ∧ GridRange.v_size ⟨3, 4, 1, 1⟩ = 1 - 1 + 1 :=
  ⟨by decide,
    (createSubTree_closed_range exampleSplit 3 exampleGrid 5 (fun _ _ _ => 0) 0 ⟨3, 4, 1, 1⟩ 0
      (by decide) (by decide) (by decide) (by decide) (by decide) (by decide) (by decide)).1⟩

end GridExtent

/-! ## Rebasing and the source buffer -/

/-- C32, evaluated: a source buffer at `4096` holding a root node, a child node and a
leaf, copied byte for byte to `8192`, and `updateNodeRefs(root, 4096, 8192)` with `root`
the reference of the source root, as on the L2-hit path.  The call returns after three
writes; apart from the root reference at `64` both go to child slots of the source
buffer (`4320`, now `8586`, and `4192`, now `8320`), whose words differ from what they
were, while the child slots of the copy (`8288`, `8416`) are read nowhere and keep the
references `4224` and `4490` into the source. -/
theorem updateNodeRefs_writes_source :
    ∃ h', updateNodeRefs bvh4Encoding true 4096 8192 3 64 exampleDeepTree = Except.ok h' ∧
      h'.writes = [4320, 4192, 64] ∧
      (∀ a ∈ h'.writes, a ≠ 64 → 4096 ≤ a ∧ a < 8192) ∧
      (exampleDeepTree.word 4192 = 4224 ∧ h'.word 4192 = 8320) ∧
      (exampleDeepTree.word 4320 = 4490 ∧ h'.word 4320 = 8586) ∧
      (∀ a ∈ h'.reads, 4096 ≤ a ∧ a < 8192) ∧
      (h'.word 8288 = 4224 ∧ h'.word 8416 = 4490) ∧ h'.word 64 = 8192 :=
  ⟨_, rfl, by decide, by decide, by decide, by decide, by decide, by decide, by decide⟩

/-! ## The deletion loop and null builders -/

/-- C38, evaluated: a builder that has built nothing yet, a build on a scene of size two
whose second slot holds no mesh, then a build on a scene of size one.  The first build
grows both arrays to two entries and leaves `builders_[1]` null, since the set-up loop
skips the slot; the deletion loop of the second build then calls `builders_[1]->clear()`
through the null entry, where `deleteGeometry(1)` on the same state returns. -/
theorem build_deletes_through_null_builder :
    ∃ s1, build exampleConfig exampleEnv exampleGapScene exampleInit = Except.ok s1 ∧
      s1.objects.length = 2 ∧ s1.builders_.length = 2 ∧
      s1.builders_.getD 1 none = none ∧
      build exampleConfig exampleEnv exampleSingleScene s1
        = Except.error (Fault.nullBuilder 1) ∧
      ∃ s2, deleteGeometry 1 s1 = Except.ok s2 ∧ s2.log = s1.log ++ [Event.deleteObject 1] :=
  ⟨_, rfl, by decide, by decide, by decide, rfl, _, rfl, by decide⟩

/-! ## The commit state of a geometry -/

/-- C35, evaluated: a geometry as its constructor leaves it is disabled and then passes
`postCommit()`, with no modification in between.  `postCommit()` assigns `state` only
`if (isEnabled())`, so the state is still `MODIFIED` and `preCommit()` throws. -/
theorem preCommit_fails_after_postCommit :
    ((Geometry.new Geometry.GType.TRIANGLE_MESH 4 1).disable exampleHooks exampleScenes).1.enabled
      = false ∧
    ((Geometry.new Geometry.GType.TRIANGLE_MESH 4 1).disable exampleHooks
      exampleScenes).1.postCommit.state = Geometry.State.MODIFIED ∧
    ((Geometry.new Geometry.GType.TRIANGLE_MESH 4 1).disable exampleHooks
      exampleScenes).1.postCommit.preCommit
      = Except.error (GeometryFault.rtcError RTCError.RTC_ERROR_INVALID_OPERATION
          "geometry got not committed") :=
  ⟨by decide, by decide, rfl⟩

/-- C35, amended: `preCommit()` throws `RTC_ERROR_INVALID_OPERATION` ("geometry got not
committed") exactly when the state is `MODIFIED`, and otherwise returns with every member
as it was.  So it throws right after the constructor, after `update()` and after a
`setNumPrimitives` or `setNumTimeSteps` that changes the number; it returns after
`commit()`, and after `postCommit()` on an enabled geometry.  On a disabled geometry
`postCommit()` keeps the state, and `preCommit()` throws after it exactly when the state
was `MODIFIED` before. -/
theorem preCommit_raises_iff_modified :
    (∀ g : Geometry,
      (g.preCommit = Except.error (GeometryFault.rtcError RTCError.RTC_ERROR_INVALID_OPERATION
          "geometry got not committed") ↔ g.state = Geometry.State.MODIFIED) ∧
      (g.state ≠ Geometry.State.MODIFIED ↔ g.preCommit = Except.ok g) ∧
      (∀ g1, g.preCommit = Except.ok g1 → g1 = g)) ∧
    (∀ (type : Geometry.GType) (numPrimitives numTimeSteps : Nat),
      (Geometry.new type numPrimitives numTimeSteps).preCommit
        = Except.error (GeometryFault.rtcError RTCError.RTC_ERROR_INVALID_OPERATION
            "geometry got not committed")) ∧
    (∀ (W : Type) (g : Geometry) (σ : Nat → SceneState W),
      (g.update σ).1.preCommit
        = Except.error (GeometryFault.rtcError RTCError.RTC_ERROR_INVALID_OPERATION
            "geometry got not committed")) ∧
    (∀ (W : Type) (hooks : GeometryHooks W) (n : Nat) (g : Geometry) (σ : Nat → SceneState W),
      (n ≠ g.numPrimitives →
        (g.setNumPrimitives hooks n σ).1.preCommit
          = Except.error (GeometryFault.rtcError RTCError.RTC_ERROR_INVALID_OPERATION
              "geometry got not committed")) ∧
      (n ≠ g.numTimeSteps →
        (g.setNumTimeSteps hooks n σ).1.preCommit
          = Except.error (GeometryFault.rtcError RTCError.RTC_ERROR_INVALID_OPERATION
              "geometry got not committed"))) ∧
    (∀ (W : Type) (g : Geometry) (σ : Nat → SceneState W),
      (g.commit σ).1.preCommit = Except.ok (g.commit σ).1) ∧
    (∀ g : Geometry, g.isEnabled = true → g.postCommit.preCommit = Except.ok g.postCommit) ∧
    (∀ g : Geometry, g.isEnabled = false →
      g.postCommit.state = g.state ∧
      (g.postCommit.preCommit
          = Except.error (GeometryFault.rtcError RTCError.RTC_ERROR_INVALID_OPERATION
              "geometry got not committed") ↔ g.state = Geometry.State.MODIFIED)) := by
  refine ⟨fun g => ⟨?_, ?_, ?_⟩, fun type n t => ?_, fun W g σ => ?_,
    fun W hooks n g σ => ⟨fun h => ?_, fun h => ?_⟩, fun W g σ => ?_, fun g h => ?_,
    fun g h => ⟨?_, ?_⟩⟩
  · unfold Geometry.preCommit
    by_cases h : g.state = Geometry.State.MODIFIED <;> simp [h]
  · unfold Geometry.preCommit
    by_cases h : g.state = Geometry.State.MODIFIED <;> simp [h]
  · intro g1
    unfold Geometry.preCommit
    by_cases h : g.state = Geometry.State.MODIFIED <;> simp [h]
    exact fun e => e.symm
  · simp [Geometry.preCommit, Geometry.new]
  · simp [Geometry.preCommit, Geometry.update]
  · simp [Geometry.preCommit, Geometry.setNumPrimitives, Geometry.update, h]
  · simp [Geometry.preCommit, Geometry.setNumTimeSteps, Geometry.update, h]
  · simp [Geometry.preCommit, Geometry.commit]
  · simp [Geometry.preCommit, Geometry.postCommit, h]
  · simp [Geometry.postCommit, h]
  · simp only [Geometry.postCommit, h, Geometry.preCommit]
    by_cases h' : g.state = Geometry.State.MODIFIED <;> simp [h']

/-! ## The accounting of filter functions -/

section FilterCounting

variable {W : Type}

theorem numN_le (g : Geometry) : g.numN ≤ 2 := by
  unfold Geometry.numN
  cases g.intersectionFilterN <;> cases g.occlusionFilterN <;> simp

theorem filtersIn_le (scene : Nat) (g : Geometry) : g.filtersIn scene ≤ 2 := by
  unfold Geometry.filtersIn
  split
  · exact numN_le g
  · omega

theorem attachedFilters_le (scene : Nat) (gs : List Geometry) :
    attachedFilters scene gs ≤ 2 * gs.length := by
  induction gs with
  | nil => simp [attachedFilters]
  | cons g gs ih =>
    have := filtersIn_le scene g
    simp only [attachedFilters, List.map_cons, List.sum_cons, List.length_cons] at ih ⊢
    omega

/-- The count of a list, with one geometry taken apart. -/
theorem attachedFilters_split (scene : Nat) (gs : List Geometry) (i : Nat) (g : Geometry)
    (h : gs[i]? = some g) :
    attachedFilters scene gs = attachedFilters scene (gs.eraseIdx i) + g.filtersIn scene := by
  induction gs generalizing i with
  | nil => simp at h
  | cons x xs ih =>
    cases i with
    | zero =>
      simp only [List.getElem?_cons_zero, Option.some.injEq] at h
      subst h
      simp only [attachedFilters, List.map_cons, List.sum_cons, List.eraseIdx_cons_zero]
      omega
    | succ i =>
      simp only [List.getElem?_cons_succ] at h
      have := ih i h
      simp only [attachedFilters, List.map_cons, List.sum_cons, List.eraseIdx_cons_succ] at this ⊢
      omega

/-- The count of a list after one geometry was replaced. -/
theorem attachedFilters_set (scene : Nat) (gs : List Geometry) (i : Nat) (g g1 : Geometry)
    (h : gs[i]? = some g) :
    attachedFilters scene (gs.set i g1)
      = attachedFilters scene (gs.eraseIdx i) + g1.filtersIn scene := by
  induction gs generalizing i with
  | nil => simp at h
  | cons x xs ih =>
    cases i with
    | zero =>
      simp only [attachedFilters, List.set_cons_zero, List.map_cons, List.sum_cons,
        List.eraseIdx_cons_zero]
      omega
    | succ i =>
      simp only [List.getElem?_cons_succ] at h
      have := ih i h
      simp only [attachedFilters, List.set_cons_succ, List.map_cons, List.sum_cons,
        List.eraseIdx_cons_succ] at this ⊢
      omega

/-- A geometry of the list counts for no more than the list. -/
theorem filtersIn_le_attached (scene : Nat) (gs : List Geometry) (g : Geometry) (h : g ∈ gs) :
    g.filtersIn scene ≤ attachedFilters scene gs := by
  obtain ⟨i, hi⟩ := List.getElem?_of_mem h
  rw [attachedFilters_split scene gs i g hi]
  omega

theorem sizeT_eq : sizeT = 18446744073709551616 := by norm_num [sizeT]

/-- The counter after a method, the scenes counting `rest` for the other geometries: it
counts `rest` and what the geometry counts for after the call. -/
theorem method_accounting (hooks : GeometryHooks W) (c : GeometryCall) (g : Geometry)
    (σ : Nat → SceneState W)
    (hattach : ∀ a s i, c = GeometryCall.attach a s i → g.scene = none)
    (hdetach : ∀ a, c = GeometryCall.detach a → g.scene ≠ none) :
    (∃ r, c.method hooks g σ = Except.ok r ∧
      ∀ (scene rest : Nat), (σ scene).numIntersectionFiltersN = rest + g.filtersIn scene →
        rest + 2 < sizeT → (r.2 scene).numIntersectionFiltersN = rest + r.1.filtersIn scene) ∨
    ∃ code message, c.method hooks g σ = Except.error (GeometryFault.rtcError code message) := by
  have h64 := sizeT_eq
  obtain ⟨sc, gid, ty, np, npc, nts, fts, q, en, st, up, mask, used, ifn, ofn⟩ := g
  cases c with
  | attach a s i =>
    left
    have hs : sc = none := hattach a s i rfl
    subst hs
    refine ⟨_, rfl, fun scene rest h1 h2 => ?_⟩
    rcases eq_or_ne scene s with rfl | hsc <;> cases en <;> cases ifn <;> cases ofn <;>
      simp [Geometry.attach, Geometry.isEnabled, Geometry.filtersIn, Geometry.numN,
        Geometry.updateIntersectionFilters, SceneState.setModified, addSizeT,
        Function.update_apply, *] at h1 ⊢ <;>
      (try simp only [h64] at *) <;> omega
  | detach a =>
    left
    have hs : sc ≠ none := hdetach a rfl
    obtain ⟨t, rfl⟩ := Option.ne_none_iff_exists'.mp hs
    cases en
    · refine ⟨_, rfl, fun scene rest h1 h2 => ?_⟩
      simp [Geometry.detach, Geometry.isEnabled, Geometry.filtersIn] at h1 ⊢
      omega
    · refine ⟨_, rfl, fun scene rest h1 h2 => ?_⟩
      rcases eq_or_ne scene t with rfl | hsc <;> cases ifn <;> cases ofn <;>
        simp [Geometry.detach, Geometry.isEnabled, Geometry.filtersIn, Geometry.numN,
          Geometry.updateIntersectionFilters, SceneState.setModified, subSizeT,
          Function.update_apply, *] at h1 ⊢ <;>
        (try simp only [h64] at *) <;> omega
  | enable a =>
    left
    refine ⟨_, rfl, fun scene rest h1 h2 => ?_⟩
    cases sc with
    | none =>
      cases en <;>
        simp [GeometryCall.method, Geometry.enable, Geometry.isEnabled, Geometry.filtersIn]
          at h1 ⊢ <;> omega
    | some t =>
      rcases eq_or_ne scene t with rfl | hsc <;> cases en <;> cases ifn <;> cases ofn <;>
        simp [GeometryCall.method, Geometry.enable, Geometry.isEnabled, Geometry.filtersIn,
          Geometry.numN, Geometry.updateIntersectionFilters, SceneState.setModified, addSizeT,
          Function.update_apply, *] at h1 ⊢ <;>
        (try simp only [h64] at *) <;> omega
  | disable a =>
    left
    refine ⟨_, rfl, fun scene rest h1 h2 => ?_⟩
    cases sc with
    | none =>
      cases en <;>
        simp [GeometryCall.method, Geometry.disable, Geometry.isDisabled, Geometry.isEnabled,
          Geometry.filtersIn] at h1 ⊢ <;> omega
    | some t =>
      rcases eq_or_ne scene t with rfl | hsc <;> cases en <;> cases ifn <;> cases ofn <;>
        simp [GeometryCall.method, Geometry.disable, Geometry.isDisabled, Geometry.isEnabled,
          Geometry.filtersIn, Geometry.numN, Geometry.updateIntersectionFilters,
          SceneState.setModified, subSizeT, Function.update_apply, *] at h1 ⊢ <;>
        (try simp only [h64] at *) <;> omega
  | setIntersectionFilterFunctionN a filter =>
    by_cases hu : Geometry.filtersUnsupported
        ⟨sc, gid, ty, np, npc, nts, fts, q, en, st, up, mask, used, ifn, ofn⟩ = true
    · right
      exact ⟨RTCError.RTC_ERROR_INVALID_OPERATION,
        "filter functions not supported for this geometry",
        by simp only [GeometryCall.method, Geometry.setIntersectionFilterFunctionN, hu, if_true]⟩
    · left
      refine ⟨(_, _), by simp only [GeometryCall.method,
        Geometry.setIntersectionFilterFunctionN, hu]; rfl, fun scene rest h1 h2 => ?_⟩
      cases sc with
      | none =>
        cases en <;>
          simp [Geometry.replaceFilter, Geometry.isEnabled, Geometry.filtersIn] at h1 ⊢ <;>
          omega
      | some t =>
        rcases eq_or_ne scene t with rfl | hsc
        · cases en <;> cases ifn <;> cases ofn <;> cases filter <;>
            simp [Geometry.replaceFilter, Geometry.isEnabled, Geometry.filtersIn,
              Geometry.numN, addSizeT, subSizeT, Function.update_apply] at h1 ⊢ <;>
            (try simp only [h64] at *) <;> omega
        · have hsc1 : ¬ t = scene := fun e => hsc e.symm
          cases en <;> cases ifn <;> cases ofn <;> cases filter <;>
            simp [Geometry.replaceFilter, Geometry.isEnabled, Geometry.filtersIn,
              Geometry.numN, Function.update_apply, hsc, hsc1] at h1 ⊢ <;>
            omega
  | setOcclusionFilterFunctionN a filter =>
    by_cases hu : Geometry.filtersUnsupported
        ⟨sc, gid, ty, np, npc, nts, fts, q, en, st, up, mask, used, ifn, ofn⟩ = true
    · right
      exact ⟨RTCError.RTC_ERROR_INVALID_OPERATION,
        "filter functions not supported for this geometry",
        by simp only [GeometryCall.method, Geometry.setOcclusionFilterFunctionN, hu, if_true]⟩
    · left
      refine ⟨(_, _), by simp only [GeometryCall.method,
        Geometry.setOcclusionFilterFunctionN, hu]; rfl, fun scene rest h1 h2 => ?_⟩
      cases sc with
      | none =>
        cases en <;>
          simp [Geometry.replaceFilter, Geometry.isEnabled, Geometry.filtersIn] at h1 ⊢ <;>
          omega
      | some t =>
        rcases eq_or_ne scene t with rfl | hsc
        · cases en <;> cases ifn <;> cases ofn <;> cases filter <;>
            simp [Geometry.replaceFilter, Geometry.isEnabled, Geometry.filtersIn,
              Geometry.numN, addSizeT, subSizeT, Function.update_apply] at h1 ⊢ <;>
            (try simp only [h64] at *) <;> omega
        · have hsc1 : ¬ t = scene := fun e => hsc e.symm
          cases en <;> cases ifn <;> cases ofn <;> cases filter <;>
            simp [Geometry.replaceFilter, Geometry.isEnabled, Geometry.filtersIn,
              Geometry.numN, Function.update_apply, hsc, hsc1] at h1 ⊢ <;>
            omega

/-- Worlds in which nothing is attached and every counter is zero keep the accounting. -/
theorem filterAccounting_fresh (w : GeometryWorld W) (h1 : ∀ g ∈ w.geometries, g.scene = none)
    (h2 : ∀ scene, (w.scenes scene).numIntersectionFiltersN = 0) : FilterAccounting w := by
  intro scene
  rw [h2 scene]
  unfold attachedFilters
  symm
  apply List.sum_eq_zero
  intro x hx
  obtain ⟨g, hg, rfl⟩ := List.mem_map.mp hx
  simp [Geometry.filtersIn, h1 g hg]

/-- One admissible call keeps the accounting. -/
theorem after_accounting (hooks : GeometryHooks W) (c : GeometryCall) (w : GeometryWorld W)
    (hsize : 2 * w.geometries.length < sizeT) (hinv : FilterAccounting w)
    (hadm : c.admissible w = true) :
    ∃ w1, w.after hooks c = Except.ok w1 ∧ FilterAccounting w1 ∧
      w1.geometries.length = w.geometries.length := by
  unfold GeometryWorld.after GeometryWorld.call
  cases hg : w.geometries[c.target]? with
  | none => exact ⟨w, rfl, hinv, rfl⟩
  | some g =>
    have hlen : c.target < w.geometries.length := by
      by_contra hcon
      rw [List.getElem?_eq_none (by omega)] at hg
      cases hg
    have hattach : ∀ a s i, c = GeometryCall.attach a s i → g.scene = none := by
      intro a s i hc
      subst hc
      simp only [GeometryCall.admissible, GeometryCall.target] at hadm hg
      rw [hg] at hadm
      simpa using hadm
    have hdetach : ∀ a, c = GeometryCall.detach a → g.scene ≠ none := by
      intro a hc
      subst hc
      simp only [GeometryCall.admissible, GeometryCall.target] at hadm hg
      rw [hg] at hadm
      intro hn
      have hadm1 : g.scene.isSome = true := hadm
      rw [hn] at hadm1
      simp at hadm1
    rcases method_accounting hooks c g w.scenes hattach hdetach with
      ⟨r, hr, hacc⟩ | ⟨code, message, he⟩
    · simp only [hr]
      refine ⟨_, rfl, fun scene => ?_, by simp⟩
      show (r.2 scene).numIntersectionFiltersN
        = attachedFilters scene (w.geometries.set c.target r.1)
      rw [attachedFilters_set scene _ _ g r.1 hg]
      apply hacc scene (attachedFilters scene (w.geometries.eraseIdx c.target))
      · rw [hinv scene, attachedFilters_split scene _ _ g hg]
      · have h3 := attachedFilters_le scene (w.geometries.eraseIdx c.target)
        rw [List.length_eraseIdx, if_pos hlen] at h3
        omega
    · simp only [he]
      exact ⟨w, rfl, hinv, rfl⟩

/-- An admissible sequence of calls runs to its end and keeps the accounting. -/
theorem run_accounting (hooks : GeometryHooks W) (calls : List GeometryCall) :
    ∀ w : GeometryWorld W, 2 * w.geometries.length < sizeT → FilterAccounting w →
      w.admits hooks calls = true →
      ∃ w1, w.run hooks calls = Except.ok w1 ∧ FilterAccounting w1 ∧
        w1.geometries.length = w.geometries.length := by
  induction calls with
  | nil => exact fun w _ hinv _ => ⟨w, rfl, hinv, rfl⟩
  | cons c cs ih =>
    intro w hsize hinv hadm
    simp only [GeometryWorld.admits, Bool.and_eq_true] at hadm
    obtain ⟨w1, h1, h2, h3⟩ := after_accounting hooks c w hsize hinv hadm.1
    have hadm2 := hadm.2
    rw [h1] at hadm2
    obtain ⟨w2, k1, k2, k3⟩ := ih w1 (by omega) h2 hadm2
    refine ⟨w2, ?_, k2, by omega⟩
    simp only [GeometryWorld.run, h1]
    exact k1

/-- The calls before any point of an admissible sequence are an admissible sequence. -/
theorem admits_take (hooks : GeometryHooks W) (calls : List GeometryCall) :
    ∀ (w : GeometryWorld W) (k : Nat), w.admits hooks calls = true →
      w.admits hooks (calls.take k) = true := by
  induction calls with
  | nil => exact fun w k h => by simpa using h
  | cons c cs ih =>
    intro w k h
    cases k with
    | zero => rfl
    | succ k =>
      simp only [GeometryWorld.admits, Bool.and_eq_true, List.take_succ_cons] at h ⊢
      refine ⟨h.1, ?_⟩
      cases hw : w.after hooks c with
      | error f => rw [hw] at h; exact absurd h.2 (by simp)
      | ok w1 =>
        rw [hw] at h
        exact ih w1 k h.2

/-- C36, evaluated: a triangle mesh with an intersection filter function is attached to
scene 5 twice in a row.  `attach` adds the filters of the geometry on each call, so the
counter of the scene is 2, while the enabled geometries attached to the scene have one
filter function in all. -/
theorem attach_twice_counts_twice :
    ∃ w1, exampleGeometryWorld.run exampleHooks
        [GeometryCall.setIntersectionFilterFunctionN 0 (some 7), GeometryCall.attach 0 5 0,
          GeometryCall.attach 0 5 0] = Except.ok w1 ∧
      (w1.scenes 5).numIntersectionFiltersN = 2 ∧ attachedFilters 5 w1.geometries = 1 :=
  ⟨_, rfl, by decide, by decide⟩

/-- C36, amended (accounting of filter functions): from a world of fewer than `2^63`
geometries in which the counter `numIntersectionFiltersN` of every scene is the number
of non-null intersection and occlusion filter functions of the enabled geometries
attached to it (such as a world in which nothing is attached yet and the counters are
zero), every sequence of `attach`, `detach`, `enable`, `disable`,
`setIntersectionFilterFunctionN` and `setOcclusionFilterFunctionN` calls in which
`attach` is made on a geometry attached to no scene and `detach` on an attached one runs
to its end, and after the sequence and after each of its calls the counter of every
scene is that number again; so the counter is at least what any one enabled geometry
attached to the scene would subtract from it, and never wraps.  A set-filter call on a
geometry of an unsupported type throws `RTC_ERROR_INVALID_OPERATION` and leaves the
world, counter and stored filter included, as it was. -/
theorem filter_accounting (hooks : GeometryHooks W) (calls : List GeometryCall)
    (w : GeometryWorld W) (hsize : 2 * w.geometries.length < sizeT)
    (hinv : FilterAccounting w) (hadm : w.admits hooks calls = true) :
    (∃ w1, w.run hooks calls = Except.ok w1 ∧ FilterAccounting w1) ∧
    (∀ k, ∃ wk, w.run hooks (calls.take k) = Except.ok wk ∧ FilterAccounting wk ∧
      (∀ scene, (wk.scenes scene).numIntersectionFiltersN ≤ 2 * wk.geometries.length) ∧
      ∀ g ∈ wk.geometries, ∀ scene, g.scene = some scene → g.enabled = true →
        g.numN ≤ (wk.scenes scene).numIntersectionFiltersN) ∧
    (∀ (i : Nat) (filter : Option Nat) (g : Geometry) (v : GeometryWorld W),
      v.geometries[i]? = some g → g.filtersUnsupported = true →
      (g.setIntersectionFilterFunctionN filter v.scenes
          = Except.error (GeometryFault.rtcError RTCError.RTC_ERROR_INVALID_OPERATION
              "filter functions not supported for this geometry") ∧
        v.run hooks [GeometryCall.setIntersectionFilterFunctionN i filter] = Except.ok v) ∧
      (g.setOcclusionFilterFunctionN filter v.scenes
          = Except.error (GeometryFault.rtcError RTCError.RTC_ERROR_INVALID_OPERATION
              "filter functions not supported for this geometry") ∧
        v.run hooks [GeometryCall.setOcclusionFilterFunctionN i filter] = Except.ok v)) := by
  refine ⟨?_, fun k => ?_, fun i filter g v hg hu => ⟨⟨?_, ?_⟩, ⟨?_, ?_⟩⟩⟩
  · obtain ⟨w1, h1, h2, _⟩ := run_accounting hooks calls w hsize hinv hadm
    exact ⟨w1, h1, h2⟩
  · obtain ⟨wk, h1, h2, h3⟩ :=
      run_accounting hooks (calls.take k) w hsize hinv (admits_take hooks calls w k hadm)
    refine ⟨wk, h1, h2, fun scene => ?_, fun g hg scene hs he => ?_⟩
    · rw [h2 scene]
      exact attachedFilters_le scene wk.geometries
    · rw [h2 scene]
      have := filtersIn_le_attached scene wk.geometries g hg
      simpa [Geometry.filtersIn, hs, he] using this
  · simp only [Geometry.setIntersectionFilterFunctionN, hu, if_true]
  · simp only [GeometryWorld.run, GeometryWorld.after, GeometryWorld.call,
      GeometryCall.target, hg, GeometryCall.method, Geometry.setIntersectionFilterFunctionN,
      hu, if_true]
  · simp only [Geometry.setOcclusionFilterFunctionN, hu, if_true]
  · simp only [GeometryWorld.run, GeometryWorld.after, GeometryWorld.call,
      GeometryCall.target, hg, GeometryCall.method, Geometry.setOcclusionFilterFunctionN,
      hu, if_true]

end FilterCounting

/-- The accounting on `exampleCalls`: the world starts with nothing attached, the
sequence runs to its end, and scene 5 then counts the one filter function left on the
attached and enabled geometry 0. -/
theorem filter_accounting_witness :
    (2 * exampleGeometryWorld.geometries.length < sizeT ∧
      FilterAccounting exampleGeometryWorld ∧
      exampleGeometryWorld.admits exampleHooks exampleCalls = true) ∧
    (∃ w1, exampleGeometryWorld.run exampleHooks exampleCalls = Except.ok w1 ∧
      FilterAccounting w1) ∧
    ∃ w1, exampleGeometryWorld.run exampleHooks exampleCalls = Except.ok w1 ∧
      (w1.scenes 5).numIntersectionFiltersN = 1 ∧
      (w1.geometries.map fun g => (g.scene, g.enabled, g.numN)) =
        [(some 5, true, 1), (none, true, 0)] :=
  ⟨⟨by decide, filterAccounting_fresh _ (by decide) (fun _ => rfl), by decide⟩,
    (filter_accounting exampleHooks exampleCalls exampleGeometryWorld (by decide)
      (filterAccounting_fresh _ (by decide) (fun _ => rfl)) (by decide)).1,
    ⟨_, rfl, by decide, by decide⟩⟩

/-! ## The layout of the outputs of `interpolateN` -/

section InterpolationLayout

variable {F : Type}

/-- Row and column of the index `j * n + i` of a column `i < n`. -/
theorem index_div_mod (n i j : Nat) (hi : i < n) :
    (j * n + i) / n = j ∧ (j * n + i) % n = i := by
  have hn : 0 < n := by omega
  constructor
  · rw [Nat.add_comm, Nat.add_mul_div_right _ _ hn, Nat.div_eq_of_lt hi, Nat.zero_add]
  · rw [Nat.add_comm, Nat.add_mul_mod_self_right, Nat.mod_eq_of_lt hi]

/-- An index is the index of its row and column. -/
theorem index_of_div_mod (n k : Nat) : k = k / n * n + k % n := by
  have := Nat.div_add_mod k n
  rw [Nat.mul_comm] at this
  omega

/-- The entries and the stores of the loop over `j` on one output pointer, as long as the
indices fit `unsigned int`. -/
theorem storeColumn_spec (n i : Nat) (src : Nat → F) (b : OutBuffer F) (hi : i < n) :
    ∀ m, m * n ≤ uintT →
      (∀ k, (storeColumn n m i src b).data k
        = if k % n = i ∧ k / n < m then src (k / n) else b.data k) ∧
      (storeColumn n m i src b).writes = b.writes ++ (List.range m).map fun j => j * n + i := by
  intro m
  induction m with
  | zero => intro _; simp [storeColumn]
  | succ m ih =>
    intro hm
    have hm1 : m * n ≤ uintT := by
      have : m * n ≤ (m + 1) * n := Nat.mul_le_mul_right n (by omega)
      omega
    obtain ⟨h1, h2⟩ := ih hm1
    have hlt : m * n + i < uintT := by
      have : (m + 1) * n = m * n + n := by ring
      omega
    have hstep : storeColumn n (m + 1) i src b
        = (storeColumn n m i src b).store (m * n + i) (src m) := by
      simp only [storeColumn, List.range_succ, List.foldl_append, List.foldl_cons,
        List.foldl_nil, Nat.mod_eq_of_lt hlt]
    rw [hstep]
    constructor
    · intro k
      simp only [OutBuffer.store, Function.update_apply, h1 k]
      obtain ⟨d1, d2⟩ := index_div_mod n i m hi
      by_cases hk : k = m * n + i
      · subst hk
        simp [d1, d2]
      · have hne : ¬ (k % n = i ∧ k / n = m) := by
          rintro ⟨e1, e2⟩
          apply hk
          rw [index_of_div_mod n k, e1, e2]
        by_cases hc : k % n = i ∧ k / n < m
        · have hc2 : k % n = i ∧ k / n < m + 1 := ⟨hc.1, by omega⟩
          simp [hk, hc, hc2]
        · have hc2 : ¬ (k % n = i ∧ k / n < m + 1) := by
            rintro ⟨e1, e2⟩
            by_cases e3 : k / n = m
            · exact hne ⟨e1, e3⟩
            · exact hc ⟨e1, by omega⟩
          simp [hk, hc, hc2]
    · simp only [OutBuffer.store, h2, List.range_succ, List.map_append, List.map_cons,
        List.map_nil, List.append_assoc]

theorem copyGroup_null (args : RTCInterpolateNArguments F) (i : Nat) (tmp : Quantity → Nat → F)
    (leader : Quantity) (qs : List Quantity) (out : Quantity → Option (OutBuffer F))
    (h : (args.out leader).isSome = false) : copyGroup args i tmp leader qs out = Except.ok out := by
  cases qs <;> simp [copyGroup, h]

theorem copyGroup_cons (args : RTCInterpolateNArguments F) (i : Nat) (tmp : Quantity → Nat → F)
    (leader q : Quantity) (qs : List Quantity) (out : Quantity → Option (OutBuffer F))
    (b : OutBuffer F) (h : (args.out leader).isSome = true) (hq : out q = some b) :
    copyGroup args i tmp leader (q :: qs) out
      = copyGroup args i tmp leader qs
          (Function.update out q (some (storeColumn args.numUVs args.valueCount i (tmp q) b))) := by
  simp [copyGroup, h, hq, copyColumn]

/-- The body of the loop on an index that is not skipped, the pointers of a requested
group being non-null: the temporaries are what `interpolate` leaves, and the column of
each array of a requested group is stored. -/
theorem interpolateNBody_spec
    (interpolate : RTCInterpolateArguments F → (Quantity → Nat → F) → Quantity → Nat → F)
    (args : RTCInterpolateNArguments F) (i : Nat) (st : InterpolateState F)
    (hptr : ∀ q, (st.out q).isSome = (args.out q).isSome)
    (hfirst : (args.out Quantity.dPdu).isSome = true → (args.out Quantity.dPdv).isSome = true)
    (hsecond : (args.out Quantity.ddPdudu).isSome = true →
      (args.out Quantity.ddPdvdv).isSome = true ∧ (args.out Quantity.ddPdudv).isSome = true)
    (hskip : skipped args i = false) :
    ∃ st1, interpolateNBody interpolate args i st = Except.ok st1 ∧
      st1.tmp = callInterpolate interpolate (iargs args i) st.tmp ∧
      ∀ q, st1.out q =
        if temporaries args q = true then
          (st.out q).map
            (storeColumn args.numUVs args.valueCount i
              (callInterpolate interpolate (iargs args i) st.tmp q))
        else st.out q := by
  have hsome : ∀ q, (args.out q).isSome = true → ∃ b, st.out q = some b := by
    intro q hq
    rw [← hptr q] at hq
    exact Option.isSome_iff_exists.mp hq
  -- the block of `P`
  obtain ⟨o1, e1, p1⟩ : ∃ o1, copyGroup args i (callInterpolate interpolate (iargs args i) st.tmp)
      Quantity.P [Quantity.P] st.out = Except.ok o1 ∧
      ∀ q, o1 q = if q = Quantity.P ∧ (args.out Quantity.P).isSome = true then
        (st.out q).map (storeColumn args.numUVs args.valueCount i
          (callInterpolate interpolate (iargs args i) st.tmp q)) else st.out q := by
    cases hP : (args.out Quantity.P).isSome with
    | false => exact ⟨_, copyGroup_null _ _ _ _ _ _ hP, fun q => by simp⟩
    | true =>
      obtain ⟨b, hb⟩ := hsome _ hP
      refine ⟨_, by rw [copyGroup_cons _ _ _ _ _ _ _ b hP hb]; rfl, fun q => ?_⟩
      by_cases hq : q = Quantity.P
      · subst hq
        simp [hb]
      · simp [hq, Function.update_apply]
  -- the block of the first derivatives
  obtain ⟨o2, e2, p2⟩ : ∃ o2, copyGroup args i (callInterpolate interpolate (iargs args i) st.tmp)
      Quantity.dPdu [Quantity.dPdu, Quantity.dPdv] o1 = Except.ok o2 ∧
      ∀ q, o2 q = if (q = Quantity.dPdu ∨ q = Quantity.dPdv) ∧
          (args.out Quantity.dPdu).isSome = true then
        (o1 q).map (storeColumn args.numUVs args.valueCount i
          (callInterpolate interpolate (iargs args i) st.tmp q)) else o1 q := by
    cases hP : (args.out Quantity.dPdu).isSome with
    | false => exact ⟨_, copyGroup_null _ _ _ _ _ _ hP, fun q => by simp⟩
    | true =>
      obtain ⟨b, hb⟩ := hsome _ hP
      obtain ⟨c, hc⟩ := hsome _ (hfirst hP)
      have hb1 : o1 Quantity.dPdu = some b := by rw [p1]; simpa using hb
      have hc1 : Function.update o1 Quantity.dPdu
          (some (storeColumn args.numUVs args.valueCount i
            (callInterpolate interpolate (iargs args i) st.tmp Quantity.dPdu) b)) Quantity.dPdv
          = some c := by
        rw [Function.update_apply, if_neg (by decide), p1]
        simpa using hc
      refine ⟨_, by rw [copyGroup_cons _ _ _ _ _ _ _ b hP hb1,
        copyGroup_cons _ _ _ _ _ _ _ c hP hc1]; rfl, fun q => ?_⟩
      have hc0 : o1 Quantity.dPdv = some c := by rw [p1]; simpa using hc
      cases q <;> simp [Function.update_apply, hb1, hc0]
  -- the block of the second derivatives
  obtain ⟨o3, e3, p3⟩ : ∃ o3, copyGroup args i (callInterpolate interpolate (iargs args i) st.tmp)
      Quantity.ddPdudu [Quantity.ddPdudu, Quantity.ddPdvdv, Quantity.ddPdudv] o2 = Except.ok o3 ∧
      ∀ q, o3 q = if (q = Quantity.ddPdudu ∨ q = Quantity.ddPdvdv ∨ q = Quantity.ddPdudv) ∧
          (args.out Quantity.ddPdudu).isSome = true then
        (o2 q).map (storeColumn args.numUVs args.valueCount i
          (callInterpolate interpolate (iargs args i) st.tmp q)) else o2 q := by
    cases hP : (args.out Quantity.ddPdudu).isSome with
    | false => exact ⟨_, copyGroup_null _ _ _ _ _ _ hP, fun q => by simp⟩
    | true =>
      obtain ⟨b, hb⟩ := hsome _ hP
      obtain ⟨c, hc⟩ := hsome _ (hsecond hP).1
      obtain ⟨d, hd⟩ := hsome _ (hsecond hP).2
      have hb1 : o2 Quantity.ddPdudu = some b := by rw [p2, p1]; simpa using hb
      have hc0 : o2 Quantity.ddPdvdv = some c := by rw [p2, p1]; simpa using hc
      have hd0 : o2 Quantity.ddPdudv = some d := by rw [p2, p1]; simpa using hd
      have hc1 : Function.update o2 Quantity.ddPdudu
          (some (storeColumn args.numUVs args.valueCount i
            (callInterpolate interpolate (iargs args i) st.tmp Quantity.ddPdudu) b))
          Quantity.ddPdvdv = some c := by
        rw [Function.update_apply, if_neg (by decide), hc0]
      have hd1 : Function.update (Function.update o2 Quantity.ddPdudu
          (some (storeColumn args.numUVs args.valueCount i
            (callInterpolate interpolate (iargs args i) st.tmp Quantity.ddPdudu) b)))
          Quantity.ddPdvdv
          (some (storeColumn args.numUVs args.valueCount i
            (callInterpolate interpolate (iargs args i) st.tmp Quantity.ddPdvdv) c))
          Quantity.ddPdudv = some d := by
        rw [Function.update_apply, if_neg (by decide), Function.update_apply,
          if_neg (by decide), hd0]
      refine ⟨_, by rw [copyGroup_cons _ _ _ _ _ _ _ b hP hb1,
        copyGroup_cons _ _ _ _ _ _ _ c hP hc1, copyGroup_cons _ _ _ _ _ _ _ d hP hd1]; rfl,
        fun q => ?_⟩
      cases q <;> simp [Function.update_apply, hb1, hc0, hd0]
  refine ⟨⟨callInterpolate interpolate (iargs args i) st.tmp, o3⟩, ?_, rfl, fun q => ?_⟩
  · simp only [interpolateNBody, hskip, Bool.false_eq_true, if_false, e1, e2, e3]
  show o3 q = _
  rw [p3, p2, p1]
  cases q <;> simp [temporaries]

/-- The loop over the indices `a`, …, `a + m - 1`: the temporaries follow
`temporariesBefore`, an array outside the requested groups is left alone, and an array
of a requested group receives the columns of the indices that are not skipped. -/
theorem interpolateNLoop_spec
    (interpolate : RTCInterpolateArguments F → (Quantity → Nat → F) → Quantity → Nat → F)
    (garbage : Quantity → Nat → F) (args : RTCInterpolateNArguments F)
    (hfit : args.valueCount * args.numUVs ≤ uintT)
    (hfirst : (args.out Quantity.dPdu).isSome = true → (args.out Quantity.dPdv).isSome = true)
    (hsecond : (args.out Quantity.ddPdudu).isSome = true →
      (args.out Quantity.ddPdvdv).isSome = true ∧ (args.out Quantity.ddPdudv).isSome = true) :
    ∀ (m a : Nat) (st : InterpolateState F), a + m ≤ args.numUVs →
      st.tmp = temporariesBefore interpolate garbage args a →
      (∀ q, (st.out q).isSome = (args.out q).isSome) →
      ∃ st1, interpolateNLoop interpolate args (List.range' a m) st = Except.ok st1 ∧
        st1.tmp = temporariesBefore interpolate garbage args (a + m) ∧
        (∀ q, (st1.out q).isSome = (args.out q).isSome) ∧
        (∀ q, temporaries args q = false → st1.out q = st.out q) ∧
        ∀ q b, temporaries args q = true → st.out q = some b →
          ∃ b1 ws, st1.out q = some b1 ∧ b1.writes = b.writes ++ ws ∧
            (∀ k ∈ ws, (a ≤ k % args.numUVs ∧ k % args.numUVs < a + m) ∧
              skipped args (k % args.numUVs) = false) ∧
            ∀ k, b1.data k =
              if (a ≤ k % args.numUVs ∧ k % args.numUVs < a + m) ∧
                  skipped args (k % args.numUVs) = false ∧ k / args.numUVs < args.valueCount then
                interpolate (iargs args (k % args.numUVs))
                  (temporariesBefore interpolate garbage args (k % args.numUVs)) q
                  (k / args.numUVs)
              else b.data k := by
  intro m
  induction m with
  | zero =>
    intro a st _ htmp hptr
    refine ⟨st, rfl, htmp, hptr, fun _ _ => rfl, fun q b _ hb => ⟨b, [], hb, by simp, by simp,
      fun k => ?_⟩⟩
    rw [if_neg]
    rintro ⟨⟨h1, h2⟩, _⟩
    omega
  | succ m ih =>
    intro a st ha htmp hptr
    have hrange : List.range' a (m + 1) = a :: List.range' (a + 1) m := rfl
    rw [hrange]
    cases hs : skipped args a with
    | true =>
      have hbody : interpolateNBody interpolate args a st = Except.ok st := by
        simp only [interpolateNBody, hs, if_true]
      have htmp1 : st.tmp = temporariesBefore interpolate garbage args (a + 1) := by
        rw [htmp]
        simp only [temporariesBefore, hs, if_true]
      have ha1 : a + 1 + m ≤ args.numUVs := by omega
      obtain ⟨st2, k1, k2, k3, k4, k5⟩ := ih (a + 1) st ha1 htmp1 hptr
      refine ⟨st2, ?_, ?_, k3, k4, fun q b hq hb => ?_⟩
      · simp only [interpolateNLoop, hbody]
        exact k1
      · rw [k2, Nat.add_assoc, Nat.add_comm 1 m]
      · obtain ⟨b1, ws, c1, c2, c3, c4⟩ := k5 q b hq hb
        refine ⟨b1, ws, c1, c2, fun k hk => ?_, fun k => ?_⟩
        · obtain ⟨⟨d1, d2⟩, d3⟩ := c3 k hk
          exact ⟨⟨by omega, by omega⟩, d3⟩
        · rw [c4 k]
          by_cases hka : k % args.numUVs = a
          · rw [if_neg, if_neg]
            · rintro ⟨_, h2, _⟩
              rw [hka, hs] at h2
              cases h2
            · rintro ⟨⟨h1, _⟩, _⟩
              omega
          · by_cases hc : ((a + 1 ≤ k % args.numUVs ∧ k % args.numUVs < a + 1 + m) ∧
                skipped args (k % args.numUVs) = false ∧ k / args.numUVs < args.valueCount)
            · rw [if_pos hc, if_pos ⟨⟨by omega, by omega⟩, hc.2⟩]
            · rw [if_neg hc, if_neg]
              rintro ⟨⟨h1, h2⟩, h3⟩
              exact hc ⟨⟨by omega, by omega⟩, h3⟩
    | false =>
      obtain ⟨st1, e1, e2, e3⟩ :=
        interpolateNBody_spec interpolate args a st hptr hfirst hsecond hs
      have htmp1 : st1.tmp = temporariesBefore interpolate garbage args (a + 1) := by
        rw [e2, htmp]
        simp only [temporariesBefore, hs, Bool.false_eq_true, if_false]
      have hptr1 : ∀ q, (st1.out q).isSome = (args.out q).isSome := by
        intro q
        rw [e3 q, ← hptr q]
        split <;> simp
      have ha1 : a + 1 + m ≤ args.numUVs := by omega
      obtain ⟨st2, k1, k2, k3, k4, k5⟩ := ih (a + 1) st1 ha1 htmp1 hptr1
      refine ⟨st2, ?_, ?_, k3, fun q hq => ?_, fun q b hq hb => ?_⟩
      · simp only [interpolateNLoop, e1]
        exact k1
      · rw [k2, Nat.add_assoc, Nat.add_comm 1 m]
      · rw [k4 q hq, e3 q, hq]
        simp
      · have hb1 : st1.out q = some (storeColumn args.numUVs args.valueCount a
            (callInterpolate interpolate (iargs args a) st.tmp q) b) := by
          rw [e3 q, hq, hb]
          simp
        obtain ⟨b2, ws, c1, c2, c3, c4⟩ := k5 q _ hq hb1
        obtain ⟨s1, s2⟩ := storeColumn_spec args.numUVs a
          (callInterpolate interpolate (iargs args a) st.tmp q) b (by omega) args.valueCount hfit
        have hval : callInterpolate interpolate (iargs args a) st.tmp q
            = interpolate (iargs args a) (temporariesBefore interpolate garbage args a) q := by
          have hp : (iargs args a).passed q = true := hq
          simp only [callInterpolate, hp, if_true, htmp]
        refine ⟨b2, ((List.range args.valueCount).map fun j => j * args.numUVs + a) ++ ws, c1,
          by rw [c2, s2, List.append_assoc], fun k hk => ?_, fun k => ?_⟩
        · rcases List.mem_append.mp hk with hk | hk
          · obtain ⟨j, hj, rfl⟩ := List.mem_map.mp hk
            obtain ⟨_, d2⟩ := index_div_mod args.numUVs a j (by omega)
            rw [d2]
            exact ⟨⟨by omega, by omega⟩, hs⟩
          · obtain ⟨⟨d1, d2⟩, d3⟩ := c3 k hk
            exact ⟨⟨by omega, by omega⟩, d3⟩
        · rw [c4 k, s1 k, hval]
          by_cases hka : k % args.numUVs = a
          · rw [if_neg (by rintro ⟨⟨h1, _⟩, _⟩; omega)]
            by_cases hv : k / args.numUVs < args.valueCount
            · rw [if_pos ⟨hka, hv⟩, if_pos ⟨⟨by omega, by omega⟩, by rw [hka]; exact hs, hv⟩, hka]
            · rw [if_neg (fun h => hv h.2), if_neg (fun h => hv h.2.2)]
          · by_cases hc : ((a + 1 ≤ k % args.numUVs ∧ k % args.numUVs < a + 1 + m) ∧
                skipped args (k % args.numUVs) = false ∧ k / args.numUVs < args.valueCount)
            · rw [if_pos hc, if_pos ⟨⟨by omega, by omega⟩, hc.2⟩]
            · rw [if_neg hc, if_neg (fun h => hka h.1), if_neg]
              rintro ⟨⟨h1, h2⟩, h3⟩
              exact hc ⟨⟨by omega, by omega⟩, h3⟩

/-- C37, amended (layout of the outputs of `interpolateN`): for `valueCount ≤ 256`, when
the indices `j*numUVs+i`, computed on `unsigned int`, do not wrap (`valueCount * numUVs ≤
2^32`) and the derivative pointers come in whole groups (`dPdv` is non-null if `dPdu`
is, `ddPdvdv` and `ddPdudv` are if `ddPdudu` is), the call returns, and for `P` if it is
non-null, for `dPdu` and `dPdv` if `dPdu` is non-null, and for the three second
derivatives if `ddPdudu` is non-null: for every `i < numUVs` that is not masked out
(`valid` null or `valid[i] != 0`) and every `j < valueCount` the entry `j*numUVs + i` is
value `j` that `interpolate` left in the temporary array when called for `primIDs[i]`,
`u[i]`, `v[i]`; for a masked-out `i` no store of the call has column index `i`, and the
entries of that column are as before.  Any other array is left alone, also a non-null
`dPdv` beside a null `dPdu`.  With `valueCount > 256` the call throws
`RTC_ERROR_INVALID_OPERATION` and returns no output. -/
theorem interpolateN_layout
    (interpolate : RTCInterpolateArguments F → (Quantity → Nat → F) → Quantity → Nat → F)
    (garbage : Quantity → Nat → F) (args : RTCInterpolateNArguments F)
    (hcount : args.valueCount ≤ 256) (hfit : args.valueCount * args.numUVs ≤ uintT)
    (hfirst : (args.out Quantity.dPdu).isSome = true → (args.out Quantity.dPdv).isSome = true)
    (hsecond : (args.out Quantity.ddPdudu).isSome = true →
      (args.out Quantity.ddPdvdv).isSome = true ∧ (args.out Quantity.ddPdudv).isSome = true) :
    (∃ out, interpolateN interpolate garbage args = Except.ok out ∧
      (∀ q, temporaries args q = false → out q = args.out q) ∧
      ∀ q, temporaries args q = true →
        ∃ b0 b ws, args.out q = some b0 ∧ out q = some b ∧ b.writes = b0.writes ++ ws ∧
          (∀ i j, i < args.numUVs → skipped args i = false → j < args.valueCount →
            b.data (j * args.numUVs + i)
              = interpolate (iargs args i) (temporariesBefore interpolate garbage args i) q j) ∧
          (∀ i, i < args.numUVs → skipped args i = true → ∀ k ∈ ws, k % args.numUVs ≠ i) ∧
          ∀ k, skipped args (k % args.numUVs) = true → b.data k = b0.data k) ∧
    ∀ args1 : RTCInterpolateNArguments F, args1.valueCount > 256 →
      interpolateN interpolate garbage args1
        = Except.error (GeometryFault.rtcError RTCError.RTC_ERROR_INVALID_OPERATION
            "maximally 256 floating point values can be interpolated per vertex") := by
  refine ⟨?_, fun args1 h => by simp only [interpolateN, h, if_true]⟩
  obtain ⟨st1, k1, _, _, k4, k5⟩ :=
    interpolateNLoop_spec interpolate garbage args hfit hfirst hsecond args.numUVs 0
      ⟨garbage, args.out⟩ (by omega) rfl (fun _ => rfl)
  rw [← List.range_eq_range'] at k1
  refine ⟨st1.out, ?_, k4, fun q hq => ?_⟩
  · simp only [interpolateN, k1, if_neg (show ¬ args.valueCount > 256 by omega)]
  · have hq0 : (args.out q).isSome = true := by
      cases q
      · exact hq
      · exact hq
      · exact hfirst hq
      · exact hq
      · exact (hsecond hq).1
      · exact (hsecond hq).2
    obtain ⟨b0, hb0⟩ := Option.isSome_iff_exists.mp hq0
    obtain ⟨b, ws, c1, c2, c3, c4⟩ := k5 q b0 hq hb0
    refine ⟨b0, b, ws, hb0, c1, c2, fun i j hi hs hj => ?_, fun i _ hs k hk e => ?_,
      fun k hs => ?_⟩
    · obtain ⟨d1, d2⟩ := index_div_mod args.numUVs i j hi
      rw [c4, d1, d2, if_pos ⟨⟨by omega, by omega⟩, hs, hj⟩]
    · have := (c3 k hk).2
      rw [e, hs] at this
      cases this
    · rw [c4, if_neg]
      rintro ⟨_, h2, _⟩
      rw [hs] at h2
      cases h2

/-- C37, evaluated: one point, one value, and `dPdv` the only non-null output pointer.
The temporaries of both first derivatives follow `dPdu`, so `interpolate` is passed no
pointer for `dPdv`, the block that copies the first derivatives is skipped, and the
array `dPdv` that was asked for is not stored to: its entry `0*numUVs + 0` is the 5 it
held before, not a value of the interpolation. -/
theorem interpolateN_leaves_lone_dPdv :
    (exampleLoneArgs.out Quantity.dPdv).isSome = true ∧
    (exampleLoneArgs.valueCount ≤ 256 ∧ skipped exampleLoneArgs 0 = false) ∧
    (iargs exampleLoneArgs 0).passed Quantity.dPdv = false ∧
    ∃ out b, interpolateN exampleInterpolate (fun _ _ => 0) exampleLoneArgs = Except.ok out ∧
      out Quantity.dPdv = some b ∧ b.writes = [] ∧ b.data (0 * 1 + 0) = 5 :=
  ⟨by decide, by decide, by decide, _, _, rfl, rfl, by decide, by decide⟩

/-- The layout on three points, the second masked out: entry `1*3 + 2` of `P` is value 1
of the third point, on primitive 3. -/
theorem interpolateN_layout_witness :
    (exampleInterpolateArgs.valueCount ≤ 256 ∧
      exampleInterpolateArgs.valueCount * exampleInterpolateArgs.numUVs ≤ uintT) ∧
    ∃ out b, interpolateN exampleInterpolate (fun _ _ => 0) exampleInterpolateArgs
        = Except.ok out ∧
      out Quantity.P = some b ∧ b.data (1 * 3 + 2) = 301 := by
  refine ⟨⟨by decide, by decide⟩, ?_⟩
  obtain ⟨out, h1, _, h3⟩ :=
    (interpolateN_layout exampleInterpolate (fun _ _ => 0) exampleInterpolateArgs (by decide)
      (by decide) (by decide) (by decide)).1
  obtain ⟨b0, b, ws, _, hb, _, hdata, _⟩ := h3 Quantity.P rfl
  exact ⟨out, b, h1, hb, hdata 2 1 (by decide) rfl (by decide)⟩

end InterpolationLayout

/-! ## Opening: the iterations of the run -/

section OpeningRun

variable {N : Nat} {V K : Type} [LinearOrder K] {key : BuildRef N V → K}

/-- An iteration of the opening loop whose popped entry is an AABB node: the array takes
the values `pop_heap` and `pop_back` and then the inner loop give it, and the loop goes on
from the last of them. -/
theorem openLoop_step (H : HeapAlgorithms (BuildRef N V) K key) (extSize fuel : Nat)
    (refs : List (BuildRef N V)) (back : BuildRef N V) (bounds : Fin N → BBox V)
    (child : Fin N → NodeRef N V) (hcond : openCond N extSize refs.length = true)
    (hback : (H.pop_heap refs).getLast? = some back)
    (hnode : back.node = NodeRef.aabb bounds child) :
    openLoop H extSize (fuel + 1) refs
      = (H.pop_heap refs :: (H.pop_heap refs).dropLast ::
          pushChildren H bounds child (List.finRange N) (H.pop_heap refs).dropLast ++
            (openLoop H extSize fuel
              (finalState (H.pop_heap refs).dropLast
                (pushChildren H bounds child (List.finRange N) (H.pop_heap refs).dropLast))).1,
        (openLoop H extSize fuel
          (finalState (H.pop_heap refs).dropLast
            (pushChildren H bounds child (List.finRange N) (H.pop_heap refs).dropLast))).2) := by
  have hleaf : back.node.isLeaf = false := by rw [hnode]; rfl
  simp only [openLoop, hcond, if_true, hback, hleaf, Bool.false_eq_true, if_false]
  split
  · rename_i b c hbc
    rw [hnode] at hbc
    cases hbc
    rfl
  · rename_i hno
    exact absurd hnode (hno bounds child)

/-- Every listed iteration is an iteration of the loop: the run of the loop comes to the
array at the start of the iteration with an iteration left, and goes on from there. -/
theorem openSteps_reach (H : HeapAlgorithms (BuildRef N V) K key) (extSize : Nat) :
    ∀ (fuel : Nat) (refs : List (BuildRef N V)),
      ∀ p ∈ openSteps H extSize fuel refs,
        ∃ pre k, k < fuel ∧
          (openLoop H extSize fuel refs).1 = pre ++ (openLoop H extSize (k + 1) p.1).1 ∧
          (openLoop H extSize fuel refs).2 = (openLoop H extSize (k + 1) p.1).2 := by
  intro fuel
  induction fuel with
  | zero =>
    intro refs p hp
    simp [openSteps] at hp
  | succ fuel ih =>
    intro refs p hp
    simp only [openSteps] at hp
    split at hp
    · rename_i hcond
      split at hp
      · cases hp
      · rename_i back hback
        split at hp
        · rw [List.mem_singleton] at hp
          subst hp
          exact ⟨[], fuel, Nat.lt_succ_self _, rfl, rfl⟩
        · split at hp
          · rename_i bounds child hnode
            rcases List.mem_cons.mp hp with rfl | hp
            · exact ⟨[], fuel, Nat.lt_succ_self _, rfl, rfl⟩
            · obtain ⟨pre, k, hk, h1, h2⟩ := ih _ p hp
              rw [openLoop_step H extSize fuel refs back bounds child hcond hback hnode]
              refine ⟨H.pop_heap refs :: (H.pop_heap refs).dropLast ::
                (pushChildren H bounds child (List.finRange N) (H.pop_heap refs).dropLast
                  ++ pre), k, by omega, ?_, h2⟩
              simp only [h1, List.cons_append, List.append_assoc]
          · cases hp
    · cases hp

/-- A run of the opening loop that ends in `pop_heap` and `back()` on an empty array has
emptied the array. -/
theorem openLoop_undefined (H : HeapAlgorithms (BuildRef N V) K key) (extSize : Nat) :
    ∀ (fuel : Nat) (refs : List (BuildRef N V)), is_heap key refs →
      (openLoop H extSize fuel refs).2 = Outcome.undefinedBehaviour →
      finalState refs (openLoop H extSize fuel refs).1 = [] := by
  intro fuel
  induction fuel with
  | zero =>
    intro refs _ h
    simp only [openLoop] at h
    split at h <;> cases h
  | succ fuel ih =>
    intro refs hheap h
    have hpheap := H.pop_heap_heap refs hheap
    by_cases hcond : openCond N extSize refs.length = true
    · cases hlast : (H.pop_heap refs).getLast? with
      | none =>
        have e : openLoop H extSize (fuel + 1) refs
            = ([H.pop_heap refs], Outcome.undefinedBehaviour) := by
          simp only [openLoop, hcond, if_true, hlast]
        rw [e]
        show finalState refs [H.pop_heap refs] = []
        rw [finalState_cons]
        exact List.getLast?_eq_none_iff.mp hlast
      | some back =>
        cases hn : back.node with
        | aabb bounds child =>
          obtain ⟨_, hh3, _⟩ := pushChildren_spec H bounds child (List.finRange N) _ hpheap
          rw [openLoop_step H extSize fuel refs back bounds child hcond hlast hn] at h ⊢
          simp only [finalState_cons, finalState_append]
          exact ih _ hh3 h
        | emptyNode =>
          have e : openLoop H extSize (fuel + 1) refs
              = ([H.pop_heap refs], Outcome.finished) := by
            simp [openLoop, hcond, hlast, hn, NodeRef.isLeaf]
          rw [e] at h
          cases h
        | leaf q n =>
          have e : openLoop H extSize (fuel + 1) refs
              = ([H.pop_heap refs], Outcome.finished) := by
            simp [openLoop, hcond, hlast, hn, NodeRef.isLeaf]
          rw [e] at h
          cases h
    · have e : openLoop H extSize (fuel + 1) refs = ([], Outcome.finished) := by
        simp only [openLoop, hcond]
        rfl
      rw [e] at h
      cases h

/-- C29 (one opening step replaces a node by its children): every iteration of the loop
of `open_sequential` that examines an entry is an iteration of the run (the run comes to
the array `p.1` at its start and goes on from there as the loop does), and if the popped
entry is an AABB node, the loop takes the array from `p.1` to the array `p.2` the inner
loop leaves and goes on from `p.2`; the popped entry is an entry of `p.1`, and `p.2`
together with the popped entry is a rearrangement of `p.1` together with one entry
`BuildRef(node->bounds(i), node->child(i))` for each slot `i` whose child is not
`emptyNode`: the popped entry is gone, the non-empty children are added, and every other
entry is kept. -/
theorem open_sequential_opens_node (H : HeapAlgorithms (BuildRef N V) K key)
    (extSize : Nat) (refs : List (BuildRef N V)) (fuel : Nat)
    (p : List (BuildRef N V) × List (BuildRef N V))
    (hp : p ∈ openSteps H extSize fuel (H.make_heap refs))
    (back : BuildRef N V) (bounds : Fin N → BBox V) (child : Fin N → NodeRef N V)
    (hback : (H.pop_heap p.1).getLast? = some back)
    (hnode : back.node = NodeRef.aabb bounds child) :
    (∃ pre k, k < fuel ∧
      (openLoop H extSize fuel (H.make_heap refs)).1
        = pre ++ (openLoop H extSize (k + 1) p.1).1 ∧
      (openLoop H extSize fuel (H.make_heap refs)).2 = (openLoop H extSize (k + 1) p.1).2 ∧
      (refs ≠ [] → fuel = BuildRef.aabbNodes refs + 1 →
        (open_sequential H extSize refs).states
          = H.make_heap refs :: pre ++ (openLoop H extSize (k + 1) p.1).1 ∧
        (open_sequential H extSize refs).outcome = (openLoop H extSize (k + 1) p.1).2)) ∧
    (∀ k, openLoop H extSize (k + 1) p.1
      = (H.pop_heap p.1 :: (H.pop_heap p.1).dropLast ::
          pushChildren H bounds child (List.finRange N) (H.pop_heap p.1).dropLast ++
            (openLoop H extSize k p.2).1,
        (openLoop H extSize k p.2).2)) ∧
    p.2 = finalState (H.pop_heap p.1).dropLast
      (pushChildren H bounds child (List.finRange N) (H.pop_heap p.1).dropLast) ∧
    back ∈ p.1 ∧
    (back :: p.2).Perm
      (p.1 ++ ((List.finRange N).filter fun i => !(child i).isEmpty).map
        fun i => BuildRef.mk (bounds i) (child i)) := by
  obtain ⟨_, hcond, back', hback', hhead, _, _, _, hopen⟩ :=
    openSteps_spec H extSize fuel _ (H.make_heap_heap refs) p hp
  rw [hback] at hback'
  cases hback'
  obtain ⟨hp2, hperm, _, _⟩ := hopen bounds child hnode
  obtain ⟨pre, k, hk, h1, h2⟩ := openSteps_reach H extSize fuel _ p hp
  refine ⟨⟨pre, k, hk, h1, h2, fun hne hf => ?_⟩, fun k' => ?_, hp2,
    List.mem_of_mem_head? hhead, hperm⟩
  · rw [open_sequential_of_nonempty H extSize refs (by
      intro h
      exact hne (List.length_eq_zero.mp h))]
    subst hf
    exact ⟨by rw [h1]; rfl, h2⟩
  · rw [openLoop_step H extSize k' p.1 back bounds child hcond hback hnode, ← hp2]

/-- An opening step at work: the first iteration of `open_sequential` on `exampleRefs`
pops the sub-BVH `exampleRoot` and puts its one non-empty child in its place. -/
theorem open_sequential_opens_node_witness :
    ∃ p back bounds child,
      p ∈ openSteps (sortedHeap exampleArea) 5 3 ((sortedHeap exampleArea).make_heap exampleRefs) ∧
      ((sortedHeap exampleArea).pop_heap p.1).getLast? = some back ∧
      back.node = NodeRef.aabb bounds child ∧
      back ∈ p.1 ∧
      (back :: p.2).Perm
        (p.1 ++ ((List.finRange 2).filter fun i => !(child i).isEmpty).map
          fun i => BuildRef.mk (bounds i) (child i)) :=
  ⟨_, _, _, _, List.mem_cons_self _ _, rfl, rfl,
    (open_sequential_opens_node (sortedHeap exampleArea) 5 exampleRefs 3 _
      (List.mem_cons_self _ _) _ _ _ rfl rfl).2.2.2⟩

/-- C30, evaluated: `open_sequential` on an array whose only entry is an AABB node without
a non-empty child, with room for the opening (`extSize = 5`, `N = 2`).  The first
iteration pops the node and pushes nothing, so the array is empty; the loop condition
`refs_.size()+N-1 <= extSize` still holds, and the next iteration calls `pop_heap` and
`refs_.back()` on the empty array: the run does not end regularly. -/
theorem open_sequential_runs_empty :
    BuildRef.aabbNodes [(⟨⟨1, 4⟩, exampleHollow⟩ : BuildRef 2 (Fin 8))] = 1 ∧
    (open_sequential (sortedHeap exampleArea) 5 [⟨⟨1, 4⟩, exampleHollow⟩]).states.map List.length
      = [1, 1, 0, 0] ∧
    openCond 2 5 0 = true ∧
    (open_sequential (sortedHeap exampleArea) 5 [⟨⟨1, 4⟩, exampleHollow⟩]).outcome
      = Outcome.undefinedBehaviour :=
  ⟨by decide, by decide, by decide, by decide⟩

/-- C30, amended (the opening terminates unless it empties the array): for every `extSize`
and every array of references to finite sub-BVHs, the loop of `open_sequential` is over
within one iteration more than there are AABB nodes below the array.  It ends regularly,
through its condition or at a leaf, or else in `pop_heap` and `refs_.back()` on an array
it has emptied, which can only happen when no leaf is reachable from the array; so it
ends regularly whenever a leaf is reachable, and whenever every AABB node has a non-empty
child.  Every iteration that examines an entry is an iteration of the run, and every
iteration that opens a node leaves strictly fewer AABB nodes below the array than there
were, whether the node has several, one or no non-empty child. -/
theorem open_sequential_terminates (H : HeapAlgorithms (BuildRef N V) K key)
    (extSize : Nat) (refs : List (BuildRef N V)) :
    (open_sequential H extSize refs).outcome ≠ Outcome.outOfFuel ∧
    ((open_sequential H extSize refs).outcome = Outcome.finished ∨
      ((open_sequential H extSize refs).outcome = Outcome.undefinedBehaviour ∧
        (open_sequential H extSize refs).final = [] ∧ BuildRef.leafRefs refs = [])) ∧
    (BuildRef.leafRefs refs ≠ [] →
      (open_sequential H extSize refs).outcome = Outcome.finished) ∧
    ((∀ r ∈ refs, r.node.populated) →
      (open_sequential H extSize refs).outcome = Outcome.finished) ∧
    (∀ fuel, BuildRef.aabbNodes refs < fuel →
      (openLoop H extSize fuel (H.make_heap refs)).2 ≠ Outcome.outOfFuel) ∧
    (∀ fuel, ∀ p ∈ openSteps H extSize fuel (H.make_heap refs),
      (∃ pre k, k < fuel ∧
        (openLoop H extSize fuel (H.make_heap refs)).1
          = pre ++ (openLoop H extSize (k + 1) p.1).1 ∧
        (openLoop H extSize fuel (H.make_heap refs)).2
          = (openLoop H extSize (k + 1) p.1).2) ∧
      ∀ back, (H.pop_heap p.1).getLast? = some back → back.node.isLeaf = false →
        (∀ k, ∃ trace, openLoop H extSize (k + 1) p.1
          = (trace ++ (openLoop H extSize k p.2).1, (openLoop H extSize k p.2).2)) ∧
        BuildRef.aabbNodes p.2 < BuildRef.aabbNodes p.1) := by
  have hfuel : ∀ fuel, BuildRef.aabbNodes refs < fuel →
      (openLoop H extSize fuel (H.make_heap refs)).2 ≠ Outcome.outOfFuel := by
    intro fuel hlt
    refine (openLoop_spec H extSize fuel _ (H.make_heap_heap refs)).2.1 ?_
    rw [BuildRef.aabbNodes_perm (H.make_heap_perm refs)]
    exact hlt
  have hrun : (open_sequential H extSize refs).outcome ≠ Outcome.outOfFuel := by
    by_cases hlen : refs.length = 0
    · rw [open_sequential_of_empty H extSize refs hlen]
      simp
    · rw [open_sequential_of_nonempty H extSize refs hlen]
      exact hfuel _ (Nat.lt_succ_self _)
  have hdich : (open_sequential H extSize refs).outcome = Outcome.finished ∨
      ((open_sequential H extSize refs).outcome = Outcome.undefinedBehaviour ∧
        (open_sequential H extSize refs).final = [] ∧ BuildRef.leafRefs refs = []) := by
    by_cases hlen : refs.length = 0
    · left
      rw [open_sequential_of_empty H extSize refs hlen]
    · rw [open_sequential_of_nonempty H extSize refs hlen] at hrun ⊢
      simp only at hrun ⊢
      cases ho : (openLoop H extSize (BuildRef.aabbNodes refs + 1) (H.make_heap refs)).2 with
      | finished => exact Or.inl rfl
      | outOfFuel => exact absurd ho hrun
      | undefinedBehaviour =>
        right
        have hfin := openLoop_undefined H extSize (BuildRef.aabbNodes refs + 1) _
          (H.make_heap_heap refs) ho
        have hleaf := (openLoop_spec H extSize (BuildRef.aabbNodes refs + 1) _
          (H.make_heap_heap refs)).1
        rw [hfin] at hleaf
        refine ⟨rfl, ?_, ?_⟩
        · show finalState refs (H.make_heap refs :: _) = []
          rw [finalState_cons]
          exact hfin
        · have h1 : BuildRef.leafRefs (H.make_heap refs) = [] :=
            List.Perm.eq_nil hleaf.symm
          have h2 := BuildRef.leafRefs_perm (H.make_heap_perm refs)
          rw [h1] at h2
          exact List.Perm.eq_nil h2.symm
  refine ⟨hrun, hdich, fun hl => ?_, fun hpop => ?_, hfuel, fun fuel p hp => ⟨?_, ?_⟩⟩
  · rcases hdich with h | ⟨_, _, h⟩
    · exact h
    · exact absurd h hl
  · by_cases hlen : refs.length = 0
    · rw [open_sequential_of_empty H extSize refs hlen]
    · have hne : H.make_heap refs ≠ [] := by
        intro h
        have := (H.make_heap_perm refs).length_eq
        rw [h] at this
        exact hlen this.symm
      have hub := openLoop_defined H extSize (BuildRef.aabbNodes refs + 1) _
        (H.make_heap_heap refs) hne
        (fun r hr => hpop r ((H.make_heap_perm refs).mem_iff.mp hr))
      rcases hdich with h | ⟨h, _, _⟩
      · exact h
      · rw [open_sequential_of_nonempty H extSize refs hlen] at h
        exact absurd h hub
  · exact openSteps_reach H extSize fuel _ p hp
  · intro back hback hleaf
    obtain ⟨_, hcond, back', hback', _, _, _, _, hopen⟩ :=
      openSteps_spec H extSize fuel _ (H.make_heap_heap refs) p hp
    rw [hback] at hback'
    cases hback'
    cases hn : back.node with
    | emptyNode => rw [hn] at hleaf; cases hleaf
    | leaf q n => rw [hn] at hleaf; cases hleaf
    | aabb bounds child =>
      obtain ⟨hp2, _, hdec, _⟩ := hopen bounds child hn
      refine ⟨fun k => ⟨H.pop_heap p.1 :: (H.pop_heap p.1).dropLast ::
        pushChildren H bounds child (List.finRange N) (H.pop_heap p.1).dropLast, ?_⟩, by omega⟩
      rw [openLoop_step H extSize k p.1 back bounds child hcond hback hn, ← hp2]

end OpeningRun

/-! ## The bounds of the general path -/

section GeneralBounds

variable {N : Nat} {V K : Type} [LinearOrder K] {key : BuildRef N V → K}
variable [Lattice V] [BoundedOrder V]

end GeneralBounds

end Embree
